import Mathlib

/-!
# usbip-win vhci: the URB request broker (`driver/vhci/usbreq.c`)

A shallow embedding of the request queues of one virtual device (`vpdo`) and of the
functions of `usbreq.c` that work on them, followed by the properties proved of them.

Modelling choices.

* A `struct urb_req *` is an address (`Nat`); the fields of the request live in a memory
  `mem : Nat → urb_req`.  `NULL` is `none`.
* The three intrusive `LIST_ENTRY` rings of the vpdo are lists of addresses, head first:
  `head_urbr` (linked through `list_all`), `head_urbr_pending` and `head_urbr_sent` (both
  linked through `list_state`).  `InsertTailList` appends, `RemoveEntryListInit` erases.
* Each function runs to its end without another thread in between (the spin lock is not
  modelled); the calls into the I/O manager and the pool are recorded in `events`.  The
  one exception is the cancel of the waiting read irp while `submit_urbr` has the lock
  released around `store_urbr`, the case the source itself tests for:
  `submit_urbr_unlocked` adds it to `submit_urbr`, and the functions and runs built on it
  (`remove_cancelled_urbr_unlocked`, `cancel_urbr_unlocked`, `run_unlocked`) take for each
  call whether it happens.
* `store_urbr`, the pool allocator and the width of the sequence counter are not declared in
  the sources; they are the fields of `Env`.
-/

namespace Usbreq

/-! ## Status codes -/

/-- An `NTSTATUS` value, as the unsigned 32-bit number of its bit pattern. -/
abbrev NTSTATUS := Nat

/-- Value of `STATUS_SUCCESS` (ntstatus.h). -/
abbrev STATUS_SUCCESS : NTSTATUS := 0x00000000
/-- Value of `STATUS_PENDING` (ntstatus.h). -/
abbrev STATUS_PENDING : NTSTATUS := 0x00000103
/-- Value of `STATUS_INVALID_PARAMETER` (ntstatus.h). -/
abbrev STATUS_INVALID_PARAMETER : NTSTATUS := 0xC000000D
/-- Value of `STATUS_CANCELLED` (ntstatus.h). -/
abbrev STATUS_CANCELLED : NTSTATUS := 0xC0000120

/-- The macro `NT_ERROR(Status)`: `((ULONG)(Status) >> 30) == 3`. -/
def NT_ERROR (status : NTSTATUS) : Bool := status / 2 ^ 30 == 3

/-! ## Data -/

/-- The fields of `struct urb_req` that `usbreq.c` reads or writes.  The two `LIST_ENTRY`
fields are represented by the membership of the request's address in the lists of the
vpdo; the back pointer `vpdo` is the one context of the model. -/
structure urb_req where
  irp : Option Nat
  seq_num : Nat
  seq_num_unlink : Nat
  deriving DecidableEq, Repr

/-- The part `hdr->base` of a `struct usbip_header`. -/
structure usbip_header_basic where
  seqnum : Nat
  deriving DecidableEq, Repr

/-- A `struct usbip_header`; only `base.seqnum` is read here. -/
structure usbip_header where
  base : usbip_header_basic
  deriving DecidableEq, Repr

/-- The fields of `usbip_vpdo_dev_t` used by `usbreq.c`. -/
structure usbip_vpdo_dev_t where
  head_urbr : List Nat
  head_urbr_pending : List Nat
  head_urbr_sent : List Nat
  urbr_sent_partial : Option Nat
  len_sent_partial : Nat
  pending_read_irp : Option Nat
  seq_num : Nat
  deriving DecidableEq, Repr

/-- A call out of `usbreq.c` that is visible to the rest of the system. -/
inductive Event where
  | IoSetCancelRoutine (irp : Nat)
  | IoMarkIrpPending (irp : Nat)
  | IoCompleteRequest (irp : Nat) (status : NTSTATUS)
  | IoReleaseCancelSpinLock (irp : Nat)
  | ExFreeToNPagedLookasideList (urbr : Nat)
  | ASSERT_failed
  deriving DecidableEq, Repr

/-- The whole state the functions work on: the vpdo, the memory of the requests, the
blocks of `g_lookaside` that are handed out, the calls made so far, and (as a history
variable) every assignment `urbr->seq_num = ++(vpdo->seq_num)` made so far, oldest
first, as the pair of the request and the number it got. -/
structure State where
  vpdo : usbip_vpdo_dev_t
  mem : Nat → urb_req
  allocated : List Nat
  events : List Event
  seq_log : List (Nat × Nat)

/-- What the sources use without declaring it.

* `seq_bits`: the width of `vpdo->seq_num` and `urbr->seq_num`, so that `++` wraps at
  `2 ^ seq_bits` (the fields are declared in headers outside `usbreq.c`; they are passed
  as `unsigned long` and printed with `%u`, which is 32 bits on the driver's targets).
* `store_urbr`: `extern NTSTATUS store_urbr(PIRP irp, struct urb_req *urbr)`, given the
  state at the call, the read irp and the request; it returns its status and the value
  it leaves in `vpdo->len_sent_partial`.
* `ExAllocateFromNPagedLookasideList`: the pool, given the blocks that are handed out;
  `none` is `NULL`. -/
structure Env where
  seq_bits : Nat
  store_urbr : State → Option Nat → Nat → NTSTATUS × Nat
  ExAllocateFromNPagedLookasideList : List Nat → Option Nat

/-- Writing the record `v` at address `p`. -/
def write (mem : Nat → urb_req) (p : Nat) (v : urb_req) : Nat → urb_req :=
  fun q => if q = p then v else mem q

/-- The value `++x` of a counter of `bits` bits. -/
def pre_increment (bits : Nat) (x : Nat) : Nat := (x + 1) % 2 ^ bits

/-! ## The functions of `usbreq.c` -/

/-- Source `find_sent_urbr`: the first request of `head_urbr_sent` whose `seq_num` is
`hdr->base.seqnum` is unlinked from `head_urbr` and `head_urbr_sent` and returned. -/
def find_sent_urbr (s : State) (hdr : usbip_header) : Option Nat × State :=
  match s.vpdo.head_urbr_sent.find? (fun urbr => (s.mem urbr).seq_num == hdr.base.seqnum) with
  | some urbr =>
    (some urbr,
      { s with vpdo := { s.vpdo with
          head_urbr := s.vpdo.head_urbr.erase urbr
          head_urbr_sent := s.vpdo.head_urbr_sent.erase urbr } })
  | none => (none, s)

/-- Source `find_pending_urbr`: the head of `head_urbr_pending` gets the next sequence
number and is unlinked from the pending list (and from no other list). -/
def find_pending_urbr (env : Env) (s : State) : Option Nat × State :=
  match s.vpdo.head_urbr_pending with
  | [] => (none, s)
  | urbr :: rest =>
    let seq := pre_increment env.seq_bits s.vpdo.seq_num
    (some urbr,
      { s with
        vpdo := { s.vpdo with seq_num := seq, head_urbr_pending := rest }
        mem := write s.mem urbr { s.mem urbr with seq_num := seq }
        seq_log := s.seq_log ++ [(urbr, seq)] })

/-- Source `find_urbr_with_irp`: the first request of `head_urbr` whose `irp` is `irp`. -/
def find_urbr_with_irp (s : State) (irp : Option Nat) : Option Nat :=
  s.vpdo.head_urbr.find? (fun urbr => (s.mem urbr).irp == irp)

/-- Source `create_urbr`: a zeroed block from the pool with `irp` and `seq_num_unlink`
set and both list entries empty, or `NULL` when the pool gives none. -/
def create_urbr (env : Env) (s : State) (irp : Option Nat) (seq_num_unlink : Nat) :
    Option Nat × State :=
  match env.ExAllocateFromNPagedLookasideList s.allocated with
  | none => (none, s)
  | some urbr =>
    (some urbr,
      { s with
        allocated := s.allocated ++ [urbr]
        mem := write s.mem urbr { irp := irp, seq_num := 0, seq_num_unlink := seq_num_unlink } })

/-- Source `free_urbr`: the two `ASSERT`s (the request is in no list), then the block
goes back to the pool. -/
def free_urbr (s : State) (urbr : Nat) : State :=
  let a1 := if urbr ∈ s.vpdo.head_urbr then [Event.ASSERT_failed] else []
  let a2 := if urbr ∈ s.vpdo.head_urbr_pending ∨ urbr ∈ s.vpdo.head_urbr_sent
    then [Event.ASSERT_failed] else []
  { s with
    allocated := s.allocated.erase urbr
    events := s.events ++ a1 ++ a2 ++ [Event.ExFreeToNPagedLookasideList urbr] }

/-- The two calls `IoSetCancelRoutine(urbr->irp, cancel_urbr); IoMarkIrpPending(urbr->irp);`
made when `urbr->irp != NULL`. -/
def set_cancel_and_mark (irp : Option Nat) : List Event :=
  match irp with
  | some i => [Event.IoSetCancelRoutine i, Event.IoMarkIrpPending i]
  | none => []

/-- The statements of `submit_urbr` between the queued branch and the call of
`store_urbr`: `vpdo->urbr_sent_partial = urbr; urbr->seq_num = ++(vpdo->seq_num);`.
This is the state `store_urbr` is called in. -/
def handoff_state (env : Env) (s : State) (urbr : Nat) : State :=
  let seq := pre_increment env.seq_bits s.vpdo.seq_num
  { s with
    vpdo := { s.vpdo with urbr_sent_partial := some urbr, seq_num := seq }
    mem := write s.mem urbr { s.mem urbr with seq_num := seq }
    seq_log := s.seq_log ++ [(urbr, seq)] }

/-- Source `submit_urbr`: the request is queued when a request is partly sent or no
read irp waits; otherwise it is numbered and handed to `store_urbr` with the waiting
read irp, and the outcome decides where it is linked. -/
def submit_urbr (env : Env) (s : State) (urbr : Nat) : NTSTATUS × State :=
  if s.vpdo.urbr_sent_partial ≠ none ∨ s.vpdo.pending_read_irp = none then
    (STATUS_PENDING,
      { s with
        vpdo := { s.vpdo with
          head_urbr_pending := s.vpdo.head_urbr_pending ++ [urbr]
          head_urbr := s.vpdo.head_urbr ++ [urbr] }
        events := s.events ++ set_cancel_and_mark (s.mem urbr).irp })
  else
    let read_irp := s.vpdo.pending_read_irp
    let s1 := handoff_state env s urbr
    let r := env.store_urbr s1 read_irp urbr
    let status := r.1
    let s2 : State := { s1 with vpdo := { s1.vpdo with len_sent_partial := r.2 } }
    if status = STATUS_SUCCESS then
      let ev := set_cancel_and_mark (s2.mem urbr).irp
      let vpdo3 : usbip_vpdo_dev_t :=
        if s2.vpdo.len_sent_partial = 0 then
          { s2.vpdo with
            urbr_sent_partial := none
            head_urbr_sent := s2.vpdo.head_urbr_sent ++ [urbr] }
        else s2.vpdo
      let vpdo4 : usbip_vpdo_dev_t := { vpdo3 with head_urbr := vpdo3.head_urbr ++ [urbr] }
      let read_irp2 := vpdo4.pending_read_irp
      let vpdo5 : usbip_vpdo_dev_t := { vpdo4 with pending_read_irp := none }
      match read_irp2 with
      | some i =>
        (STATUS_PENDING,
          { s2 with
            vpdo := vpdo5
            events := s2.events ++ ev ++ [Event.IoCompleteRequest i STATUS_SUCCESS] })
      | none =>
        (STATUS_INVALID_PARAMETER, { s2 with vpdo := vpdo5, events := s2.events ++ ev })
    else
      (STATUS_INVALID_PARAMETER,
        { s2 with vpdo := { s2.vpdo with urbr_sent_partial := none } })

/-- Source `submit_urbr`, together with the one thing another thread can do while the
lock is released around `store_urbr` that the source provides for: with `read_cancelled`
the waiting read irp was cancelled in that time, so that `vpdo->pending_read_irp` is
`NULL` when the lock is taken again and `read_irp` is `NULL` at `if (read_irp)` (the
branch that logs "read irp was cancelled").  Without `read_cancelled` this is
`submit_urbr`. -/
def submit_urbr_unlocked (env : Env) (s : State) (urbr : Nat) (read_cancelled : Bool) :
    NTSTATUS × State :=
  if s.vpdo.urbr_sent_partial ≠ none ∨ s.vpdo.pending_read_irp = none then
    (STATUS_PENDING,
      { s with
        vpdo := { s.vpdo with
          head_urbr_pending := s.vpdo.head_urbr_pending ++ [urbr]
          head_urbr := s.vpdo.head_urbr ++ [urbr] }
        events := s.events ++ set_cancel_and_mark (s.mem urbr).irp })
  else
    let read_irp := s.vpdo.pending_read_irp
    let s1 := handoff_state env s urbr
    let r := env.store_urbr s1 read_irp urbr
    let status := r.1
    let s2 : State :=
      { s1 with
        vpdo := { s1.vpdo with
          len_sent_partial := r.2
          pending_read_irp := if read_cancelled then none else s1.vpdo.pending_read_irp } }
    if status = STATUS_SUCCESS then
      let ev := set_cancel_and_mark (s2.mem urbr).irp
      let vpdo3 : usbip_vpdo_dev_t :=
        if s2.vpdo.len_sent_partial = 0 then
          { s2.vpdo with
            urbr_sent_partial := none
            head_urbr_sent := s2.vpdo.head_urbr_sent ++ [urbr] }
        else s2.vpdo
      let vpdo4 : usbip_vpdo_dev_t := { vpdo3 with head_urbr := vpdo3.head_urbr ++ [urbr] }
      let read_irp2 := vpdo4.pending_read_irp
      let vpdo5 : usbip_vpdo_dev_t := { vpdo4 with pending_read_irp := none }
      match read_irp2 with
      | some i =>
        (STATUS_PENDING,
          { s2 with
            vpdo := vpdo5
            events := s2.events ++ ev ++ [Event.IoCompleteRequest i STATUS_SUCCESS] })
      | none =>
        (STATUS_INVALID_PARAMETER, { s2 with vpdo := vpdo5, events := s2.events ++ ev })
    else
      (STATUS_INVALID_PARAMETER,
        { s2 with vpdo := { s2.vpdo with urbr_sent_partial := none } })

/-- Source `submit_urbr_unlink`: an unlink request for `seq_num_unlink` is created and
submitted; it is freed again when `submit_urbr` fails. -/
def submit_urbr_unlink (env : Env) (s : State) (seq_num_unlink : Nat) : State :=
  match create_urbr env s none seq_num_unlink with
  | (some urbr_unlink, s1) =>
    let r := submit_urbr env s1 urbr_unlink
    if NT_ERROR r.1 then free_urbr r.2 urbr_unlink else r.2
  | (none, s1) => s1

/-- The statements of `remove_cancelled_urbr` under the lock for the request found:
`RemoveEntryListInit(&urbr->list_state); RemoveEntryListInit(&urbr->list_all);` and, when
the request is the partly sent one, `urbr_sent_partial = NULL; len_sent_partial = 0;`. -/
def unlink_cancelled (s : State) (urbr : Nat) : State :=
  let vpdo1 : usbip_vpdo_dev_t :=
    { s.vpdo with
      head_urbr_pending := s.vpdo.head_urbr_pending.erase urbr
      head_urbr_sent := s.vpdo.head_urbr_sent.erase urbr
      head_urbr := s.vpdo.head_urbr.erase urbr }
  if vpdo1.urbr_sent_partial = some urbr then
    { s with vpdo := { vpdo1 with urbr_sent_partial := none, len_sent_partial := 0 } }
  else { s with vpdo := vpdo1 }

/-- Source `remove_cancelled_urbr`: the request of the irp is looked up in `head_urbr`;
when there is one it is unlinked, an unlink request for its `seq_num` is submitted and
the request is freed. -/
def remove_cancelled_urbr (env : Env) (s : State) (irp : Option Nat) : State :=
  match find_urbr_with_irp s irp with
  | some urbr =>
    let s1 := unlink_cancelled s urbr
    let s2 := submit_urbr_unlink env s1 (s1.mem urbr).seq_num
    free_urbr s2 urbr
  | none => s

/-- Source `cancel_urbr`, the cancel routine of a caller's irp. -/
def cancel_urbr (env : Env) (s : State) (irp : Nat) : State :=
  let s1 := remove_cancelled_urbr env s (some irp)
  { s1 with
    events := s1.events ++
      [Event.IoCompleteRequest irp STATUS_CANCELLED, Event.IoReleaseCancelSpinLock irp] }

/-- The state in which `submit_urbr_unlink` calls `submit_urbr` during the cancel of the
request `urbr`, when the pool has handed out block `p`: `urbr` is unlinked, and `p` is the
new request made by `create_urbr(vpdo, NULL, urbr->seq_num)`. -/
def unlink_request_state (s : State) (urbr p : Nat) : State :=
  { unlink_cancelled s urbr with
    allocated := s.allocated ++ [p]
    mem := write s.mem p { irp := none, seq_num := 0, seq_num_unlink := (s.mem urbr).seq_num } }

/-- Source `submit_urbr_unlink`, with `submit_urbr_unlocked` for its call of
`submit_urbr`: `read_cancelled` says whether the waiting read irp is cancelled while
`store_urbr` stores the unlink request. -/
def submit_urbr_unlink_unlocked (env : Env) (s : State) (seq_num_unlink : Nat)
    (read_cancelled : Bool) : State :=
  match create_urbr env s none seq_num_unlink with
  | (some urbr_unlink, s1) =>
    let r := submit_urbr_unlocked env s1 urbr_unlink read_cancelled
    if NT_ERROR r.1 then free_urbr r.2 urbr_unlink else r.2
  | (none, s1) => s1

/-- Source `remove_cancelled_urbr`, with `submit_urbr_unlink_unlocked` for its call of
`submit_urbr_unlink`. -/
def remove_cancelled_urbr_unlocked (env : Env) (s : State) (irp : Option Nat)
    (read_cancelled : Bool) : State :=
  match find_urbr_with_irp s irp with
  | some urbr =>
    let s1 := unlink_cancelled s urbr
    let s2 := submit_urbr_unlink_unlocked env s1 (s1.mem urbr).seq_num read_cancelled
    free_urbr s2 urbr
  | none => s

/-- Source `cancel_urbr`, with `remove_cancelled_urbr_unlocked` for its call of
`remove_cancelled_urbr`. -/
def cancel_urbr_unlocked (env : Env) (s : State) (irp : Nat) (read_cancelled : Bool) :
    State :=
  let s1 := remove_cancelled_urbr_unlocked env s (some irp) read_cancelled
  { s1 with
    events := s1.events ++
      [Event.IoCompleteRequest irp STATUS_CANCELLED, Event.IoReleaseCancelSpinLock irp] }

/-! ## The two functions of `usbreq.c` beside the queues -/

/-- The part `UrbHeader` of a `URB`. -/
structure URB_HEADER where
  Function : Nat
  deriving DecidableEq, Repr

/-- The part of a bulk, interrupt or isochronous transfer `URB` read here. -/
structure URB_TRANSFER where
  PipeHandle : Nat
  deriving DecidableEq, Repr

/-- The members of the union `URB` that `is_port_urbr` reads. -/
structure URB where
  UrbHeader : URB_HEADER
  UrbBulkOrInterruptTransfer : URB_TRANSFER
  UrbIsochronousTransfer : URB_TRANSFER
  deriving DecidableEq, Repr

/-- Value of `URB_FUNCTION_BULK_OR_INTERRUPT_TRANSFER` (usb.h). -/
abbrev URB_FUNCTION_BULK_OR_INTERRUPT_TRANSFER : Nat := 0x0009
/-- Value of `URB_FUNCTION_ISOCH_TRANSFER` (usb.h). -/
abbrev URB_FUNCTION_ISOCH_TRANSFER : Nat := 0x000A

/-- Source `is_port_urbr`.  The macro `PIPE2ADDR`, which takes the endpoint address out
of a pipe handle, is not declared in the sources and is a parameter; so is
`Argument1`, which gives for an irp the
`IoGetCurrentIrpStackLocation(irp)->Parameters.Others.Argument1`, the `URB` of the irp
or `NULL`. -/
def is_port_urbr (PIPE2ADDR : Nat → Nat) (Argument1 : Nat → Option URB) (urbr : urb_req)
    (epaddr : Nat) : Bool :=
  match urbr.irp with
  | none => false
  | some irp =>
    match Argument1 irp with
    | none => false
    | some urb =>
      if urb.UrbHeader.Function = URB_FUNCTION_BULK_OR_INTERRUPT_TRANSFER then
        PIPE2ADDR urb.UrbBulkOrInterruptTransfer.PipeHandle == epaddr
      else if urb.UrbHeader.Function = URB_FUNCTION_ISOCH_TRANSFER then
        PIPE2ADDR urb.UrbIsochronousTransfer.PipeHandle == epaddr
      else false

/-- The byte `bmRequestType` of a setup packet, a union of the byte `B` and its bit
fields, as the values of the bit fields; `Reserved` stands for the bits of `B` that
belong to none of the three named fields.  The assignment `B = 0` clears all four.  The
bit field `Type` of the source is `Type_` here. -/
structure BM_REQUEST_TYPE where
  Recipient : Nat
  Reserved : Nat
  Type_ : Nat
  Dir : Nat
  deriving DecidableEq, Repr

/-- The fields of `usb_cspkt_t`, the setup packet. -/
structure usb_cspkt_t where
  bmRequestType : BM_REQUEST_TYPE
  bRequest : Nat
  wValue : Nat
  wIndex : Nat
  wLength : Nat
  deriving DecidableEq, Repr

/-- Value of `BMREQUEST_HOST_TO_DEVICE` (usb.h). -/
abbrev BMREQUEST_HOST_TO_DEVICE : Nat := 0
/-- Value of `BMREQUEST_DEVICE_TO_HOST` (usb.h). -/
abbrev BMREQUEST_DEVICE_TO_HOST : Nat := 1

/-- Source `build_setup_packet`.  The arguments are `unsigned char` values.  The widths
of the bit fields `Recipient` and `Type` are not declared in the sources and are
parameters (`Dir` is one bit); an assignment to a bit field keeps the low bits that fit. -/
def build_setup_packet (recipient_bits type_bits : Nat) (csp : usb_cspkt_t)
    (direct_in type recip request : Nat) : usb_cspkt_t :=
  let b0 : BM_REQUEST_TYPE := { Recipient := 0, Reserved := 0, Type_ := 0, Dir := 0 }
  let b1 : BM_REQUEST_TYPE := { b0 with Type_ := type % 2 ^ type_bits }
  let b2 : BM_REQUEST_TYPE :=
    if direct_in ≠ 0 then { b1 with Dir := BMREQUEST_DEVICE_TO_HOST % 2 ^ 1 } else b1
  let b3 : BM_REQUEST_TYPE := { b2 with Recipient := recip % 2 ^ recipient_bits }
  { csp with bmRequestType := b3, bRequest := request }

/-! ## Contexts and requests -/

/-- The request at `urbr` is in no list of the vpdo. -/
def in_no_list (v : usbip_vpdo_dev_t) (urbr : Nat) : Prop :=
  urbr ∉ v.head_urbr ∧ urbr ∉ v.head_urbr_pending ∧ urbr ∉ v.head_urbr_sent

instance (v : usbip_vpdo_dev_t) (urbr : Nat) : Decidable (in_no_list v urbr) := by
  unfold in_no_list; infer_instance

/-- The context of a vpdo on which nothing has happened yet: the three lists are empty, no
request is partly sent, no read irp waits, the counter is 0.  The memory and the blocks
already handed out by the pool (requests created but not yet submitted) are arbitrary. -/
def fresh_context (mem : Nat → urb_req) (allocated : List Nat) : State :=
  { vpdo :=
      { head_urbr := [], head_urbr_pending := [], head_urbr_sent := []
        urbr_sent_partial := none, len_sent_partial := 0
        pending_read_irp := none, seq_num := 0 }
    mem := mem
    allocated := allocated
    events := []
    seq_log := [] }

/-- Modelled from the spec: the consumer's pull that stays behind as the
`waiting_consumer` ("the one outstanding pull, or none") is the read dispatch routine of
the driver, which is not in `usbreq.c`; only the field `pending_read_irp` it fills is
used there.  The read irp `irp` becomes the waiting consumer.  Whether there was
something to deliver is not asked here, so what is proved over all sequences of calls
covers every way the driver can park a read irp; the sequences given as instances park
one only when nothing is pending and no request is partly sent. -/
def park_read_irp (s : State) (irp : Nat) : State :=
  { s with vpdo := { s.vpdo with pending_read_irp := some irp } }

/-- One call into the broker by the rest of the driver. -/
inductive Op where
  | create (irp : Option Nat) (seq_num_unlink : Nat)
  | submit (urbr : Nat)
  | free (urbr : Nat)
  | find_pending
  | find_sent (hdr : usbip_header)
  | cancel (irp : Nat)
  | read_waits (irp : Nat)
  deriving DecidableEq, Repr

/-- The state after one call. -/
def step (env : Env) (s : State) : Op → State
  | Op.create irp seq_num_unlink => (create_urbr env s irp seq_num_unlink).2
  | Op.submit urbr => (submit_urbr env s urbr).2
  | Op.free urbr => free_urbr s urbr
  | Op.find_pending => (find_pending_urbr env s).2
  | Op.find_sent hdr => (find_sent_urbr s hdr).2
  | Op.cancel irp => cancel_urbr env s irp
  | Op.read_waits irp => park_read_irp s irp

/-- The state after a sequence of calls. -/
def run (env : Env) (s : State) (ops : List Op) : State :=
  ops.foldl (step env) s

/-- What a caller owes: a request is submitted, or freed, only while it is a block of the
pool that is in no list. -/
def op_ok (s : State) : Op → Prop
  | Op.submit urbr => urbr ∈ s.allocated ∧ in_no_list s.vpdo urbr
  | Op.free urbr => urbr ∈ s.allocated ∧ in_no_list s.vpdo urbr
  | _ => True

instance (s : State) (op : Op) : Decidable (op_ok s op) := by
  cases op <;> unfold op_ok <;> infer_instance

/-- Every call of the sequence is made as `op_ok` asks, in the state it is made in. -/
def valid (env : Env) : State → List Op → Prop
  | _, [] => True
  | s, op :: ops => op_ok s op ∧ valid env (step env s op) ops

instance decValid (env : Env) : (s : State) → (ops : List Op) → Decidable (valid env s ops)
  | _, [] => isTrue trivial
  | s, op :: ops =>
    have := decValid env (step env s op) ops
    by unfold valid; infer_instance

/-- The state after one call, with `read_cancelled` saying whether the waiting read irp
is cancelled while the call has the lock released around `store_urbr` (only a submit and
a cancel can release it). -/
def step_unlocked (env : Env) (s : State) (op : Op) (read_cancelled : Bool) : State :=
  match op with
  | Op.submit urbr => (submit_urbr_unlocked env s urbr read_cancelled).2
  | Op.cancel irp => cancel_urbr_unlocked env s irp read_cancelled
  | Op.create irp seq_num_unlink => (create_urbr env s irp seq_num_unlink).2
  | Op.free urbr => free_urbr s urbr
  | Op.find_pending => (find_pending_urbr env s).2
  | Op.find_sent hdr => (find_sent_urbr s hdr).2
  | Op.read_waits irp => park_read_irp s irp

/-- The state after a sequence of calls, each with its `read_cancelled`. -/
def run_unlocked (env : Env) (s : State) (calls : List (Op × Bool)) : State :=
  calls.foldl (fun st c => step_unlocked env st c.1 c.2) s

/-- Every call of the sequence is made as `op_ok` asks, in the state it is made in. -/
def valid_unlocked (env : Env) : State → List (Op × Bool) → Prop
  | _, [] => True
  | s, c :: calls => op_ok s c.1 ∧ valid_unlocked env (step_unlocked env s c.1 c.2) calls

instance decValidUnlocked (env : Env) :
    (s : State) → (calls : List (Op × Bool)) → Decidable (valid_unlocked env s calls)
  | _, [] => isTrue trivial
  | s, c :: calls =>
    have := decValidUnlocked env (step_unlocked env s c.1 c.2) calls
    by unfold valid_unlocked; infer_instance

/-- In no call of the sequence is the waiting read irp cancelled while `store_urbr`
runs. -/
def no_read_cancel (calls : List (Op × Bool)) : Prop :=
  ∀ c ∈ calls, c.2 = false

instance (calls : List (Op × Bool)) : Decidable (no_read_cancel calls) := by
  unfold no_read_cancel; infer_instance

/-- The pool never hands out a block that is still handed out. -/
def pool_sound (env : Env) : Prop :=
  ∀ l p, env.ExAllocateFromNPagedLookasideList l = some p → p ∉ l

/-- Submitting the requests of a list with `submit_urbr`, one after the other. -/
def submit_all (env : Env) (s : State) (urbrs : List Nat) : State :=
  urbrs.foldl (fun st urbr => (submit_urbr env st urbr).2) s

/-- Calling `find_pending_urbr` `n` times: what each call returned, in order, as the
request together with the `seq_num` it carries when the call returns (`none` for
`NULL`), and the state after the last call. -/
def fetch_n (env : Env) : Nat → State → List (Option (Nat × Nat)) × State
  | 0, s => ([], s)
  | n + 1, s =>
    let r := find_pending_urbr env s
    let rest := fetch_n env n r.2
    (r.1.map (fun urbr => (urbr, (r.2.mem urbr).seq_num)) :: rest.1, rest.2)

/-- Scenario A for `n` requests: on a fresh context, `n` distinct requests are submitted
and `find_pending_urbr` is called `n` times; the calls return the requests in the order
of submission, carrying the numbers 1, 2, ..., n; one more call returns `NULL` and
leaves the counter at `n`. -/
def scenario_A (env : Env) (n : Nat) : Prop :=
  ∀ (mem : Nat → urb_req) (allocated : List Nat) (urbrs : List Nat),
    urbrs.length = n → urbrs.Nodup →
    (fetch_n env n (submit_all env (fresh_context mem allocated) urbrs)).1 =
      (urbrs.zip (List.range' 1 n)).map some ∧
    (find_pending_urbr env
      (fetch_n env n (submit_all env (fresh_context mem allocated) urbrs)).2).1 = none ∧
    (find_pending_urbr env
      (fetch_n env n (submit_all env (fresh_context mem allocated) urbrs)).2).2.vpdo.seq_num = n

/-- The numbers assigned on a context over a sequence of calls, oldest first, are
strictly increasing: each is greater than every number assigned before it (so no two
are equal). -/
def sequence_unique (env : Env) (ops : List Op) : Prop :=
  ∀ (mem : Nat → urb_req) (allocated : List Nat),
    ((run env (fresh_context mem allocated) ops).seq_log.map Prod.snd).Pairwise (· < ·)

/-- From `s` to `t` the counter and the history of assigned numbers are untouched, or
one request got the counter's next value. -/
def seq_step (env : Env) (s t : State) : Prop :=
  (t.vpdo.seq_num = s.vpdo.seq_num ∧ t.seq_log = s.seq_log) ∨
  ∃ urbr, t.vpdo.seq_num = pre_increment env.seq_bits s.vpdo.seq_num ∧
    t.seq_log = s.seq_log ++ [(urbr, pre_increment env.seq_bits s.vpdo.seq_num)]

/-- The counter is the number of assignments made, and the `k`-th assignment gave the
number `k`, both modulo the width of the counter. -/
def seq_inv (env : Env) (s : State) : Prop :=
  s.vpdo.seq_num = s.seq_log.length % 2 ^ env.seq_bits ∧
  s.seq_log.map Prod.snd = (List.range' 1 s.seq_log.length).map (· % 2 ^ env.seq_bits)

/-- The calls `submit 0, find_pending, submit 1, find_pending, ...`, `k` rounds: each
round queues one new request and fetches it. -/
def submit_fetch_rounds : Nat → List Op
  | 0 => []
  | k + 1 => submit_fetch_rounds k ++ [Op.submit k, Op.find_pending]

/-- How the lists of a vpdo hang together: no request is linked twice in a list, none is
both pending and sent, every pending or sent request is linked in `head_urbr`, every
linked request is a block handed out by the pool, and the partly sent request is linked
in `head_urbr` and neither pending nor sent. -/
structure lists_inv (s : State) : Prop where
  nodup_pending : s.vpdo.head_urbr_pending.Nodup
  nodup_sent : s.vpdo.head_urbr_sent.Nodup
  nodup_all : s.vpdo.head_urbr.Nodup
  disjoint : ∀ x ∈ s.vpdo.head_urbr_pending, x ∉ s.vpdo.head_urbr_sent
  pending_all : ∀ x ∈ s.vpdo.head_urbr_pending, x ∈ s.vpdo.head_urbr
  sent_all : ∀ x ∈ s.vpdo.head_urbr_sent, x ∈ s.vpdo.head_urbr
  all_allocated : ∀ x ∈ s.vpdo.head_urbr, x ∈ s.allocated
  partial_all : ∀ p, s.vpdo.urbr_sent_partial = some p →
    p ∈ s.vpdo.head_urbr ∧ p ∉ s.vpdo.head_urbr_pending ∧ p ∉ s.vpdo.head_urbr_sent

/-- While fewer numbers have been assigned than the counter has values, the sent
requests carry numbers up to the counter, increasing along the sent list. -/
def sent_seq_inv (env : Env) (s : State) : Prop :=
  s.seq_log.length < 2 ^ env.seq_bits →
    (∀ x ∈ s.vpdo.head_urbr_sent, (s.mem x).seq_num ≤ s.vpdo.seq_num) ∧
    s.vpdo.head_urbr_sent.Pairwise (fun x y => (s.mem x).seq_num < (s.mem y).seq_num)

/-- What holds of every context reached from a fresh one. -/
def broker_inv (env : Env) (s : State) : Prop :=
  lists_inv s ∧ seq_inv env s ∧ sent_seq_inv env s

/-- Exactly-once matching over the calls of `run_unlocked`, during each of which the
waiting read irp is cancelled or not: in every context reached from a fresh one by calls
made as `op_ok` asks, when `find_sent_urbr` returns a request for a header, a second
call for the same header right after it returns `NULL`. -/
def exactly_once_unlocked (env : Env) : Prop :=
  ∀ (mem : Nat → urb_req) (allocated : List Nat) (calls : List (Op × Bool))
    (hdr : usbip_header) (urbr : Nat),
    valid_unlocked env (fresh_context mem allocated) calls →
    (find_sent_urbr (run_unlocked env (fresh_context mem allocated) calls) hdr).1
      = some urbr →
    (find_sent_urbr
      (find_sent_urbr (run_unlocked env (fresh_context mem allocated) calls) hdr).2 hdr).1
      = none

/-- The calls that let two sent requests meet with the same number: a read irp waits and
request `k` is handed to it; `k` rounds of `submit_fetch_rounds` follow; then a read irp
waits again and request `k + 1` is handed to it. -/
def wrap_twice_ops (k : Nat) : List Op :=
  [Op.read_waits 9, Op.submit k] ++ submit_fetch_rounds k ++
    [Op.read_waits 9, Op.submit (k + 1)]

/-- The calls that end in the error return of `submit_urbr` with the request linked: a
request is made for irp 103 (block 1), a read irp waits and the request is handed to it
and sent; a read irp waits again and irp 103 is cancelled; while `store_urbr` stores the
unlink request (block 2), the lock released, that read irp is cancelled. -/
def linked_error_calls : List (Op × Bool) :=
  [(Op.create (some 103) 0, false), (Op.read_waits 9, false), (Op.submit 1, false),
    (Op.read_waits 9, false), (Op.cancel 103, true)]

/-- After `linked_error_calls`, calls during which no read irp is cancelled: a request
is made for irp 7 and queued, and irp 7 is cancelled, so that an unlink request is made
and queued. -/
def reuse_queued_calls : List (Op × Bool) :=
  linked_error_calls ++
    [(Op.create (some 7) 0, false), (Op.submit 1, false), (Op.cancel 7, false)]

/-- After `linked_error_calls`, calls during which no read irp is cancelled: a request
is made for irp 7, handed to a waiting read irp and sent; a read irp waits again and
irp 7 is cancelled, so that an unlink request is made, handed to the read irp and
sent. -/
def reuse_sent_calls : List (Op × Bool) :=
  linked_error_calls ++
    [(Op.create (some 7) 0, false), (Op.read_waits 9, false), (Op.submit 1, false),
      (Op.read_waits 9, false), (Op.cancel 7, false)]

/-! ## Concrete environments and memories, for the worked instances -/

/-- A memory in which every request is zeroed. -/
def mem_zero : Nat → urb_req :=
  fun _ => { irp := none, seq_num := 0, seq_num_unlink := 0 }

/-- A memory in which the request at address `p` belongs to the irp `p + 100`. -/
def mem_irp : Nat → urb_req :=
  fun p => { irp := some (p + 100), seq_num := 0, seq_num_unlink := 0 }

/-- A pool that hands out the block after all those handed out. -/
def pool_next (l : List Nat) : Option Nat := some (l.sum + 1)

/-- A 32-bit counter; `store_urbr` stores the whole request. -/
def env_complete : Env :=
  { seq_bits := 32
    store_urbr := fun _ _ _ => (STATUS_SUCCESS, 0)
    ExAllocateFromNPagedLookasideList := pool_next }

/-- A 32-bit counter; `store_urbr` stores a part and leaves 4 in `len_sent_partial`. -/
def env_part : Env :=
  { seq_bits := 32
    store_urbr := fun _ _ _ => (STATUS_SUCCESS, 4)
    ExAllocateFromNPagedLookasideList := pool_next }

/-- A 32-bit counter; `store_urbr` fails. -/
def env_fail : Env :=
  { seq_bits := 32
    store_urbr := fun _ _ _ => (STATUS_INVALID_PARAMETER, 0)
    ExAllocateFromNPagedLookasideList := pool_next }

/-- A context in which the read irp 9 waits: fresh otherwise, the request at address 1
(of irp 101) created but not submitted. -/
def waiting_context : State := park_read_irp (fresh_context mem_irp [1]) 9

/-- A context in which the read irp 9 waits and the counter holds its last 32-bit value. -/
def last_number_context : State :=
  { waiting_context with vpdo := { waiting_context.vpdo with seq_num := 2 ^ 32 - 1 } }

/-- A context with the requests 3 and 4 sent and 5 pending, all linked in `head_urbr`;
the request at address `p` carries the number `p + 10` and belongs to the irp `p + 100`. -/
def sent_context : State :=
  { vpdo :=
      { head_urbr := [3, 4, 5], head_urbr_pending := [5], head_urbr_sent := [3, 4]
        urbr_sent_partial := none, len_sent_partial := 0
        pending_read_irp := none, seq_num := 15 }
    mem := fun p => { irp := some (p + 100), seq_num := p + 10, seq_num_unlink := 0 }
    allocated := [3, 4, 5]
    events := []
    seq_log := [] }

/-- The context after request 1 (of irp 101) was submitted to a fresh context: it is
pending and linked in `head_urbr`. -/
def queued_context : State := (submit_urbr env_complete (fresh_context mem_irp [1]) 1).2

/-- A 32-bit counter; `store_urbr` stores a request with an irp whole, and of a request
without one (an unlink request) a part, leaving 4 in `len_sent_partial`. -/
def env_unlink_part : Env :=
  { seq_bits := 32
    store_urbr := fun st _ urbr =>
      if (st.mem urbr).irp = none then (STATUS_SUCCESS, 4) else (STATUS_SUCCESS, 0)
    ExAllocateFromNPagedLookasideList := pool_next }

/-- The context in which request 1, of irp 103, is sent and the read irp 9 waits for the
next request: reached from a fresh context by creating the request (the pool hands out
block 1), a read irp that waits and takes it, and the next read irp that waits. -/
def sent_reader_context : State :=
  run env_unlink_part (fresh_context mem_zero [])
    [Op.create (some 103) 0, Op.read_waits 9, Op.submit 1, Op.read_waits 9]

/-- The context of Scenario D: request 1 was created for irp 7 and submitted to a fresh
context; it is pending and has not been fetched. -/
def scenario_D_context : State :=
  run env_complete (fresh_context mem_zero []) [Op.create (some 7) 0, Op.submit 1]

/-! ## Properties -/

/-- The result of `submit_urbr` on its first branch. -/
theorem submit_urbr_of_queued (env : Env) (s : State) (urbr : Nat)
    (h : s.vpdo.urbr_sent_partial ≠ none ∨ s.vpdo.pending_read_irp = none) :
    submit_urbr env s urbr =
      (STATUS_PENDING,
        { s with
          vpdo := { s.vpdo with
            head_urbr_pending := s.vpdo.head_urbr_pending ++ [urbr]
            head_urbr := s.vpdo.head_urbr ++ [urbr] }
          events := s.events ++ set_cancel_and_mark (s.mem urbr).irp }) := by
  unfold submit_urbr
  rw [if_pos h]

/-- C1. Queued path of `submit_urbr`: when a request is partly sent or no read irp waits,
a request that is in no list is appended at the tail of `head_urbr_pending` and of
`head_urbr` (where it then occurs once), `STATUS_PENDING` is returned, the cancel routine
is set and the irp marked pending exactly when the request has an irp, and the sent
list, the partial request and its length, the waiting read irp, the counter, the memory
of the requests (so the request's own `seq_num`), the pool and the history of assigned
numbers are unchanged; `store_urbr` is not called: the result is the same whatever the
environment is. -/
theorem submit_urbr_queued (env : Env) (s : State) (urbr : Nat)
    (h : s.vpdo.urbr_sent_partial ≠ none ∨ s.vpdo.pending_read_irp = none)
    (hf : in_no_list s.vpdo urbr) :
    (submit_urbr env s urbr).1 = STATUS_PENDING ∧
    (submit_urbr env s urbr).2.vpdo.head_urbr_pending = s.vpdo.head_urbr_pending ++ [urbr] ∧
    (submit_urbr env s urbr).2.vpdo.head_urbr = s.vpdo.head_urbr ++ [urbr] ∧
    (submit_urbr env s urbr).2.vpdo.head_urbr_pending.count urbr = 1 ∧
    (submit_urbr env s urbr).2.vpdo.head_urbr.count urbr = 1 ∧
    (∀ i, (s.mem urbr).irp = some i →
      (submit_urbr env s urbr).2.events =
        s.events ++ [Event.IoSetCancelRoutine i, Event.IoMarkIrpPending i]) ∧
    ((s.mem urbr).irp = none → (submit_urbr env s urbr).2.events = s.events) ∧
    (submit_urbr env s urbr).2.vpdo.head_urbr_sent = s.vpdo.head_urbr_sent ∧
    (submit_urbr env s urbr).2.vpdo.urbr_sent_partial = s.vpdo.urbr_sent_partial ∧
    (submit_urbr env s urbr).2.vpdo.len_sent_partial = s.vpdo.len_sent_partial ∧
    (submit_urbr env s urbr).2.vpdo.pending_read_irp = s.vpdo.pending_read_irp ∧
    (submit_urbr env s urbr).2.vpdo.seq_num = s.vpdo.seq_num ∧
    (submit_urbr env s urbr).2.mem = s.mem ∧
    (submit_urbr env s urbr).2.allocated = s.allocated ∧
    (submit_urbr env s urbr).2.seq_log = s.seq_log ∧
    (∀ env2 : Env, submit_urbr env2 s urbr = submit_urbr env s urbr) := by
  obtain ⟨hf1, hf2, _⟩ := hf
  have e := fun env2 : Env => submit_urbr_of_queued env2 s urbr h
  rw [e env]
  refine ⟨rfl, rfl, rfl, ?_, ?_, ?_, ?_, rfl, rfl, rfl, rfl, rfl, rfl, rfl, rfl, ?_⟩
  · simp [List.count_eq_zero_of_not_mem hf2]
  · simp [List.count_eq_zero_of_not_mem hf1]
  · intro i hi
    simp [hi, set_cancel_and_mark]
  · intro hi
    simp [hi, set_cancel_and_mark]
  · intro env2
    exact e env2

/-- C1, worked instance: on a fresh context (no read irp waits) the request at address 5,
which belongs to irp 105, is queued. -/
theorem submit_urbr_queued_witness :
    ((fresh_context mem_irp [5]).vpdo.urbr_sent_partial ≠ none ∨
      (fresh_context mem_irp [5]).vpdo.pending_read_irp = none) ∧
    in_no_list (fresh_context mem_irp [5]).vpdo 5 ∧
    (submit_urbr env_complete (fresh_context mem_irp [5]) 5).1 = STATUS_PENDING ∧
    (submit_urbr env_complete (fresh_context mem_irp [5]) 5).2.vpdo.head_urbr_pending = [5] ∧
    (submit_urbr env_complete (fresh_context mem_irp [5]) 5).2.events =
      [Event.IoSetCancelRoutine 105, Event.IoMarkIrpPending 105] :=
  have h := submit_urbr_queued env_complete (fresh_context mem_irp [5]) 5
    (Or.inr rfl) (by decide)
  ⟨Or.inr rfl, by decide, h.1, h.2.1, h.2.2.2.2.2.1 105 rfl⟩

/-! ### Scenario A -/

/-- While no read irp waits, every submitted request is appended to the pending list. -/
theorem submit_all_no_reader (env : Env) (urbrs : List Nat) :
    ∀ s : State, s.vpdo.pending_read_irp = none →
      (submit_all env s urbrs).vpdo.head_urbr_pending = s.vpdo.head_urbr_pending ++ urbrs ∧
      (submit_all env s urbrs).vpdo.seq_num = s.vpdo.seq_num := by
  induction urbrs with
  | nil => intro s _; simp [submit_all]
  | cons x xs ih =>
    intro s h
    have e := submit_urbr_of_queued env s x (Or.inr h)
    have := ih (submit_urbr env s x).2 (by rw [e]; exact h)
    simp only [submit_all, List.foldl_cons] at this ⊢
    rw [e] at this ⊢
    simpa using this

/-- Numbers that agree modulo `m` keep agreeing when both are counted up. -/
theorem map_mod_range (m k : Nat) : ∀ a b : Nat, a % m = b % m →
    (List.range' a k).map (· % m) = (List.range' b k).map (· % m) := by
  induction k with
  | zero => intro a b _; simp
  | succ k ih =>
    intro a b h
    simp only [List.range'_succ, List.map_cons, h]
    rw [ih (a + 1) (b + 1) (by rw [Nat.add_mod, h, ← Nat.add_mod])]

/-- Calling `find_pending_urbr` as often as the front part `a` of the pending list is
long returns the requests of `a` in order, numbered on from the counter (modulo the
width), and leaves the rest of the list. -/
theorem fetch_n_prefix (env : Env) (a b : List Nat) :
    ∀ s : State, s.vpdo.head_urbr_pending = a ++ b → s.vpdo.seq_num < 2 ^ env.seq_bits →
      (fetch_n env a.length s).1 =
        (a.zip ((List.range' (s.vpdo.seq_num + 1) a.length).map (· % 2 ^ env.seq_bits))).map
          some ∧
      (fetch_n env a.length s).2.vpdo.head_urbr_pending = b ∧
      (fetch_n env a.length s).2.vpdo.seq_num = (s.vpdo.seq_num + a.length) % 2 ^ env.seq_bits := by
  induction a with
  | nil =>
    intro s h hc
    simp only [List.nil_append] at h
    simp [fetch_n, h, Nat.mod_eq_of_lt hc]
  | cons x xs ih =>
    intro s h hc
    have hm : 0 < 2 ^ env.seq_bits := Nat.pow_pos (by decide)
    have e : find_pending_urbr env s =
        (some x,
          { s with
            vpdo := { s.vpdo with
              seq_num := pre_increment env.seq_bits s.vpdo.seq_num
              head_urbr_pending := xs ++ b }
            mem := write s.mem x
              { s.mem x with seq_num := pre_increment env.seq_bits s.vpdo.seq_num }
            seq_log := s.seq_log ++ [(x, pre_increment env.seq_bits s.vpdo.seq_num)] }) := by
      unfold find_pending_urbr
      rw [h]
      rfl
    obtain ⟨i1, i2, i3⟩ := ih (find_pending_urbr env s).2 (by rw [e])
      (by rw [e]; exact Nat.mod_lt _ hm)
    simp only [List.length_cons, fetch_n]
    refine ⟨?_, i2, ?_⟩
    · rw [i1, e]
      simp only [Option.map_some', write, if_true, List.range'_succ, List.map_cons,
        List.zip_cons_cons, pre_increment]
      rw [map_mod_range _ _ ((s.vpdo.seq_num + 1) % 2 ^ env.seq_bits + 1)
        (s.vpdo.seq_num + 1 + 1) (by rw [Nat.add_mod, Nat.mod_mod, ← Nat.add_mod])]
    · rw [i3, e]
      simp only [pre_increment]
      rw [Nat.add_mod, Nat.mod_mod, ← Nat.add_mod]
      congr 1
      omega

/-- Scenario A with the counter taken modulo its width: what the calls return, and
where the counter ends. -/
theorem scenario_A_mod (env : Env) (mem : Nat → urb_req) (allocated : List Nat)
    (urbrs : List Nat) :
    (fetch_n env urbrs.length (submit_all env (fresh_context mem allocated) urbrs)).1 =
      (urbrs.zip ((List.range' 1 urbrs.length).map (· % 2 ^ env.seq_bits))).map some ∧
    find_pending_urbr env
        (fetch_n env urbrs.length (submit_all env (fresh_context mem allocated) urbrs)).2 =
      (none, (fetch_n env urbrs.length (submit_all env (fresh_context mem allocated) urbrs)).2) ∧
    (fetch_n env urbrs.length
      (submit_all env (fresh_context mem allocated) urbrs)).2.vpdo.seq_num =
      urbrs.length % 2 ^ env.seq_bits := by
  have hm : 0 < 2 ^ env.seq_bits := Nat.pow_pos (by decide)
  obtain ⟨p1, p2⟩ := submit_all_no_reader env urbrs (fresh_context mem allocated) rfl
  have p1 : (submit_all env (fresh_context mem allocated) urbrs).vpdo.head_urbr_pending =
      urbrs ++ [] := by rw [p1]; simp [fresh_context]
  have p2 : (submit_all env (fresh_context mem allocated) urbrs).vpdo.seq_num = 0 := by
    rw [p2]; rfl
  obtain ⟨f1, f2, f3⟩ := fetch_n_prefix env urbrs [] _ p1 (by rw [p2]; exact hm)
  rw [p2] at f1 f3
  refine ⟨by simpa using f1, ?_, by simpa using f3⟩
  unfold find_pending_urbr
  rw [f2]

/-- C2, as amended. Scenario A holds for every number `n` of requests below the wrap of
the sequence counter (`n < 2 ^ seq_bits`): the `n` distinct requests submitted to a
fresh context come back from `n` calls of `find_pending_urbr` in the order of
submission, numbered 1, 2, ..., n; one more call returns `NULL` and leaves the counter
at `n`. -/
theorem scenario_A_below_wrap (env : Env) (n : Nat) (h : n < 2 ^ env.seq_bits) :
    scenario_A env n := by
  intro mem allocated urbrs hl _
  subst hl
  obtain ⟨q1, q2, q3⟩ := scenario_A_mod env mem allocated urbrs
  have hr : (List.range' 1 urbrs.length).map (· % 2 ^ env.seq_bits) =
      List.range' 1 urbrs.length := by
    conv_rhs => rw [← List.map_id (List.range' 1 urbrs.length)]
    apply List.map_congr_left
    intro x hx
    rw [List.mem_range'_1] at hx
    exact Nat.mod_eq_of_lt (by omega)
  rw [q2, q1, hr]
  exact ⟨rfl, rfl, by rw [q3]; exact Nat.mod_eq_of_lt h⟩

/-- C2, worked instance: Scenario A itself, three requests on a 32-bit counter. -/
theorem scenario_A_below_wrap_witness :
    3 < 2 ^ env_complete.seq_bits ∧ scenario_A env_complete 3 :=
  ⟨by decide, scenario_A_below_wrap env_complete 3 (by decide)⟩

/-- Scenario A fails for as many requests as the counter has values: the counter is back
at 0 after the last call. -/
theorem scenario_A_at_wrap (env : Env) : ¬ scenario_A env (2 ^ env.seq_bits) := by
  intro H
  have hm : 0 < 2 ^ env.seq_bits := Nat.pow_pos (by decide)
  generalize hn : 2 ^ env.seq_bits = n at H hm
  obtain ⟨_, _, h3⟩ := H mem_zero [] (List.range n) (List.length_range _)
    (List.nodup_range _)
  obtain ⟨_, q2, q3⟩ := scenario_A_mod env mem_zero [] (List.range n)
  rw [List.length_range] at q2 q3
  rw [q2, q3, hn, Nat.mod_self] at h3
  omega

/-- C2, as stated, fails at the wrap of a 32-bit counter: with `2 ^ 32` requests (the
addresses 0, 1, ..., 2 ^ 32 - 1) the last call assigns 0, not `2 ^ 32`, and the counter
ends at 0. -/
theorem scenario_A_wrap_counterexample : ¬ scenario_A env_complete (2 ^ 32) :=
  scenario_A_at_wrap env_complete

/-! ### The sequence counter -/

theorem seq_step_refl (env : Env) (s : State) : seq_step env s s := Or.inl ⟨rfl, rfl⟩

/-- A step after one that leaves counter and history alone. -/
theorem seq_step_of_eq (env : Env) (s t u : State) (h1 : t.vpdo.seq_num = s.vpdo.seq_num)
    (h2 : t.seq_log = s.seq_log) (h : seq_step env t u) : seq_step env s u := by
  unfold seq_step at *
  rw [h1, h2] at h
  exact h

/-- A step before one that leaves counter and history alone. -/
theorem seq_step_then_eq (env : Env) (s t u : State) (h : seq_step env s t)
    (h1 : u.vpdo.seq_num = t.vpdo.seq_num) (h2 : u.seq_log = t.seq_log) :
    seq_step env s u := by
  unfold seq_step at *
  rw [h1, h2]
  exact h

theorem submit_urbr_seq_step (env : Env) (s : State) (urbr : Nat) :
    seq_step env s (submit_urbr env s urbr).2 := by
  unfold submit_urbr
  by_cases h : s.vpdo.urbr_sent_partial ≠ none ∨ s.vpdo.pending_read_irp = none
  · rw [if_pos h]
    exact Or.inl ⟨rfl, rfl⟩
  · rw [if_neg h]
    refine Or.inr ⟨urbr, ?_⟩
    dsimp only
    split_ifs
    · split <;> exact ⟨rfl, rfl⟩
    · split <;> exact ⟨rfl, rfl⟩
    · exact ⟨rfl, rfl⟩

theorem find_pending_urbr_seq_step (env : Env) (s : State) :
    seq_step env s (find_pending_urbr env s).2 := by
  unfold find_pending_urbr
  split
  · exact Or.inl ⟨rfl, rfl⟩
  · rename_i urbr rest _
    exact Or.inr ⟨urbr, rfl, rfl⟩

theorem find_sent_urbr_seq (s : State) (hdr : usbip_header) :
    (find_sent_urbr s hdr).2.vpdo.seq_num = s.vpdo.seq_num ∧
    (find_sent_urbr s hdr).2.seq_log = s.seq_log := by
  unfold find_sent_urbr
  split <;> exact ⟨rfl, rfl⟩

theorem create_urbr_seq (env : Env) (s : State) (irp : Option Nat) (u : Nat) :
    (create_urbr env s irp u).2.vpdo.seq_num = s.vpdo.seq_num ∧
    (create_urbr env s irp u).2.seq_log = s.seq_log := by
  unfold create_urbr
  split <;> exact ⟨rfl, rfl⟩

theorem submit_urbr_unlink_seq_step (env : Env) (s : State) (u : Nat) :
    seq_step env s (submit_urbr_unlink env s u) := by
  unfold submit_urbr_unlink
  obtain ⟨c1, c2⟩ := create_urbr_seq env s none u
  split
  · rename_i urbr_unlink s1 e
    rw [e] at c1 c2
    apply seq_step_of_eq env s s1 _ c1 c2
    have := submit_urbr_seq_step env s1 urbr_unlink
    dsimp only
    split_ifs
    · exact seq_step_then_eq env _ _ _ this rfl rfl
    · exact this
  · rename_i s1 e
    rw [e] at c1 c2
    exact Or.inl ⟨c1, c2⟩

theorem unlink_cancelled_seq (s : State) (urbr : Nat) :
    (unlink_cancelled s urbr).vpdo.seq_num = s.vpdo.seq_num ∧
    (unlink_cancelled s urbr).seq_log = s.seq_log := by
  unfold unlink_cancelled
  dsimp only
  split_ifs <;> exact ⟨rfl, rfl⟩

theorem remove_cancelled_urbr_seq_step (env : Env) (s : State) (irp : Option Nat) :
    seq_step env s (remove_cancelled_urbr env s irp) := by
  unfold remove_cancelled_urbr
  split
  · rename_i urbr _
    obtain ⟨u1, u2⟩ := unlink_cancelled_seq s urbr
    exact seq_step_then_eq env s _ _
      (seq_step_of_eq env s _ _ u1 u2 (submit_urbr_unlink_seq_step env _ _)) rfl rfl
  · exact seq_step_refl env s

/-- Every call leaves counter and history alone or assigns the counter's next value. -/
theorem step_seq_step (env : Env) (s : State) (op : Op) : seq_step env s (step env s op) := by
  cases op with
  | create irp u => exact Or.inl (create_urbr_seq env s irp u)
  | submit urbr => exact submit_urbr_seq_step env s urbr
  | free urbr => exact Or.inl ⟨rfl, rfl⟩
  | find_pending => exact find_pending_urbr_seq_step env s
  | find_sent hdr => exact Or.inl (find_sent_urbr_seq s hdr)
  | cancel irp =>
    exact seq_step_then_eq env _ _ _ (remove_cancelled_urbr_seq_step env s (some irp)) rfl rfl
  | read_waits irp => exact Or.inl ⟨rfl, rfl⟩

theorem seq_inv_of_seq_step (env : Env) (s t : State) (h : seq_step env s t)
    (hs : seq_inv env s) : seq_inv env t := by
  rcases h with ⟨h1, h2⟩ | ⟨urbr, h1, h2⟩
  · unfold seq_inv
    rw [h1, h2]
    exact hs
  · obtain ⟨i1, i2⟩ := hs
    unfold seq_inv
    have e : pre_increment env.seq_bits s.vpdo.seq_num =
        (s.seq_log.length + 1) % 2 ^ env.seq_bits := by
      unfold pre_increment
      rw [i1, Nat.add_mod, Nat.mod_mod, ← Nat.add_mod]
    rw [h1, h2, e]
    refine ⟨by simp, ?_⟩
    simp only [List.map_append, List.length_append, List.length_singleton, List.map_cons,
      List.map_nil, List.range'_concat, i2, Nat.one_mul]
    rw [Nat.add_comm 1 s.seq_log.length]

theorem seq_inv_run (env : Env) (ops : List Op) :
    ∀ s : State, seq_inv env s → seq_inv env (run env s ops) := by
  induction ops with
  | nil => intro s h; exact h
  | cons op ops ih =>
    intro s h
    exact ih _ (seq_inv_of_seq_step env s _ (step_seq_step env s op) h)

theorem seq_inv_fresh (env : Env) (mem : Nat → urb_req) (allocated : List Nat) :
    seq_inv env (fresh_context mem allocated) := by
  simp [seq_inv, fresh_context]

/-- C3, as amended. Over every sequence of calls on a fresh context (requests created,
submitted and freed, `find_pending_urbr`, `find_sent_urbr`, cancels, read irps that come
to wait), as long as fewer numbers have been assigned than the counter has values
(`2 ^ seq_bits`), every number assigned, by `find_pending_urbr` or by the direct
hand-off of `submit_urbr`, is greater than every number assigned before it. -/
theorem sequence_increasing_below_wrap (env : Env) (ops : List Op) (mem : Nat → urb_req)
    (allocated : List Nat)
    (h : (run env (fresh_context mem allocated) ops).seq_log.length < 2 ^ env.seq_bits) :
    ((run env (fresh_context mem allocated) ops).seq_log.map Prod.snd).Pairwise (· < ·) := by
  obtain ⟨_, i2⟩ := seq_inv_run env ops _ (seq_inv_fresh env mem allocated)
  rw [i2]
  have hr : (List.range' 1 (run env (fresh_context mem allocated) ops).seq_log.length).map
      (· % 2 ^ env.seq_bits) =
      List.range' 1 (run env (fresh_context mem allocated) ops).seq_log.length := by
    conv_rhs => rw [← List.map_id (List.range' 1 _)]
    apply List.map_congr_left
    intro x hx
    rw [List.mem_range'_1] at hx
    exact Nat.mod_eq_of_lt (by omega)
  rw [hr]
  exact List.pairwise_lt_range' 1 _

/-- C3, worked instance: a read irp waits, request 1 is handed to it directly, request 2
is queued and then fetched; the numbers assigned are 1 and 2. -/
theorem sequence_increasing_below_wrap_witness :
    (run env_complete (fresh_context mem_irp [1, 2])
      [Op.read_waits 9, Op.submit 1, Op.submit 2, Op.find_pending]).seq_log.length
      < 2 ^ env_complete.seq_bits ∧
    (run env_complete (fresh_context mem_irp [1, 2])
      [Op.read_waits 9, Op.submit 1, Op.submit 2, Op.find_pending]).seq_log = [(1, 1), (2, 2)] ∧
    ((run env_complete (fresh_context mem_irp [1, 2])
      [Op.read_waits 9, Op.submit 1, Op.submit 2, Op.find_pending]).seq_log.map
        Prod.snd).Pairwise (· < ·) :=
  ⟨by decide, by decide,
    sequence_increasing_below_wrap env_complete
      [Op.read_waits 9, Op.submit 1, Op.submit 2, Op.find_pending] mem_irp [1, 2] (by decide)⟩

theorem run_append (env : Env) (s : State) (a b : List Op) :
    run env s (a ++ b) = run env (run env s a) b := by
  unfold run
  rw [List.foldl_append]

theorem valid_append (env : Env) (a b : List Op) :
    ∀ s : State, valid env s (a ++ b) ↔ valid env s a ∧ valid env (run env s a) b := by
  induction a with
  | nil => intro s; simp [valid, run]
  | cons x xs ih =>
    intro s
    show (op_ok s x ∧ valid env (step env s x) (xs ++ b)) ↔ _
    rw [ih]
    simp only [valid, run, List.foldl_cons, and_assoc]

/-- After `k` rounds of `submit_fetch_rounds` on a fresh context the pending and sent
lists are empty again, no read irp waits, the requests 0, ..., k - 1 are all still linked
in `head_urbr`, and `k` numbers have been assigned. -/
theorem submit_fetch_rounds_state (env : Env) (mem : Nat → urb_req) (allocated : List Nat)
    (k : Nat) :
    (run env (fresh_context mem allocated) (submit_fetch_rounds k)).vpdo.head_urbr_pending = [] ∧
    (run env (fresh_context mem allocated) (submit_fetch_rounds k)).vpdo.pending_read_irp = none ∧
    (run env (fresh_context mem allocated) (submit_fetch_rounds k)).vpdo.head_urbr_sent = [] ∧
    (run env (fresh_context mem allocated) (submit_fetch_rounds k)).vpdo.head_urbr =
      List.range k ∧
    (run env (fresh_context mem allocated) (submit_fetch_rounds k)).allocated = allocated ∧
    (run env (fresh_context mem allocated) (submit_fetch_rounds k)).seq_log.length = k := by
  induction k with
  | zero => simp [submit_fetch_rounds, run, fresh_context]
  | succ k ih =>
    obtain ⟨h1, h2, h3, h4, h5, h6⟩ := ih
    simp only [submit_fetch_rounds, run_append]
    generalize run env (fresh_context mem allocated) (submit_fetch_rounds k) = t at *
    simp only [run, List.foldl_cons, List.foldl_nil, step]
    rw [submit_urbr_of_queued env t k (Or.inr h2)]
    simp only [find_pending_urbr, h1, List.nil_append]
    simp [h2, h3, h4, h5, h6, List.range_succ]

/-- The rounds are calls a caller may make, when the requests 0, ..., k - 1 are blocks
handed out by the pool. -/
theorem submit_fetch_rounds_valid (env : Env) (mem : Nat → urb_req) (n : Nat) (k : Nat)
    (hk : k ≤ n) :
    valid env (fresh_context mem (List.range n)) (submit_fetch_rounds k) := by
  induction k with
  | zero => simp [submit_fetch_rounds, valid]
  | succ k ih =>
    obtain ⟨h1, h2, h3, h4, h5, _⟩ := submit_fetch_rounds_state env mem (List.range n) k
    simp only [submit_fetch_rounds, valid_append]
    refine ⟨ih (by omega), ?_⟩
    generalize run env (fresh_context mem (List.range n)) (submit_fetch_rounds k) = t at *
    simp only [valid, op_ok, in_no_list, h1, h3, h4, h5, and_true]
    simp
    omega

/-- One round more than the counter has values assigns the number of the first round a
second time. -/
theorem sequence_unique_at_wrap (env : Env) :
    ¬ sequence_unique env (submit_fetch_rounds (2 ^ env.seq_bits + 1)) := by
  intro H
  have hm : 0 < 2 ^ env.seq_bits := Nat.pow_pos (by decide)
  have P := H mem_zero []
  obtain ⟨_, _, _, _, _, h6⟩ :=
    submit_fetch_rounds_state env mem_zero [] (2 ^ env.seq_bits + 1)
  obtain ⟨_, i2⟩ := seq_inv_run env (submit_fetch_rounds (2 ^ env.seq_bits + 1)) _
    (seq_inv_fresh env mem_zero [])
  rw [i2, h6, List.range'_succ, List.map_cons, List.pairwise_cons] at P
  have := P.1 ((2 ^ env.seq_bits + 1) % 2 ^ env.seq_bits)
    (List.mem_map.2 ⟨2 ^ env.seq_bits + 1, by rw [List.mem_range'_1]; omega, rfl⟩)
  rw [Nat.add_mod_left] at this
  exact absurd this (Nat.lt_irrefl _)

/-- C3, as stated, fails on a 32-bit counter: after `2 ^ 32 + 1` rounds of submitting a
new request and fetching it, the request of the last round has been assigned the number 1,
which the request of the first round got before. -/
theorem sequence_unique_wrap_counterexample :
    ¬ sequence_unique env_complete (submit_fetch_rounds (2 ^ 32 + 1)) :=
  sequence_unique_at_wrap env_complete

/-! ### `find_sent_urbr` -/

/-- Erasing from a list without repetitions is filtering. -/
theorem erase_eq_filter_ne (l : List Nat) (a : Nat) (h : l.Nodup) :
    l.erase a = l.filter (· ≠ a) := by
  rw [List.Nodup.erase_eq_filter h]
  apply List.filter_congr
  intro x _
  by_cases hx : x = a <;> simp [hx]

/-- C4. `find_sent_urbr`, found: when a request of `head_urbr_sent` carries the number of
the header, the call returns the first such request of the list (no request before it
carries the number); afterwards that request is neither in `head_urbr_sent` nor in
`head_urbr`, all other requests are in both lists as before and in the same order, and
the pending list, the partial request and its length, the waiting read irp, the counter,
the memory, the pool, the calls made and the history are unchanged.  The lists are those
of a vpdo: a request is linked at most once in each (it has one `list_state` and one
`list_all` entry). -/
theorem find_sent_urbr_found (s : State) (hdr : usbip_header)
    (hs : s.vpdo.head_urbr_sent.Nodup) (ha : s.vpdo.head_urbr.Nodup)
    (h : ∃ urbr ∈ s.vpdo.head_urbr_sent, (s.mem urbr).seq_num = hdr.base.seqnum) :
    ∃ urbr before after,
      (find_sent_urbr s hdr).1 = some urbr ∧
      s.vpdo.head_urbr_sent = before ++ urbr :: after ∧
      (s.mem urbr).seq_num = hdr.base.seqnum ∧
      (∀ x ∈ before, (s.mem x).seq_num ≠ hdr.base.seqnum) ∧
      urbr ∉ (find_sent_urbr s hdr).2.vpdo.head_urbr_sent ∧
      urbr ∉ (find_sent_urbr s hdr).2.vpdo.head_urbr ∧
      (find_sent_urbr s hdr).2.vpdo.head_urbr_sent = before ++ after ∧
      (find_sent_urbr s hdr).2.vpdo.head_urbr_sent =
        s.vpdo.head_urbr_sent.filter (· ≠ urbr) ∧
      (find_sent_urbr s hdr).2.vpdo.head_urbr = s.vpdo.head_urbr.filter (· ≠ urbr) ∧
      (find_sent_urbr s hdr).2.vpdo.head_urbr_pending = s.vpdo.head_urbr_pending ∧
      (find_sent_urbr s hdr).2.vpdo.urbr_sent_partial = s.vpdo.urbr_sent_partial ∧
      (find_sent_urbr s hdr).2.vpdo.len_sent_partial = s.vpdo.len_sent_partial ∧
      (find_sent_urbr s hdr).2.vpdo.pending_read_irp = s.vpdo.pending_read_irp ∧
      (find_sent_urbr s hdr).2.vpdo.seq_num = s.vpdo.seq_num ∧
      (find_sent_urbr s hdr).2.mem = s.mem ∧
      (find_sent_urbr s hdr).2.allocated = s.allocated ∧
      (find_sent_urbr s hdr).2.events = s.events ∧
      (find_sent_urbr s hdr).2.seq_log = s.seq_log := by
  obtain ⟨u0, hu0, hseq0⟩ := h
  cases hfind : s.vpdo.head_urbr_sent.find?
      (fun urbr => (s.mem urbr).seq_num == hdr.base.seqnum) with
  | none =>
    rw [List.find?_eq_none] at hfind
    exact absurd (by simpa using hseq0) (hfind u0 hu0)
  | some urbr =>
    obtain ⟨hp, before, after, hsplit, hbefore⟩ := List.find?_eq_some.1 hfind
    have e : find_sent_urbr s hdr =
        (some urbr,
          { s with vpdo := { s.vpdo with
              head_urbr := s.vpdo.head_urbr.erase urbr
              head_urbr_sent := s.vpdo.head_urbr_sent.erase urbr } }) := by
      unfold find_sent_urbr
      rw [hfind]
    have hnb : urbr ∉ before := by
      intro hmem
      have := hbefore urbr hmem
      simp [hp] at this
    rw [e]
    refine ⟨urbr, before, after, rfl, hsplit, by simpa using hp, ?_, ?_, ?_, ?_, ?_, ?_,
      rfl, rfl, rfl, rfl, rfl, rfl, rfl, rfl, rfl⟩
    · intro x hx
      simpa using hbefore x hx
    · exact fun hmem => ((List.Nodup.mem_erase_iff hs).1 hmem).1 rfl
    · exact fun hmem => ((List.Nodup.mem_erase_iff ha).1 hmem).1 rfl
    · show s.vpdo.head_urbr_sent.erase urbr = before ++ after
      rw [hsplit, List.erase_append_right _ hnb, List.erase_cons_head]
    · exact erase_eq_filter_ne _ _ hs
    · exact erase_eq_filter_ne _ _ ha

/-- C4, worked instance: in `sent_context` the header with number 14 finds request 4, the
second of the sent list; afterwards the sent list is `[3]` and `head_urbr` is `[3, 5]`. -/
theorem find_sent_urbr_found_witness :
    sent_context.vpdo.head_urbr_sent.Nodup ∧ sent_context.vpdo.head_urbr.Nodup ∧
    (find_sent_urbr sent_context { base := { seqnum := 14 } }).1 = some 4 ∧
    (find_sent_urbr sent_context { base := { seqnum := 14 } }).2.vpdo.head_urbr_sent = [3] ∧
    (find_sent_urbr sent_context { base := { seqnum := 14 } }).2.vpdo.head_urbr = [3, 5] ∧
    ∃ urbr before after,
      (find_sent_urbr sent_context { base := { seqnum := 14 } }).1 = some urbr ∧
      sent_context.vpdo.head_urbr_sent = before ++ urbr :: after :=
  have h := find_sent_urbr_found sent_context { base := { seqnum := 14 } }
    (by decide) (by decide) ⟨4, by decide, by decide⟩
  ⟨by decide, by decide, by decide, by decide, by decide,
    h.elim fun urbr h1 => h1.elim fun before h2 => h2.elim fun after h3 =>
      ⟨urbr, before, after, h3.1, h3.2.1⟩⟩

/-- C5. `find_sent_urbr`, not found: when no request of `head_urbr_sent` carries the
number of the header, the call returns `NULL` and the state is the one before: all three
lists, the partial request, the waiting read irp, the counter and everything else.  A
request with that number that is only pending or only the partial request is therefore
not returned. -/
theorem find_sent_urbr_not_found (s : State) (hdr : usbip_header)
    (h : ∀ urbr ∈ s.vpdo.head_urbr_sent, (s.mem urbr).seq_num ≠ hdr.base.seqnum) :
    find_sent_urbr s hdr = (none, s) := by
  have hfind : s.vpdo.head_urbr_sent.find?
      (fun urbr => (s.mem urbr).seq_num == hdr.base.seqnum) = none := by
    rw [List.find?_eq_none]
    intro x hx
    simpa using h x hx
  unfold find_sent_urbr
  rw [hfind]

/-- C5, worked instance: in `sent_context` the number 15 is carried by request 5, which is
pending and not sent; the header with number 15 finds nothing. -/
theorem find_sent_urbr_not_found_witness :
    (∀ urbr ∈ sent_context.vpdo.head_urbr_sent,
      (sent_context.mem urbr).seq_num ≠ (15 : Nat)) ∧
    5 ∈ sent_context.vpdo.head_urbr_pending ∧ (sent_context.mem 5).seq_num = 15 ∧
    find_sent_urbr sent_context { base := { seqnum := 15 } } = (none, sent_context) :=
  ⟨by decide, by decide, by decide,
    find_sent_urbr_not_found sent_context { base := { seqnum := 15 } } (by decide)⟩

/-! ### `submit_urbr`, direct hand-off -/

/-- The result of `submit_urbr` when a read irp waits, no request is partly sent, and
`store_urbr` stores the whole request. -/
theorem submit_urbr_of_complete (env : Env) (s : State) (urbr i : Nat)
    (hp : s.vpdo.urbr_sent_partial = none) (hr : s.vpdo.pending_read_irp = some i)
    (hst : env.store_urbr (handoff_state env s urbr) (some i) urbr = (STATUS_SUCCESS, 0)) :
    submit_urbr env s urbr =
      (STATUS_PENDING,
        { handoff_state env s urbr with
          vpdo := { s.vpdo with
            seq_num := pre_increment env.seq_bits s.vpdo.seq_num
            len_sent_partial := 0
            urbr_sent_partial := none
            head_urbr_sent := s.vpdo.head_urbr_sent ++ [urbr]
            head_urbr := s.vpdo.head_urbr ++ [urbr]
            pending_read_irp := none }
          events := s.events ++ set_cancel_and_mark (s.mem urbr).irp ++
            [Event.IoCompleteRequest i STATUS_SUCCESS] }) := by
  unfold submit_urbr
  rw [if_neg (by simp [hp, hr])]
  simp only [hr, hst, if_true]
  simp [handoff_state, write, hr]

/-- The result of `submit_urbr` when a read irp waits, no request is partly sent, and
`store_urbr` stores a part and leaves `n`, not 0, in `len_sent_partial`. -/
theorem submit_urbr_of_part (env : Env) (s : State) (urbr i n : Nat)
    (hp : s.vpdo.urbr_sent_partial = none) (hr : s.vpdo.pending_read_irp = some i)
    (hst : env.store_urbr (handoff_state env s urbr) (some i) urbr = (STATUS_SUCCESS, n))
    (hn : n ≠ 0) :
    submit_urbr env s urbr =
      (STATUS_PENDING,
        { handoff_state env s urbr with
          vpdo := { s.vpdo with
            seq_num := pre_increment env.seq_bits s.vpdo.seq_num
            len_sent_partial := n
            urbr_sent_partial := some urbr
            head_urbr := s.vpdo.head_urbr ++ [urbr]
            pending_read_irp := none }
          events := s.events ++ set_cancel_and_mark (s.mem urbr).irp ++
            [Event.IoCompleteRequest i STATUS_SUCCESS] }) := by
  unfold submit_urbr
  rw [if_neg (by simp [hp, hr])]
  simp only [hr, hst, if_true]
  simp [handoff_state, write, hr, hn]

/-- The counter of a fresh context reaches its last 32-bit value: after `2 ^ 32 - 1`
rounds of submitting a request and fetching it. -/
theorem last_number_reached (mem : Nat → urb_req) (allocated : List Nat) :
    (run env_complete (fresh_context mem allocated)
      (submit_fetch_rounds (2 ^ 32 - 1))).vpdo.seq_num = 2 ^ 32 - 1 := by
  obtain ⟨_, _, _, _, _, h6⟩ :=
    submit_fetch_rounds_state env_complete mem allocated (2 ^ 32 - 1)
  obtain ⟨i1, _⟩ := seq_inv_run env_complete (submit_fetch_rounds (2 ^ 32 - 1)) _
    (seq_inv_fresh env_complete mem allocated)
  rw [i1, h6]
  rfl

/-- The result of `submit_urbr` when a read irp waits, no request is partly sent, and
`store_urbr` fails. -/
theorem submit_urbr_of_fail (env : Env) (s : State) (urbr i : Nat)
    (hp : s.vpdo.urbr_sent_partial = none) (hr : s.vpdo.pending_read_irp = some i)
    (hst : (env.store_urbr (handoff_state env s urbr) (some i) urbr).1 ≠ STATUS_SUCCESS) :
    submit_urbr env s urbr =
      (STATUS_INVALID_PARAMETER,
        { handoff_state env s urbr with
          vpdo := { s.vpdo with
            seq_num := pre_increment env.seq_bits s.vpdo.seq_num
            len_sent_partial := (env.store_urbr (handoff_state env s urbr) (some i) urbr).2
            urbr_sent_partial := none } }) := by
  unfold submit_urbr
  rw [if_neg (by simp [hp, hr])]
  simp only [hr, if_neg hst]
  simp [handoff_state, hr]

/-- The four ways `submit_urbr` can go. -/
theorem submit_urbr_cases (env : Env) (s : State) (urbr : Nat) :
    (s.vpdo.urbr_sent_partial ≠ none ∨ s.vpdo.pending_read_irp = none) ∨
    ∃ i, s.vpdo.urbr_sent_partial = none ∧ s.vpdo.pending_read_irp = some i ∧
      (env.store_urbr (handoff_state env s urbr) (some i) urbr = (STATUS_SUCCESS, 0) ∨
       (∃ n, n ≠ 0 ∧
          env.store_urbr (handoff_state env s urbr) (some i) urbr = (STATUS_SUCCESS, n)) ∨
       (env.store_urbr (handoff_state env s urbr) (some i) urbr).1 ≠ STATUS_SUCCESS) := by
  by_cases hp : s.vpdo.urbr_sent_partial = none
  · cases hr : s.vpdo.pending_read_irp with
    | none => exact Or.inl (Or.inr rfl)
    | some i =>
      refine Or.inr ⟨i, hp, rfl, ?_⟩
      by_cases hst : (env.store_urbr (handoff_state env s urbr) (some i) urbr).1 = STATUS_SUCCESS
      · by_cases hn : (env.store_urbr (handoff_state env s urbr) (some i) urbr).2 = 0
        · exact Or.inl (Prod.ext hst hn)
        · exact Or.inr (Or.inl ⟨_, hn, Prod.ext hst rfl⟩)
      · exact Or.inr (Or.inr hst)
  · exact Or.inl (Or.inl hp)

theorem lists_inv_fresh (mem : Nat → urb_req) (allocated : List Nat) :
    lists_inv (fresh_context mem allocated) := by
  constructor <;> simp [fresh_context]

theorem lists_inv_park (s : State) (irp : Nat) (h : lists_inv s) :
    lists_inv (park_read_irp s irp) := by
  obtain ⟨h1, h2, h3, h4, h5, h6, h7, h8⟩ := h
  exact ⟨h1, h2, h3, h4, h5, h6, h7, h8⟩

theorem lists_inv_submit_urbr (env : Env) (s : State) (urbr : Nat) (h : lists_inv s)
    (hu : urbr ∈ s.allocated) (hf : urbr ∉ s.vpdo.head_urbr) :
    lists_inv (submit_urbr env s urbr).2 := by
  obtain ⟨h1, h2, h3, h4, h5, h6, h7, h8⟩ := h
  have hfp : urbr ∉ s.vpdo.head_urbr_pending := fun hm => hf (h5 _ hm)
  have hfs : urbr ∉ s.vpdo.head_urbr_sent := fun hm => hf (h6 _ hm)
  rcases submit_urbr_cases env s urbr with hq | ⟨i, hp, hr, hc | ⟨n, hn, hc⟩ | hc⟩
  · rw [submit_urbr_of_queued env s urbr hq]
    constructor
    · exact List.Nodup.append h1 (List.nodup_singleton _) (by simpa using hfp)
    · exact h2
    · exact List.Nodup.append h3 (List.nodup_singleton _) (by simpa using hf)
    · intro x hx
      rcases List.mem_append.1 hx with hx | hx
      · exact h4 x hx
      · rw [List.mem_singleton.1 hx]; exact hfs
    · intro x hx
      rcases List.mem_append.1 hx with hx | hx
      · exact List.mem_append_left _ (h5 x hx)
      · exact List.mem_append_right _ hx
    · intro x hx
      exact List.mem_append_left _ (h6 x hx)
    · intro x hx
      rcases List.mem_append.1 hx with hx | hx
      · exact h7 x hx
      · rw [List.mem_singleton.1 hx]; exact hu
    · intro p hpp
      obtain ⟨q1, q2, q3⟩ := h8 p hpp
      refine ⟨List.mem_append_left _ q1, ?_, q3⟩
      intro hx
      rcases List.mem_append.1 hx with hx | hx
      · exact q2 hx
      · rw [List.mem_singleton.1 hx] at q1; exact hf q1
  · rw [submit_urbr_of_complete env s urbr i hp hr hc]
    constructor
    · exact h1
    · exact List.Nodup.append h2 (List.nodup_singleton _) (by simpa using hfs)
    · exact List.Nodup.append h3 (List.nodup_singleton _) (by simpa using hf)
    · intro x hx hm
      rcases List.mem_append.1 hm with hm | hm
      · exact h4 x hx hm
      · rw [List.mem_singleton.1 hm] at hx; exact hfp hx
    · intro x hx
      exact List.mem_append_left _ (h5 x hx)
    · intro x hx
      rcases List.mem_append.1 hx with hx | hx
      · exact List.mem_append_left _ (h6 x hx)
      · exact List.mem_append_right _ hx
    · intro x hx
      rcases List.mem_append.1 hx with hx | hx
      · exact h7 x hx
      · rw [List.mem_singleton.1 hx]; exact hu
    · intro p hpp
      exact absurd hpp (by simp)
  · rw [submit_urbr_of_part env s urbr i n hp hr hc hn]
    constructor
    · exact h1
    · exact h2
    · exact List.Nodup.append h3 (List.nodup_singleton _) (by simpa using hf)
    · exact h4
    · intro x hx
      exact List.mem_append_left _ (h5 x hx)
    · intro x hx
      exact List.mem_append_left _ (h6 x hx)
    · intro x hx
      rcases List.mem_append.1 hx with hx | hx
      · exact h7 x hx
      · rw [List.mem_singleton.1 hx]; exact hu
    · intro p hpp
      have : urbr = p := by simpa using hpp
      subst this
      exact ⟨List.mem_append_right _ (List.mem_singleton_self _), hfp, hfs⟩
  · rw [submit_urbr_of_fail env s urbr i hp hr hc]
    exact ⟨h1, h2, h3, h4, h5, h6, h7, fun p hpp => absurd hpp (by simp)⟩

theorem lists_inv_find_pending_urbr (env : Env) (s : State) (h : lists_inv s) :
    lists_inv (find_pending_urbr env s).2 := by
  obtain ⟨h1, h2, h3, h4, h5, h6, h7, h8⟩ := h
  unfold find_pending_urbr
  split
  · exact ⟨h1, h2, h3, h4, h5, h6, h7, h8⟩
  · rename_i urbr rest e
    rw [e] at h1 h4 h5 h8
    refine ⟨(List.nodup_cons.1 h1).2, h2, h3, fun x hx => h4 x (List.mem_cons_of_mem _ hx),
      fun x hx => h5 x (List.mem_cons_of_mem _ hx), h6, h7, ?_⟩
    intro p hpp
    obtain ⟨q1, q2, q3⟩ := h8 p hpp
    exact ⟨q1, fun hx => q2 (List.mem_cons_of_mem _ hx), q3⟩

theorem lists_inv_find_sent_urbr (s : State) (hdr : usbip_header) (h : lists_inv s) :
    lists_inv (find_sent_urbr s hdr).2 := by
  obtain ⟨h1, h2, h3, h4, h5, h6, h7, h8⟩ := h
  unfold find_sent_urbr
  split
  · rename_i urbr e
    have hu : urbr ∈ s.vpdo.head_urbr_sent := List.mem_of_find?_eq_some e
    refine ⟨h1, h2.erase _, h3.erase _, fun x hx hm => h4 x hx (List.mem_of_mem_erase hm),
      ?_, ?_, fun x hx => h7 x (List.mem_of_mem_erase hx), ?_⟩
    · intro x hx
      have hne : x ≠ urbr := fun hxu => h4 x hx (hxu ▸ hu)
      exact (List.mem_erase_of_ne hne).2 (h5 x hx)
    · intro x hx
      obtain ⟨hne, hm⟩ := (List.Nodup.mem_erase_iff h2).1 hx
      exact (List.mem_erase_of_ne hne).2 (h6 x hm)
    · intro p hpp
      obtain ⟨q1, q2, q3⟩ := h8 p hpp
      have hne : p ≠ urbr := fun hxu => q3 (hxu ▸ hu)
      exact ⟨(List.mem_erase_of_ne hne).2 q1, q2, fun hm => q3 (List.mem_of_mem_erase hm)⟩
  · exact ⟨h1, h2, h3, h4, h5, h6, h7, h8⟩

/-- After `unlink_cancelled` the request is in no list and is not the partly sent one. -/
theorem unlink_cancelled_unlinked (s : State) (urbr : Nat) (h : lists_inv s) :
    in_no_list (unlink_cancelled s urbr).vpdo urbr ∧
    (unlink_cancelled s urbr).vpdo.urbr_sent_partial ≠ some urbr := by
  obtain ⟨h1, h2, h3, _, _, _, _, _⟩ := h
  have e1 := fun hm => ((List.Nodup.mem_erase_iff h1 (a := urbr) (b := urbr)).1 hm).1 rfl
  have e2 := fun hm => ((List.Nodup.mem_erase_iff h2 (a := urbr) (b := urbr)).1 hm).1 rfl
  have e3 := fun hm => ((List.Nodup.mem_erase_iff h3 (a := urbr) (b := urbr)).1 hm).1 rfl
  unfold unlink_cancelled in_no_list
  dsimp only
  split_ifs with hc
  · exact ⟨⟨e3, e1, e2⟩, by simp⟩
  · exact ⟨⟨e3, e1, e2⟩, hc⟩

theorem lists_inv_unlink_cancelled (s : State) (urbr : Nat) (h : lists_inv s) :
    lists_inv (unlink_cancelled s urbr) := by
  obtain ⟨h1, h2, h3, h4, h5, h6, h7, h8⟩ := h
  have c1 : ∀ x ∈ s.vpdo.head_urbr_pending.erase urbr, x ∉ s.vpdo.head_urbr_sent.erase urbr :=
    fun x hx hm => h4 x (List.mem_of_mem_erase hx) (List.mem_of_mem_erase hm)
  have c2 : ∀ x ∈ s.vpdo.head_urbr_pending.erase urbr, x ∈ s.vpdo.head_urbr.erase urbr := by
    intro x hx
    obtain ⟨hne, hm⟩ := (List.Nodup.mem_erase_iff h1).1 hx
    exact (List.mem_erase_of_ne hne).2 (h5 x hm)
  have c3 : ∀ x ∈ s.vpdo.head_urbr_sent.erase urbr, x ∈ s.vpdo.head_urbr.erase urbr := by
    intro x hx
    obtain ⟨hne, hm⟩ := (List.Nodup.mem_erase_iff h2).1 hx
    exact (List.mem_erase_of_ne hne).2 (h6 x hm)
  have c4 : ∀ x ∈ s.vpdo.head_urbr.erase urbr, x ∈ s.allocated :=
    fun x hx => h7 x (List.mem_of_mem_erase hx)
  unfold unlink_cancelled
  dsimp only
  split_ifs with hc
  · exact ⟨h1.erase _, h2.erase _, h3.erase _, c1, c2, c3, c4, fun p hpp => absurd hpp (by simp)⟩
  · refine ⟨h1.erase _, h2.erase _, h3.erase _, c1, c2, c3, c4, ?_⟩
    intro p hpp
    obtain ⟨q1, q2, q3⟩ := h8 p hpp
    have hne : p ≠ urbr := fun hxu => hc (hxu ▸ hpp)
    exact ⟨(List.mem_erase_of_ne hne).2 q1, fun hm => q2 (List.mem_of_mem_erase hm),
      fun hm => q3 (List.mem_of_mem_erase hm)⟩

theorem lists_inv_create_urbr (env : Env) (s : State) (irp : Option Nat) (u : Nat)
    (h : lists_inv s) : lists_inv (create_urbr env s irp u).2 := by
  obtain ⟨h1, h2, h3, h4, h5, h6, h7, h8⟩ := h
  unfold create_urbr
  split
  · exact ⟨h1, h2, h3, h4, h5, h6, h7, h8⟩
  · exact ⟨h1, h2, h3, h4, h5, h6, fun x hx => List.mem_append_left _ (h7 x hx), h8⟩

theorem lists_inv_free_urbr (s : State) (urbr : Nat) (h : lists_inv s)
    (hf : urbr ∉ s.vpdo.head_urbr) : lists_inv (free_urbr s urbr) := by
  obtain ⟨h1, h2, h3, h4, h5, h6, h7, h8⟩ := h
  refine ⟨h1, h2, h3, h4, h5, h6, ?_, h8⟩
  intro x hx
  have hne : x ≠ urbr := fun hxu => hf (hxu ▸ hx)
  exact (List.mem_erase_of_ne hne).2 (h7 x hx)

/-- The two ways `create_urbr` can go. -/
theorem create_urbr_cases (env : Env) (s : State) (irp : Option Nat) (u : Nat) :
    create_urbr env s irp u = (none, s) ∨
    ∃ p, env.ExAllocateFromNPagedLookasideList s.allocated = some p ∧
      create_urbr env s irp u =
        (some p,
          { s with
            allocated := s.allocated ++ [p]
            mem := write s.mem p { irp := irp, seq_num := 0, seq_num_unlink := u } }) := by
  unfold create_urbr
  cases h : env.ExAllocateFromNPagedLookasideList s.allocated with
  | none => exact Or.inl rfl
  | some p => exact Or.inr ⟨p, rfl, rfl⟩

/-- `submit_urbr` links into `head_urbr` at most the request submitted, and leaves the
pool alone. -/
theorem submit_urbr_head_urbr (env : Env) (s : State) (urbr : Nat) :
    (∀ x ∈ (submit_urbr env s urbr).2.vpdo.head_urbr, x ∈ s.vpdo.head_urbr ∨ x = urbr) ∧
    (submit_urbr env s urbr).2.allocated = s.allocated := by
  rcases submit_urbr_cases env s urbr with hq | ⟨i, hp, hr, hc | ⟨n, hn, hc⟩ | hc⟩
  · rw [submit_urbr_of_queued env s urbr hq]
    exact ⟨fun x hx => by simpa using hx, rfl⟩
  · rw [submit_urbr_of_complete env s urbr i hp hr hc]
    exact ⟨fun x hx => by simpa using hx, rfl⟩
  · rw [submit_urbr_of_part env s urbr i n hp hr hc hn]
    exact ⟨fun x hx => by simpa using hx, rfl⟩
  · rw [submit_urbr_of_fail env s urbr i hp hr hc]
    exact ⟨fun x hx => Or.inl hx, rfl⟩

/-- `STATUS_PENDING` is no error status. -/
theorem not_error_pending : ¬ (NT_ERROR STATUS_PENDING = true) := by decide

/-- When `submit_urbr` returns an error status it has linked nothing into `head_urbr`. -/
theorem submit_urbr_error_head_urbr (env : Env) (s : State) (urbr : Nat)
    (he : NT_ERROR (submit_urbr env s urbr).1 = true) :
    (submit_urbr env s urbr).2.vpdo.head_urbr = s.vpdo.head_urbr := by
  rcases submit_urbr_cases env s urbr with hq | ⟨i, hp, hr, hc | ⟨n, hn, hc⟩ | hc⟩
  · rw [submit_urbr_of_queued env s urbr hq] at he
    exact absurd he not_error_pending
  · rw [submit_urbr_of_complete env s urbr i hp hr hc] at he
    exact absurd he not_error_pending
  · rw [submit_urbr_of_part env s urbr i n hp hr hc hn] at he
    exact absurd he not_error_pending
  · rw [submit_urbr_of_fail env s urbr i hp hr hc]

theorem lists_inv_submit_urbr_unlink (env : Env) (hpool : pool_sound env) (s : State)
    (u : Nat) (h : lists_inv s) : lists_inv (submit_urbr_unlink env s u) := by
  unfold submit_urbr_unlink
  rcases create_urbr_cases env s none u with e | ⟨p, ha, e⟩
  · rw [e]
    exact h
  · have hi := lists_inv_create_urbr env s none u h
    rw [e] at hi ⊢
    have hpa : p ∉ s.allocated := hpool _ _ ha
    have hpf : p ∉ s.vpdo.head_urbr := fun hm => hpa (h.all_allocated p hm)
    have h2 := lists_inv_submit_urbr env _ p hi (List.mem_append_right _ (List.mem_singleton_self _))
      hpf
    dsimp only
    split_ifs with he
    · refine lists_inv_free_urbr _ p h2 ?_
      rw [submit_urbr_error_head_urbr env _ p he]
      exact hpf
    · exact h2

/-- `submit_urbr_unlink` links into `head_urbr` at most a block that was not handed out
before. -/
theorem submit_urbr_unlink_head_urbr (env : Env) (hpool : pool_sound env) (s : State)
    (u : Nat) :
    ∀ x ∈ (submit_urbr_unlink env s u).vpdo.head_urbr, x ∈ s.vpdo.head_urbr ∨ x ∉ s.allocated := by
  unfold submit_urbr_unlink
  rcases create_urbr_cases env s none u with e | ⟨p, ha, e⟩
  · rw [e]
    exact fun x hx => Or.inl hx
  · rw [e]
    have hpa : p ∉ s.allocated := hpool _ _ ha
    have key := (submit_urbr_head_urbr env
      { s with
        allocated := s.allocated ++ [p]
        mem := write s.mem p { irp := none, seq_num := 0, seq_num_unlink := u } } p).1
    dsimp only
    intro x hx
    have hx2 : x ∈ (submit_urbr env
      { s with
        allocated := s.allocated ++ [p]
        mem := write s.mem p { irp := none, seq_num := 0, seq_num_unlink := u } }
        p).2.vpdo.head_urbr := by
      split_ifs at hx
      · exact hx
      · exact hx
    rcases key x hx2 with hk | hk
    · exact Or.inl hk
    · exact Or.inr (hk ▸ hpa)

theorem lists_inv_remove_cancelled_urbr (env : Env) (hpool : pool_sound env) (s : State)
    (irp : Option Nat) (h : lists_inv s) : lists_inv (remove_cancelled_urbr env s irp) := by
  unfold remove_cancelled_urbr
  split
  · rename_i urbr e
    have hu : urbr ∈ s.vpdo.head_urbr := List.mem_of_find?_eq_some e
    have h1 := lists_inv_unlink_cancelled s urbr h
    have hn := (unlink_cancelled_unlinked s urbr h).1.1
    have ha : (unlink_cancelled s urbr).allocated = s.allocated := by
      unfold unlink_cancelled
      dsimp only
      split_ifs <;> rfl
    refine lists_inv_free_urbr _ urbr (lists_inv_submit_urbr_unlink env hpool _ _ h1) ?_
    intro hm
    rcases submit_urbr_unlink_head_urbr env hpool _ _ urbr hm with hk | hk
    · exact hn hk
    · rw [ha] at hk
      exact hk (h.all_allocated urbr hu)
  · exact h

theorem lists_inv_cancel_urbr (env : Env) (hpool : pool_sound env) (s : State) (irp : Nat)
    (h : lists_inv s) : lists_inv (cancel_urbr env s irp) := by
  obtain ⟨h1, h2, h3, h4, h5, h6, h7, h8⟩ :=
    lists_inv_remove_cancelled_urbr env hpool s (some irp) h
  exact ⟨h1, h2, h3, h4, h5, h6, h7, h8⟩

theorem lists_inv_step (env : Env) (hpool : pool_sound env) (s : State) (op : Op)
    (h : lists_inv s) (hok : op_ok s op) : lists_inv (step env s op) := by
  cases op with
  | create irp u => exact lists_inv_create_urbr env s irp u h
  | submit urbr => exact lists_inv_submit_urbr env s urbr h hok.1 hok.2.1
  | free urbr => exact lists_inv_free_urbr s urbr h hok.2.1
  | find_pending => exact lists_inv_find_pending_urbr env s h
  | find_sent hdr => exact lists_inv_find_sent_urbr s hdr h
  | cancel irp => exact lists_inv_cancel_urbr env hpool s irp h
  | read_waits irp => exact lists_inv_park s irp h

theorem lists_inv_run (env : Env) (hpool : pool_sound env) (ops : List Op) :
    ∀ s : State, lists_inv s → valid env s ops → lists_inv (run env s ops) := by
  induction ops with
  | nil => intro s h _; exact h
  | cons op ops ih =>
    intro s h hv
    exact ih _ (lists_inv_step env hpool s op h hv.1) hv.2

/-! ### The numbers of the sent requests -/

/-- Before the wrap the counter is the number of assignments made, and its next value is
one more. -/
theorem no_wrap_counter (env : Env) (s : State) (hs : seq_inv env s)
    (h : s.seq_log.length + 1 < 2 ^ env.seq_bits) :
    s.vpdo.seq_num = s.seq_log.length ∧
    pre_increment env.seq_bits s.vpdo.seq_num = s.seq_log.length + 1 := by
  have e : s.vpdo.seq_num = s.seq_log.length := by
    rw [hs.1]
    exact Nat.mod_eq_of_lt (by omega)
  refine ⟨e, ?_⟩
  unfold pre_increment
  rw [e]
  exact Nat.mod_eq_of_lt h

/-- The invariant of the sent numbers passes to a state whose sent list is a part of the
old one, in which the sent requests carry their old numbers, and whose counter has not
gone down. -/
theorem sent_seq_inv_frame (env : Env) (s t : State) (h : sent_seq_inv env s)
    (hlen : s.seq_log.length ≤ t.seq_log.length)
    (hsub : t.vpdo.head_urbr_sent.Sublist s.vpdo.head_urbr_sent)
    (hmem : ∀ x ∈ s.vpdo.head_urbr_sent, (t.mem x).seq_num = (s.mem x).seq_num)
    (hcnt : t.seq_log.length < 2 ^ env.seq_bits → s.vpdo.seq_num ≤ t.vpdo.seq_num) :
    sent_seq_inv env t := by
  intro hw
  obtain ⟨b, pw⟩ := h (by omega)
  have hc := hcnt hw
  constructor
  · intro x hx
    have hx2 := hsub.subset hx
    rw [hmem x hx2]
    exact le_trans (b x hx2) hc
  · refine List.Pairwise.imp_of_mem ?_ (List.Pairwise.sublist hsub pw)
    intro a b ha hb hab
    rw [hmem a (hsub.subset ha), hmem b (hsub.subset hb)]
    exact hab

/-- A state that differs only in events, pool, partial request, read irp or the pending
and `head_urbr` lists. -/
theorem sent_seq_inv_same (env : Env) (s t : State) (h : sent_seq_inv env s)
    (h1 : t.seq_log = s.seq_log) (h2 : t.vpdo.head_urbr_sent = s.vpdo.head_urbr_sent)
    (h3 : t.mem = s.mem) (h4 : t.vpdo.seq_num = s.vpdo.seq_num) : sent_seq_inv env t :=
  sent_seq_inv_frame env s t h (by rw [h1]) (by rw [h2]) (fun x _ => by rw [h3])
    (fun _ => by rw [h4])

theorem write_seq_of_ne (mem : Nat → urb_req) (p x : Nat) (v : urb_req) (h : x ≠ p) :
    (write mem p v x).seq_num = (mem x).seq_num := by
  simp [write, h]

theorem sent_seq_inv_submit_urbr (env : Env) (s : State) (urbr : Nat) (hl : lists_inv s)
    (hs : seq_inv env s) (h : sent_seq_inv env s) (hf : urbr ∉ s.vpdo.head_urbr) :
    sent_seq_inv env (submit_urbr env s urbr).2 := by
  have hfs : urbr ∉ s.vpdo.head_urbr_sent := fun hm => hf (hl.sent_all _ hm)
  have hne : ∀ x ∈ s.vpdo.head_urbr_sent, x ≠ urbr := fun x hx hxu => hfs (hxu ▸ hx)
  rcases submit_urbr_cases env s urbr with hq | ⟨i, hp, hr, hc | ⟨n, hn, hc⟩ | hc⟩
  · rw [submit_urbr_of_queued env s urbr hq]
    exact sent_seq_inv_same env s _ h rfl rfl rfl rfl
  · rw [submit_urbr_of_complete env s urbr i hp hr hc]
    intro hw
    have hw2 : s.seq_log.length + 1 < 2 ^ env.seq_bits := by
      simpa [handoff_state] using hw
    obtain ⟨c1, c2⟩ := no_wrap_counter env s hs hw2
    obtain ⟨bd, pw⟩ := h (by omega)
    have hu : ((handoff_state env s urbr).mem urbr).seq_num = s.seq_log.length + 1 := by
      simp [handoff_state, write, c2]
    have ho : ∀ x ∈ s.vpdo.head_urbr_sent,
        ((handoff_state env s urbr).mem x).seq_num = (s.mem x).seq_num :=
      fun x hx => write_seq_of_ne _ _ _ _ (hne x hx)
    constructor
    · intro x hx
      show ((handoff_state env s urbr).mem x).seq_num ≤ pre_increment env.seq_bits s.vpdo.seq_num
      rw [c2]
      rcases List.mem_append.1 hx with hx | hx
      · rw [ho x hx]
        have := bd x hx
        omega
      · rw [List.mem_singleton.1 hx, hu]
    · show List.Pairwise _ (s.vpdo.head_urbr_sent ++ [urbr])
      rw [List.pairwise_append]
      refine ⟨?_, List.pairwise_singleton _ _, ?_⟩
      · refine List.Pairwise.imp_of_mem ?_ pw
        intro a b ha hb hab
        show ((handoff_state env s urbr).mem a).seq_num < ((handoff_state env s urbr).mem b).seq_num
        rw [ho a ha, ho b hb]
        exact hab
      · intro a ha b hb
        show ((handoff_state env s urbr).mem a).seq_num < ((handoff_state env s urbr).mem b).seq_num
        rw [List.mem_singleton.1 hb, hu, ho a ha]
        have := bd a ha
        omega
  · rw [submit_urbr_of_part env s urbr i n hp hr hc hn]
    refine sent_seq_inv_frame env s _ h (by simp [handoff_state]) (List.Sublist.refl _)
      (fun x hx => write_seq_of_ne _ _ _ _ (hne x hx)) ?_
    intro hw
    have hw2 : s.seq_log.length + 1 < 2 ^ env.seq_bits := by
      simpa [handoff_state] using hw
    obtain ⟨c1, c2⟩ := no_wrap_counter env s hs hw2
    show s.vpdo.seq_num ≤ pre_increment env.seq_bits s.vpdo.seq_num
    omega
  · rw [submit_urbr_of_fail env s urbr i hp hr hc]
    refine sent_seq_inv_frame env s _ h (by simp [handoff_state]) (List.Sublist.refl _)
      (fun x hx => write_seq_of_ne _ _ _ _ (hne x hx)) ?_
    intro hw
    have hw2 : s.seq_log.length + 1 < 2 ^ env.seq_bits := by
      simpa [handoff_state] using hw
    obtain ⟨c1, c2⟩ := no_wrap_counter env s hs hw2
    show s.vpdo.seq_num ≤ pre_increment env.seq_bits s.vpdo.seq_num
    omega

theorem sent_seq_inv_find_pending_urbr (env : Env) (s : State) (hl : lists_inv s)
    (hs : seq_inv env s) (h : sent_seq_inv env s) :
    sent_seq_inv env (find_pending_urbr env s).2 := by
  unfold find_pending_urbr
  split
  · exact h
  · rename_i urbr rest e
    have hne : ∀ x ∈ s.vpdo.head_urbr_sent, x ≠ urbr := by
      intro x hx hxu
      exact hl.disjoint urbr (by rw [e]; exact List.mem_cons_self _ _) (hxu ▸ hx)
    refine sent_seq_inv_frame env s _ h (by simp) (List.Sublist.refl _)
      (fun x hx => write_seq_of_ne _ _ _ _ (hne x hx)) ?_
    intro hw
    have hw2 : s.seq_log.length + 1 < 2 ^ env.seq_bits := by simpa using hw
    obtain ⟨c1, c2⟩ := no_wrap_counter env s hs hw2
    show s.vpdo.seq_num ≤ pre_increment env.seq_bits s.vpdo.seq_num
    omega

theorem sent_seq_inv_find_sent_urbr (env : Env) (s : State) (hdr : usbip_header)
    (h : sent_seq_inv env s) : sent_seq_inv env (find_sent_urbr s hdr).2 := by
  unfold find_sent_urbr
  split
  · exact sent_seq_inv_frame env s _ h (le_refl _) (List.erase_sublist _ _) (fun _ _ => rfl)
      (fun _ => le_refl _)
  · exact h

theorem sent_seq_inv_unlink_cancelled (env : Env) (s : State) (urbr : Nat)
    (h : sent_seq_inv env s) : sent_seq_inv env (unlink_cancelled s urbr) := by
  unfold unlink_cancelled
  dsimp only
  split_ifs
  · exact sent_seq_inv_frame env s _ h (le_refl _) (List.erase_sublist _ _) (fun _ _ => rfl)
      (fun _ => le_refl _)
  · exact sent_seq_inv_frame env s _ h (le_refl _) (List.erase_sublist _ _) (fun _ _ => rfl)
      (fun _ => le_refl _)

theorem sent_seq_inv_create_urbr (env : Env) (hpool : pool_sound env) (s : State)
    (irp : Option Nat) (u : Nat) (hl : lists_inv s) (h : sent_seq_inv env s) :
    sent_seq_inv env (create_urbr env s irp u).2 := by
  rcases create_urbr_cases env s irp u with e | ⟨p, ha, e⟩
  · rw [e]
    exact h
  · rw [e]
    have hne : ∀ x ∈ s.vpdo.head_urbr_sent, x ≠ p := by
      intro x hx hxp
      exact hpool _ _ ha (hl.all_allocated p (hl.sent_all p (hxp ▸ hx)))
    exact sent_seq_inv_frame env s _ h (le_refl _) (List.Sublist.refl _)
      (fun x hx => write_seq_of_ne _ _ _ _ (hne x hx)) (fun _ => le_refl _)

/-! ### The invariant of reachable contexts -/

theorem broker_inv_fresh (env : Env) (mem : Nat → urb_req) (allocated : List Nat) :
    broker_inv env (fresh_context mem allocated) := by
  refine ⟨lists_inv_fresh mem allocated, seq_inv_fresh env mem allocated, ?_⟩
  intro _
  simp [fresh_context]

theorem broker_inv_create_urbr (env : Env) (hpool : pool_sound env) (s : State)
    (irp : Option Nat) (u : Nat) (h : broker_inv env s) :
    broker_inv env (create_urbr env s irp u).2 :=
  ⟨lists_inv_create_urbr env s irp u h.1,
    seq_inv_of_seq_step env s _ (Or.inl (create_urbr_seq env s irp u)) h.2.1,
    sent_seq_inv_create_urbr env hpool s irp u h.1 h.2.2⟩

theorem broker_inv_submit_urbr (env : Env) (s : State) (urbr : Nat) (h : broker_inv env s)
    (hu : urbr ∈ s.allocated) (hf : urbr ∉ s.vpdo.head_urbr) :
    broker_inv env (submit_urbr env s urbr).2 :=
  ⟨lists_inv_submit_urbr env s urbr h.1 hu hf,
    seq_inv_of_seq_step env s _ (submit_urbr_seq_step env s urbr) h.2.1,
    sent_seq_inv_submit_urbr env s urbr h.1 h.2.1 h.2.2 hf⟩

theorem broker_inv_free_urbr (env : Env) (s : State) (urbr : Nat) (h : broker_inv env s)
    (hf : urbr ∉ s.vpdo.head_urbr) : broker_inv env (free_urbr s urbr) :=
  ⟨lists_inv_free_urbr s urbr h.1 hf,
    seq_inv_of_seq_step env s _ (Or.inl ⟨rfl, rfl⟩) h.2.1,
    sent_seq_inv_same env s _ h.2.2 rfl rfl rfl rfl⟩

theorem broker_inv_find_pending_urbr (env : Env) (s : State) (h : broker_inv env s) :
    broker_inv env (find_pending_urbr env s).2 :=
  ⟨lists_inv_find_pending_urbr env s h.1,
    seq_inv_of_seq_step env s _ (find_pending_urbr_seq_step env s) h.2.1,
    sent_seq_inv_find_pending_urbr env s h.1 h.2.1 h.2.2⟩

theorem broker_inv_find_sent_urbr (env : Env) (s : State) (hdr : usbip_header)
    (h : broker_inv env s) : broker_inv env (find_sent_urbr s hdr).2 :=
  ⟨lists_inv_find_sent_urbr s hdr h.1,
    seq_inv_of_seq_step env s _ (Or.inl (find_sent_urbr_seq s hdr)) h.2.1,
    sent_seq_inv_find_sent_urbr env s hdr h.2.2⟩

theorem broker_inv_unlink_cancelled (env : Env) (s : State) (urbr : Nat)
    (h : broker_inv env s) : broker_inv env (unlink_cancelled s urbr) :=
  ⟨lists_inv_unlink_cancelled s urbr h.1,
    seq_inv_of_seq_step env s _ (Or.inl (unlink_cancelled_seq s urbr)) h.2.1,
    sent_seq_inv_unlink_cancelled env s urbr h.2.2⟩

theorem broker_inv_submit_urbr_unlink (env : Env) (hpool : pool_sound env) (s : State)
    (u : Nat) (h : broker_inv env s) : broker_inv env (submit_urbr_unlink env s u) := by
  unfold submit_urbr_unlink
  have hi := broker_inv_create_urbr env hpool s none u h
  rcases create_urbr_cases env s none u with e | ⟨p, ha, e⟩
  · rw [e]
    exact h
  · rw [e] at hi ⊢
    have hpa : p ∉ s.allocated := hpool _ _ ha
    have hpf : p ∉ s.vpdo.head_urbr := fun hm => hpa (h.1.all_allocated p hm)
    have h2 := broker_inv_submit_urbr env _ p hi
      (List.mem_append_right _ (List.mem_singleton_self _)) hpf
    dsimp only
    split_ifs with he
    · refine broker_inv_free_urbr env _ p h2 ?_
      rw [submit_urbr_error_head_urbr env _ p he]
      exact hpf
    · exact h2

theorem broker_inv_remove_cancelled_urbr (env : Env) (hpool : pool_sound env) (s : State)
    (irp : Option Nat) (h : broker_inv env s) :
    broker_inv env (remove_cancelled_urbr env s irp) := by
  unfold remove_cancelled_urbr
  split
  · rename_i urbr e
    have hu : urbr ∈ s.vpdo.head_urbr := List.mem_of_find?_eq_some e
    have h1 := broker_inv_unlink_cancelled env s urbr h
    have hn := (unlink_cancelled_unlinked s urbr h.1).1.1
    have ha : (unlink_cancelled s urbr).allocated = s.allocated := by
      unfold unlink_cancelled
      dsimp only
      split_ifs <;> rfl
    refine broker_inv_free_urbr env _ urbr (broker_inv_submit_urbr_unlink env hpool _ _ h1) ?_
    intro hm
    rcases submit_urbr_unlink_head_urbr env hpool _ _ urbr hm with hk | hk
    · exact hn hk
    · rw [ha] at hk
      exact hk (h.1.all_allocated urbr hu)
  · exact h

theorem broker_inv_step (env : Env) (hpool : pool_sound env) (s : State) (op : Op)
    (h : broker_inv env s) (hok : op_ok s op) : broker_inv env (step env s op) := by
  cases op with
  | create irp u => exact broker_inv_create_urbr env hpool s irp u h
  | submit urbr => exact broker_inv_submit_urbr env s urbr h hok.1 hok.2.1
  | free urbr => exact broker_inv_free_urbr env s urbr h hok.2.1
  | find_pending => exact broker_inv_find_pending_urbr env s h
  | find_sent hdr => exact broker_inv_find_sent_urbr env s hdr h
  | cancel irp =>
    have h1 := broker_inv_remove_cancelled_urbr env hpool s (some irp) h
    exact ⟨lists_inv_cancel_urbr env hpool s irp h.1,
      seq_inv_of_seq_step env _ _ (Or.inl ⟨rfl, rfl⟩) h1.2.1,
      sent_seq_inv_same env _ _ h1.2.2 rfl rfl rfl rfl⟩
  | read_waits irp =>
    exact ⟨lists_inv_park s irp h.1, seq_inv_of_seq_step env s _ (Or.inl ⟨rfl, rfl⟩) h.2.1,
      sent_seq_inv_same env s _ h.2.2 rfl rfl rfl rfl⟩

theorem broker_inv_run (env : Env) (hpool : pool_sound env) (ops : List Op) :
    ∀ s : State, broker_inv env s → valid env s ops → broker_inv env (run env s ops) := by
  induction ops with
  | nil => intro s h _; exact h
  | cons op ops ih =>
    intro s h hv
    exact ih _ (broker_inv_step env hpool s op h hv.1) hv.2

/-- The pool of the worked instances never hands out a block that is handed out. -/
theorem pool_next_sound (l : List Nat) (p : Nat) (h : pool_next l = some p) : p ∉ l := by
  intro hm
  have hle := List.le_sum_of_mem hm
  simp only [pool_next, Option.some.injEq] at h
  omega

/-- When the sent requests carry different numbers, a header is matched at most once:
after `find_sent_urbr` has returned a request, the next call for the same header
returns `NULL`. -/
theorem find_sent_urbr_twice (s : State) (hdr : usbip_header) (urbr : Nat)
    (hn : s.vpdo.head_urbr_sent.Nodup)
    (hd : s.vpdo.head_urbr_sent.Pairwise (fun x y => (s.mem x).seq_num < (s.mem y).seq_num))
    (h1 : (find_sent_urbr s hdr).1 = some urbr) :
    (find_sent_urbr (find_sent_urbr s hdr).2 hdr).1 = none := by
  cases hfind : s.vpdo.head_urbr_sent.find?
      (fun urbr => (s.mem urbr).seq_num == hdr.base.seqnum) with
  | none =>
    unfold find_sent_urbr at h1
    rw [hfind] at h1
    exact absurd h1 (by simp)
  | some u =>
    have e : find_sent_urbr s hdr =
        (some u,
          { s with vpdo := { s.vpdo with
              head_urbr := s.vpdo.head_urbr.erase u
              head_urbr_sent := s.vpdo.head_urbr_sent.erase u } }) := by
      unfold find_sent_urbr
      rw [hfind]
    have hu : u ∈ s.vpdo.head_urbr_sent := List.mem_of_find?_eq_some hfind
    have hseq : (s.mem u).seq_num = hdr.base.seqnum := by
      simpa using List.find?_some hfind
    have hother : ∀ x ∈ s.vpdo.head_urbr_sent.erase u, (s.mem x).seq_num ≠ hdr.base.seqnum := by
      intro x hx
      obtain ⟨hne, hm⟩ := (List.Nodup.mem_erase_iff hn).1 hx
      rw [← hseq]
      have h2 : s.vpdo.head_urbr_sent.Pairwise
          (fun x y => (s.mem x).seq_num ≠ (s.mem y).seq_num) :=
        hd.imp (fun hab => Nat.ne_of_lt hab)
      exact List.Pairwise.forall (fun a b hab => Ne.symm hab) h2 hm hu hne
    rw [e]
    unfold find_sent_urbr
    have : (s.vpdo.head_urbr_sent.erase u).find?
        (fun urbr => (s.mem urbr).seq_num == hdr.base.seqnum) = none := by
      rw [List.find?_eq_none]
      intro x hx
      simpa using hother x hx
    simp only [this]

/-! ### Two sent requests with one number -/

/-- `submit_fetch_rounds` from any context in which nothing is pending and no read irp
waits: the rounds leave the sent list, the partial request and the pool alone, link the
requests 0, ..., k - 1 in `head_urbr`, assign `k` numbers and write only to the memory of
these requests. -/
theorem submit_fetch_rounds_from (env : Env) (t : State)
    (h1 : t.vpdo.head_urbr_pending = []) (h2 : t.vpdo.pending_read_irp = none) (k : Nat) :
    (run env t (submit_fetch_rounds k)).vpdo.head_urbr_pending = [] ∧
    (run env t (submit_fetch_rounds k)).vpdo.pending_read_irp = none ∧
    (run env t (submit_fetch_rounds k)).vpdo.head_urbr_sent = t.vpdo.head_urbr_sent ∧
    (run env t (submit_fetch_rounds k)).vpdo.head_urbr = t.vpdo.head_urbr ++ List.range k ∧
    (run env t (submit_fetch_rounds k)).vpdo.urbr_sent_partial = t.vpdo.urbr_sent_partial ∧
    (run env t (submit_fetch_rounds k)).allocated = t.allocated ∧
    (run env t (submit_fetch_rounds k)).seq_log.length = t.seq_log.length + k ∧
    (∀ p, k ≤ p → (run env t (submit_fetch_rounds k)).mem p = t.mem p) := by
  induction k with
  | zero => simp [submit_fetch_rounds, run, h1, h2]
  | succ k ih =>
    obtain ⟨i1, i2, i3, i4, i5, i6, i7, i8⟩ := ih
    simp only [submit_fetch_rounds, run_append]
    generalize run env t (submit_fetch_rounds k) = u at *
    simp only [run, List.foldl_cons, List.foldl_nil, step]
    rw [submit_urbr_of_queued env u k (Or.inr i2)]
    simp only [find_pending_urbr, i1, List.nil_append]
    refine ⟨trivial, i2, i3, ?_, i5, i6, ?_, ?_⟩
    · simp [i4, List.range_succ, List.append_assoc]
    · simp [i7, Nat.add_assoc]
    · intro p hp
      have hne : p ≠ k := by omega
      simp only [write, if_neg hne]
      exact i8 p (by omega)

/-- The rounds are calls a caller may make from such a context, when the requests
0, ..., k - 1 are blocks handed out by the pool that are in no list. -/
theorem submit_fetch_rounds_valid_from (env : Env) (t : State)
    (h1 : t.vpdo.head_urbr_pending = []) (h2 : t.vpdo.pending_read_irp = none) (k : Nat)
    (ha : ∀ j, j < k → j ∈ t.allocated)
    (hf : ∀ j, j < k → j ∉ t.vpdo.head_urbr ∧ j ∉ t.vpdo.head_urbr_sent) :
    valid env t (submit_fetch_rounds k) := by
  induction k with
  | zero => simp [submit_fetch_rounds, valid]
  | succ k ih =>
    obtain ⟨i1, i2, i3, i4, i5, i6, _, _⟩ := submit_fetch_rounds_from env t h1 h2 k
    simp only [submit_fetch_rounds, valid_append]
    refine ⟨ih (fun j hj => ha j (by omega)) (fun j hj => hf j (by omega)), ?_⟩
    generalize run env t (submit_fetch_rounds k) = u at *
    simp only [valid, op_ok, in_no_list, i1, i3, i4, i6, and_true]
    have := hf k (by omega)
    have := ha k (by omega)
    simp
    tauto

/-- With two requests sent that carry the same number, a header with that number is
matched twice. -/
theorem find_sent_urbr_same_number (s : State) (a b n : Nat)
    (hs : s.vpdo.head_urbr_sent = [a, b]) (ha : (s.mem a).seq_num = n)
    (hb : (s.mem b).seq_num = n) :
    (find_sent_urbr s { base := { seqnum := n } }).1 = some a ∧
    (find_sent_urbr (find_sent_urbr s { base := { seqnum := n } }).2
      { base := { seqnum := n } }).1 = some b := by
  have e : find_sent_urbr s { base := { seqnum := n } } =
      (some a,
        { s with vpdo := { s.vpdo with
            head_urbr := s.vpdo.head_urbr.erase a
            head_urbr_sent := [b] } }) := by
    unfold find_sent_urbr
    simp [hs, ha]
  rw [e]
  refine ⟨rfl, ?_⟩
  unfold find_sent_urbr
  simp [hb]

/-- A read irp comes to wait and a request is handed to it and stored whole. -/
theorem read_waits_submit_complete (env : Env)
    (hstore : ∀ st i u, env.store_urbr st i u = (STATUS_SUCCESS, 0)) (t : State) (x : Nat)
    (hp : t.vpdo.urbr_sent_partial = none) :
    (run env t [Op.read_waits 9, Op.submit x]).vpdo.head_urbr_pending =
      t.vpdo.head_urbr_pending ∧
    (run env t [Op.read_waits 9, Op.submit x]).vpdo.pending_read_irp = none ∧
    (run env t [Op.read_waits 9, Op.submit x]).vpdo.head_urbr_sent =
      t.vpdo.head_urbr_sent ++ [x] ∧
    (run env t [Op.read_waits 9, Op.submit x]).vpdo.head_urbr = t.vpdo.head_urbr ++ [x] ∧
    (run env t [Op.read_waits 9, Op.submit x]).vpdo.urbr_sent_partial = none ∧
    (run env t [Op.read_waits 9, Op.submit x]).allocated = t.allocated ∧
    (run env t [Op.read_waits 9, Op.submit x]).seq_log.length = t.seq_log.length + 1 ∧
    ((run env t [Op.read_waits 9, Op.submit x]).mem x).seq_num =
      pre_increment env.seq_bits t.vpdo.seq_num ∧
    (∀ p, p ≠ x → (run env t [Op.read_waits 9, Op.submit x]).mem p = t.mem p) := by
  have e := submit_urbr_of_complete env (park_read_irp t 9) x 9 hp rfl (hstore _ _ _)
  simp only [run, List.foldl_cons, List.foldl_nil, step]
  rw [e]
  refine ⟨rfl, rfl, rfl, rfl, rfl, rfl, ?_, ?_, ?_⟩
  · simp [handoff_state, park_read_irp]
  · simp [handoff_state, park_read_irp, write]
  · intro p hne
    simp [handoff_state, park_read_irp, write, hne]

/-- Once the counter has gone round, a header is matched twice: with `k` the counter's
last value, the calls `wrap_twice_ops k`, which a caller may make, leave the requests `k`
and `k + 1` sent with the same number; `find_sent_urbr` for that number returns `k`, and
called again it returns `k + 1`. -/
theorem wrap_twice_matched_twice (env : Env)
    (hstore : ∀ st i u, env.store_urbr st i u = (STATUS_SUCCESS, 0)) (k : Nat)
    (hk : k + 1 = 2 ^ env.seq_bits) :
    valid env (fresh_context mem_zero (List.range (k + 2))) (wrap_twice_ops k) ∧
    (find_sent_urbr (run env (fresh_context mem_zero (List.range (k + 2))) (wrap_twice_ops k))
      { base := { seqnum := 1 % 2 ^ env.seq_bits } }).1 = some k ∧
    (find_sent_urbr
      (find_sent_urbr (run env (fresh_context mem_zero (List.range (k + 2))) (wrap_twice_ops k))
        { base := { seqnum := 1 % 2 ^ env.seq_bits } }).2
      { base := { seqnum := 1 % 2 ^ env.seq_bits } }).1 = some (k + 1) := by
  -- the three phases
  obtain ⟨a1, a2, a3, a4, a5, a6, a7, a8, _⟩ :=
    read_waits_submit_complete env hstore (fresh_context mem_zero (List.range (k + 2))) k rfl
  have hvA : valid env (fresh_context mem_zero (List.range (k + 2)))
      [Op.read_waits 9, Op.submit k] := by
    simp [valid, op_ok, in_no_list, step, park_read_irp, fresh_context]
  have hinvA := seq_inv_run env [Op.read_waits 9, Op.submit k] _
    (seq_inv_fresh env mem_zero (List.range (k + 2)))
  generalize hs2 : run env (fresh_context mem_zero (List.range (k + 2)))
    [Op.read_waits 9, Op.submit k] = s2 at *
  obtain ⟨b1, b2, b3, b4, b5, b6, b7, b8⟩ := submit_fetch_rounds_from env s2 a1 a2 k
  have hvB : valid env s2 (submit_fetch_rounds k) := by
    apply submit_fetch_rounds_valid_from env s2 a1 a2 k
    · intro j hj
      rw [a6]
      exact List.mem_range.2 (by omega)
    · intro j hj
      rw [a4, a3]
      simp [fresh_context]
      omega
  have hinvB := seq_inv_run env (submit_fetch_rounds k) _ hinvA
  generalize hs3 : run env s2 (submit_fetch_rounds k) = s3 at *
  have hc3 : s3.vpdo.seq_num = 0 := by
    rw [hinvB.1, b7, a7]
    simp only [fresh_context, List.length_nil, Nat.zero_add]
    rw [Nat.add_comm, hk, Nat.mod_self]
  obtain ⟨c1, c2, c3, c4, c5, c6, c7, c8, c9⟩ :=
    read_waits_submit_complete env hstore s3 (k + 1) (by rw [b5, a5])
  have hvC : valid env s3 [Op.read_waits 9, Op.submit (k + 1)] := by
    simp only [valid, op_ok, in_no_list, step, park_read_irp, and_true, true_and]
    rw [b6, a6, b4, a4, b1, b3, a3]
    simp [fresh_context]
  generalize hs5 : run env s3 [Op.read_waits 9, Op.submit (k + 1)] = s5 at *
  -- the two sent requests and their numbers
  have hsent : s5.vpdo.head_urbr_sent = [k, k + 1] := by
    rw [c3, b3, a3]
    simp [fresh_context]
  have hnk : (s5.mem k).seq_num = 1 % 2 ^ env.seq_bits := by
    rw [c9 k (by omega), b8 k (le_refl _), a8]
    simp [pre_increment, fresh_context]
  have hnk1 : (s5.mem (k + 1)).seq_num = 1 % 2 ^ env.seq_bits := by
    rw [c8, hc3]
    simp [pre_increment]
  have hrun : run env (fresh_context mem_zero (List.range (k + 2))) (wrap_twice_ops k) = s5 := by
    rw [wrap_twice_ops, run_append, run_append, hs2, hs3, hs5]
  have hvalid : valid env (fresh_context mem_zero (List.range (k + 2))) (wrap_twice_ops k) := by
    rw [wrap_twice_ops, valid_append, valid_append, run_append, hs2, hs3]
    exact ⟨⟨hvA, hvB⟩, hvC⟩
  rw [hrun]
  exact ⟨hvalid, find_sent_urbr_same_number s5 k (k + 1) _ hsent hnk hnk1⟩

/-! ### `submit_urbr`, `store_urbr` fails -/

/-- `STATUS_INVALID_PARAMETER` is an error status. -/
theorem error_invalid_parameter : NT_ERROR STATUS_INVALID_PARAMETER = true := by decide

/-- C11. Direct hand-off, `store_urbr` fails: when a read irp waits, no request is partly
sent, the request is in no list and `store_urbr` returns a status other than
`STATUS_SUCCESS`, `submit_urbr` returns `STATUS_INVALID_PARAMETER`, an error status;
afterwards no request is partly sent, the request is in none of the three lists, the
lists are unchanged, and no call was made: neither the cancel routine was set nor the
irp marked pending (nor the read irp completed, which still waits). -/
theorem submit_urbr_store_fails (env : Env) (s : State) (urbr i : Nat)
    (hp : s.vpdo.urbr_sent_partial = none) (hr : s.vpdo.pending_read_irp = some i)
    (hf : in_no_list s.vpdo urbr)
    (hst : (env.store_urbr (handoff_state env s urbr) (some i) urbr).1 ≠ STATUS_SUCCESS) :
    (submit_urbr env s urbr).1 = STATUS_INVALID_PARAMETER ∧
    NT_ERROR (submit_urbr env s urbr).1 = true ∧
    (submit_urbr env s urbr).2.vpdo.urbr_sent_partial = none ∧
    in_no_list (submit_urbr env s urbr).2.vpdo urbr ∧
    (submit_urbr env s urbr).2.vpdo.head_urbr_pending = s.vpdo.head_urbr_pending ∧
    (submit_urbr env s urbr).2.vpdo.head_urbr_sent = s.vpdo.head_urbr_sent ∧
    (submit_urbr env s urbr).2.vpdo.head_urbr = s.vpdo.head_urbr ∧
    (submit_urbr env s urbr).2.events = s.events ∧
    (submit_urbr env s urbr).2.vpdo.pending_read_irp = some i := by
  rw [submit_urbr_of_fail env s urbr i hp hr hst]
  exact ⟨rfl, error_invalid_parameter, rfl, hf, rfl, rfl, rfl, rfl, hr⟩

/-- C11, worked instance: the read irp 9 waits, `store_urbr` fails for request 1. -/
theorem submit_urbr_store_fails_witness :
    waiting_context.vpdo.urbr_sent_partial = none ∧
    waiting_context.vpdo.pending_read_irp = some 9 ∧
    in_no_list waiting_context.vpdo 1 ∧
    (env_fail.store_urbr (handoff_state env_fail waiting_context 1) (some 9) 1).1 ≠
      STATUS_SUCCESS ∧
    (submit_urbr env_fail waiting_context 1).1 = STATUS_INVALID_PARAMETER ∧
    (submit_urbr env_fail waiting_context 1).2.vpdo.head_urbr = [] ∧
    (submit_urbr env_fail waiting_context 1).2.events = [] :=
  have h := submit_urbr_store_fails env_fail waiting_context 1 9 rfl rfl (by decide)
    (by decide)
  ⟨rfl, rfl, by decide, by decide, h.1, h.2.2.2.2.2.2.1, h.2.2.2.2.2.2.2.1⟩

/-! ### `find_pending_urbr` -/

/-- C12, as stated, fails: request 1, queued by `submit_urbr` on a fresh context, is
returned by `find_pending_urbr` and is still linked in `head_urbr` when the call
returns. -/
theorem find_pending_urbr_tracked_counterexample :
    queued_context.vpdo.head_urbr_pending ≠ [] ∧
    (find_pending_urbr env_complete queued_context).1 = some 1 ∧
    1 ∈ (find_pending_urbr env_complete queued_context).2.vpdo.head_urbr ∧
    ¬ (1 ∉ (find_pending_urbr env_complete queued_context).2.vpdo.head_urbr_pending ∧
       1 ∉ (find_pending_urbr env_complete queued_context).2.vpdo.head_urbr_sent ∧
       (find_pending_urbr env_complete queued_context).2.vpdo.urbr_sent_partial ≠ some 1 ∧
       1 ∉ (find_pending_urbr env_complete queued_context).2.vpdo.head_urbr) := by
  refine ⟨by decide, by decide, by decide, ?_⟩
  intro h
  exact h.2.2.2 (by decide)

/-- C12, as amended. In every context whose lists hang together as `lists_inv` says (as
they do in every reachable context) and whose pending list is not empty,
`find_pending_urbr` returns the head of the pending list; when the call returns, that
request is not pending, not sent and not the partly sent request, and it is still linked
in `head_urbr`, which the call leaves as it is, like the sent list and the partly sent
request. -/
theorem find_pending_urbr_unlinked (env : Env) (s : State) (hl : lists_inv s)
    (hne : s.vpdo.head_urbr_pending ≠ []) :
    ∃ urbr rest, s.vpdo.head_urbr_pending = urbr :: rest ∧
      (find_pending_urbr env s).1 = some urbr ∧
      (find_pending_urbr env s).2.vpdo.head_urbr_pending = rest ∧
      urbr ∉ (find_pending_urbr env s).2.vpdo.head_urbr_pending ∧
      urbr ∉ (find_pending_urbr env s).2.vpdo.head_urbr_sent ∧
      (find_pending_urbr env s).2.vpdo.urbr_sent_partial ≠ some urbr ∧
      urbr ∈ (find_pending_urbr env s).2.vpdo.head_urbr ∧
      (find_pending_urbr env s).2.vpdo.head_urbr = s.vpdo.head_urbr ∧
      (find_pending_urbr env s).2.vpdo.head_urbr_sent = s.vpdo.head_urbr_sent ∧
      (find_pending_urbr env s).2.vpdo.urbr_sent_partial = s.vpdo.urbr_sent_partial := by
  cases hpend : s.vpdo.head_urbr_pending with
  | nil => exact absurd hpend hne
  | cons urbr rest =>
    have hmem : urbr ∈ s.vpdo.head_urbr_pending := by rw [hpend]; exact List.mem_cons_self _ _
    have hnd := hl.nodup_pending
    rw [hpend] at hnd
    have e : find_pending_urbr env s =
        (some urbr,
          { s with
            vpdo := { s.vpdo with
              seq_num := pre_increment env.seq_bits s.vpdo.seq_num
              head_urbr_pending := rest }
            mem := write s.mem urbr
              { s.mem urbr with seq_num := pre_increment env.seq_bits s.vpdo.seq_num }
            seq_log := s.seq_log ++ [(urbr, pre_increment env.seq_bits s.vpdo.seq_num)] }) := by
      unfold find_pending_urbr
      rw [hpend]
    rw [e]
    refine ⟨urbr, rest, rfl, rfl, rfl, (List.nodup_cons.1 hnd).1, hl.disjoint urbr hmem, ?_,
      hl.pending_all urbr hmem, rfl, rfl, rfl⟩
    intro hpart
    exact (hl.partial_all urbr hpart).2.1 hmem

/-- The lists of `queued_context` hang together. -/
theorem lists_inv_queued_context : lists_inv queued_context := by
  constructor <;> decide

/-- C12, worked instance of the amended claim on `queued_context`. -/
theorem find_pending_urbr_unlinked_witness :
    lists_inv queued_context ∧ queued_context.vpdo.head_urbr_pending ≠ [] ∧
    ∃ urbr rest, queued_context.vpdo.head_urbr_pending = urbr :: rest ∧
      (find_pending_urbr env_complete queued_context).1 = some urbr ∧
      (find_pending_urbr env_complete queued_context).2.vpdo.head_urbr_pending = rest :=
  ⟨lists_inv_queued_context, by decide,
    (find_pending_urbr_unlinked env_complete queued_context lists_inv_queued_context
      (by decide)).elim fun urbr h1 => h1.elim fun rest h2 => ⟨urbr, rest, h2.1, h2.2.1, h2.2.2.1⟩⟩

/-! ### The cancel path -/

/-- C15. Cancel of an irp that no linked request carries: when no request of `head_urbr`
has the irp, `remove_cancelled_urbr` returns the state it was given: the three lists, the
partly sent request and its length, the waiting read irp and the counter are unchanged,
no request is created or freed (the pool and the memory are unchanged) and no call is
made; running it again changes nothing either. -/
theorem remove_cancelled_urbr_not_found (env : Env) (s : State) (irp : Option Nat)
    (h : ∀ urbr ∈ s.vpdo.head_urbr, (s.mem urbr).irp ≠ irp) :
    remove_cancelled_urbr env s irp = s ∧
    remove_cancelled_urbr env (remove_cancelled_urbr env s irp) irp =
      remove_cancelled_urbr env s irp := by
  have hfind : find_urbr_with_irp s irp = none := by
    unfold find_urbr_with_irp
    rw [List.find?_eq_none]
    intro x hx
    simpa using h x hx
  have e : remove_cancelled_urbr env s irp = s := by
    unfold remove_cancelled_urbr
    rw [hfind]
  rw [e]
  exact ⟨rfl, e⟩

/-- C15, worked instance: in `sent_context` no request belongs to irp 7. -/
theorem remove_cancelled_urbr_not_found_witness :
    (∀ urbr ∈ sent_context.vpdo.head_urbr, (sent_context.mem urbr).irp ≠ some 7) ∧
    remove_cancelled_urbr env_complete sent_context (some 7) = sent_context :=
  ⟨by decide,
    (remove_cancelled_urbr_not_found env_complete sent_context (some 7) (by decide)).1⟩

/-! ### Invariants of the reachable contexts -/

/-- After `remove_cancelled_urbr` the request it found is in no list. -/
theorem remove_cancelled_urbr_unlinked (env : Env) (hpool : pool_sound env) (s : State)
    (irp : Option Nat) (urbr : Nat) (hl : lists_inv s)
    (hfind : find_urbr_with_irp s irp = some urbr) :
    in_no_list (remove_cancelled_urbr env s irp).vpdo urbr := by
  have hl2 := lists_inv_remove_cancelled_urbr env hpool s irp hl
  have hu : urbr ∈ s.vpdo.head_urbr := List.mem_of_find?_eq_some hfind
  have hn := (unlink_cancelled_unlinked s urbr hl).1.1
  have ha : (unlink_cancelled s urbr).allocated = s.allocated := by
    unfold unlink_cancelled
    dsimp only
    split_ifs <;> rfl
  have key : urbr ∉ (remove_cancelled_urbr env s irp).vpdo.head_urbr := by
    unfold remove_cancelled_urbr
    rw [hfind]
    intro hm
    rcases submit_urbr_unlink_head_urbr env hpool _ _ urbr hm with hk | hk
    · exact hn hk
    · rw [ha] at hk
      exact hk (hl.all_allocated urbr hu)
  exact ⟨key, fun hm => key (hl2.pending_all _ hm), fun hm => key (hl2.sent_all _ hm)⟩

/-! ### `remove_cancelled_urbr`, request found -/

/-- What `unlink_cancelled` changes and what it leaves. -/
theorem unlink_cancelled_fields (s : State) (urbr : Nat) :
    (unlink_cancelled s urbr).vpdo.head_urbr_pending = s.vpdo.head_urbr_pending.erase urbr ∧
    (unlink_cancelled s urbr).vpdo.head_urbr_sent = s.vpdo.head_urbr_sent.erase urbr ∧
    (unlink_cancelled s urbr).vpdo.head_urbr = s.vpdo.head_urbr.erase urbr ∧
    (unlink_cancelled s urbr).vpdo.pending_read_irp = s.vpdo.pending_read_irp ∧
    (unlink_cancelled s urbr).mem = s.mem ∧
    (unlink_cancelled s urbr).allocated = s.allocated ∧
    (unlink_cancelled s urbr).events = s.events ∧
    (s.vpdo.urbr_sent_partial = some urbr →
      (unlink_cancelled s urbr).vpdo.urbr_sent_partial = none ∧
      (unlink_cancelled s urbr).vpdo.len_sent_partial = 0) ∧
    (s.vpdo.urbr_sent_partial ≠ some urbr →
      (unlink_cancelled s urbr).vpdo.urbr_sent_partial = s.vpdo.urbr_sent_partial ∧
      (unlink_cancelled s urbr).vpdo.len_sent_partial = s.vpdo.len_sent_partial) := by
  unfold unlink_cancelled
  dsimp only
  split_ifs with hc
  · exact ⟨rfl, rfl, rfl, rfl, rfl, rfl, rfl, fun _ => ⟨rfl, rfl⟩, fun h => absurd hc h⟩
  · exact ⟨rfl, rfl, rfl, rfl, rfl, rfl, rfl, fun h => absurd h hc, fun _ => ⟨rfl, rfl⟩⟩

/-- The result of `submit_urbr_unlink` when the pool hands out block `p` and the unlink
request is queued. -/
theorem submit_urbr_unlink_of_queued (env : Env) (s : State) (u p : Nat)
    (ha : env.ExAllocateFromNPagedLookasideList s.allocated = some p)
    (hq : s.vpdo.urbr_sent_partial ≠ none ∨ s.vpdo.pending_read_irp = none) :
    submit_urbr_unlink env s u =
      { s with
        vpdo := { s.vpdo with
          head_urbr_pending := s.vpdo.head_urbr_pending ++ [p]
          head_urbr := s.vpdo.head_urbr ++ [p] }
        allocated := s.allocated ++ [p]
        mem := write s.mem p { irp := none, seq_num := 0, seq_num_unlink := u } } := by
  have e : create_urbr env s none u =
      (some p,
        { s with
          allocated := s.allocated ++ [p]
          mem := write s.mem p { irp := none, seq_num := 0, seq_num_unlink := u } }) := by
    unfold create_urbr
    rw [ha]
  unfold submit_urbr_unlink
  rw [e]
  dsimp only
  rw [submit_urbr_of_queued env
    { s with
      allocated := s.allocated ++ [p]
      mem := write s.mem p { irp := none, seq_num := 0, seq_num_unlink := u } } p hq]
  rw [if_neg not_error_pending]
  simp [write, set_cancel_and_mark]

/-- The result of `remove_cancelled_urbr` when the irp has a request. -/
theorem remove_cancelled_urbr_of_found (env : Env) (s : State) (irp : Option Nat) (urbr : Nat)
    (hfind : find_urbr_with_irp s irp = some urbr) :
    remove_cancelled_urbr env s irp =
      free_urbr (submit_urbr_unlink env (unlink_cancelled s urbr) (s.mem urbr).seq_num) urbr := by
  unfold remove_cancelled_urbr
  rw [hfind]
  dsimp only
  rw [(unlink_cancelled_fields s urbr).2.2.2.2.1]

/-! ### The unlink request -/

/-- The request `create_urbr` makes during the cancel of `urbr`, when the pool hands out
block `p`. -/
theorem create_urbr_unlink_request (env : Env) (s : State) (urbr p : Nat)
    (ha : env.ExAllocateFromNPagedLookasideList s.allocated = some p) :
    create_urbr env (unlink_cancelled s urbr) none (s.mem urbr).seq_num =
      (some p, unlink_request_state s urbr p) := by
  obtain ⟨_, _, _, _, f5, f6, _, _, _⟩ := unlink_cancelled_fields s urbr
  unfold create_urbr
  rw [f6, ha]
  simp only [unlink_request_state, f5, f6]

/-- C14. Cancel makes the unlink request: when the irp has a request `urbr` in `head_urbr`
and the pool hands out a block `p`, `create_urbr` makes at `p` one new request with
`seq_num_unlink` equal to the `seq_num` that `urbr` has at the cancel, without irp and
with `seq_num` 0, and this request is passed to `submit_urbr` (and freed again when that
returns an error status) before `urbr` is freed.  When no read irp waits, the new request
ends at the tail of the pending list and of `head_urbr`, unchanged, and the pool has
handed out `p` more and `urbr` less.  The irp is completed with `STATUS_CANCELLED`, the
last call but the release of the cancel spin lock. -/
theorem cancel_urbr_unlink (env : Env) (s : State) (irp urbr p : Nat)
    (hfind : find_urbr_with_irp s (some irp) = some urbr)
    (ha : env.ExAllocateFromNPagedLookasideList s.allocated = some p) :
    create_urbr env (unlink_cancelled s urbr) none (s.mem urbr).seq_num =
      (some p, unlink_request_state s urbr p) ∧
    (unlink_request_state s urbr p).mem p =
      { irp := none, seq_num := 0, seq_num_unlink := (s.mem urbr).seq_num } ∧
    (unlink_request_state s urbr p).allocated = s.allocated ++ [p] ∧
    remove_cancelled_urbr env s (some irp) =
      free_urbr
        (if NT_ERROR (submit_urbr env (unlink_request_state s urbr p) p).1 = true then
          free_urbr (submit_urbr env (unlink_request_state s urbr p) p).2 p
        else (submit_urbr env (unlink_request_state s urbr p) p).2)
        urbr ∧
    (s.vpdo.pending_read_irp = none →
      (cancel_urbr env s irp).vpdo.head_urbr_pending =
        s.vpdo.head_urbr_pending.erase urbr ++ [p] ∧
      (cancel_urbr env s irp).vpdo.head_urbr = s.vpdo.head_urbr.erase urbr ++ [p] ∧
      (cancel_urbr env s irp).vpdo.head_urbr_sent = s.vpdo.head_urbr_sent.erase urbr ∧
      (cancel_urbr env s irp).mem p =
        { irp := none, seq_num := 0, seq_num_unlink := (s.mem urbr).seq_num } ∧
      (cancel_urbr env s irp).allocated = (s.allocated ++ [p]).erase urbr) ∧
    (cancel_urbr env s irp).events =
      (remove_cancelled_urbr env s (some irp)).events ++
        [Event.IoCompleteRequest irp STATUS_CANCELLED, Event.IoReleaseCancelSpinLock irp] := by
  obtain ⟨f1, f2, f3, f4, f5, f6, _, _, _⟩ := unlink_cancelled_fields s urbr
  have hc := create_urbr_unlink_request env s urbr p ha
  have hr : remove_cancelled_urbr env s (some irp) =
      free_urbr
        (if NT_ERROR (submit_urbr env (unlink_request_state s urbr p) p).1 = true then
          free_urbr (submit_urbr env (unlink_request_state s urbr p) p).2 p
        else (submit_urbr env (unlink_request_state s urbr p) p).2)
        urbr := by
    rw [remove_cancelled_urbr_of_found env s (some irp) urbr hfind]
    unfold submit_urbr_unlink
    rw [hc]
  refine ⟨hc, by simp [unlink_request_state, write], rfl, hr, ?_, rfl⟩
  intro hread
  have hq : (unlink_cancelled s urbr).vpdo.urbr_sent_partial ≠ none ∨
      (unlink_cancelled s urbr).vpdo.pending_read_irp = none :=
    Or.inr (by rw [f4]; exact hread)
  have e : remove_cancelled_urbr env s (some irp) =
      free_urbr (submit_urbr_unlink env (unlink_cancelled s urbr) (s.mem urbr).seq_num) urbr :=
    remove_cancelled_urbr_of_found env s (some irp) urbr hfind
  rw [submit_urbr_unlink_of_queued env (unlink_cancelled s urbr) _ p (by rw [f6]; exact ha) hq]
    at e
  unfold cancel_urbr
  rw [e]
  refine ⟨?_, ?_, ?_, ?_, ?_⟩
  · show (unlink_cancelled s urbr).vpdo.head_urbr_pending ++ [p] = _
    rw [f1]
  · show (unlink_cancelled s urbr).vpdo.head_urbr ++ [p] = _
    rw [f3]
  · show (unlink_cancelled s urbr).vpdo.head_urbr_sent = _
    rw [f2]
  · show write (unlink_cancelled s urbr).mem p _ p = _
    simp [write]
  · show ((unlink_cancelled s urbr).allocated ++ [p]).erase urbr = _
    rw [f6]

/-- C14, worked instance (Scenario D): request 1 of irp 7 is pending and was never
fetched, its `seq_num` is 0; the cancel of irp 7 makes the unlink request at block 2 with
`seq_num_unlink` 0 and queues it; the pending list and `head_urbr` are `[2]`, and irp 7
is completed with `STATUS_CANCELLED`. -/
theorem cancel_urbr_unlink_witness :
    find_urbr_with_irp scenario_D_context (some 7) = some 1 ∧
    env_complete.ExAllocateFromNPagedLookasideList scenario_D_context.allocated = some 2 ∧
    scenario_D_context.vpdo.head_urbr_pending = [1] ∧
    (scenario_D_context.mem 1).seq_num = 0 ∧
    (cancel_urbr env_complete scenario_D_context 7).vpdo.head_urbr_pending = [2] ∧
    (cancel_urbr env_complete scenario_D_context 7).vpdo.head_urbr = [2] ∧
    (cancel_urbr env_complete scenario_D_context 7).mem 2 =
      { irp := none, seq_num := 0, seq_num_unlink := 0 } ∧
    (cancel_urbr env_complete scenario_D_context 7).events =
      [Event.IoSetCancelRoutine 7, Event.IoMarkIrpPending 7,
        Event.ExFreeToNPagedLookasideList 1,
        Event.IoCompleteRequest 7 STATUS_CANCELLED, Event.IoReleaseCancelSpinLock 7] :=
  have h := cancel_urbr_unlink env_complete scenario_D_context 7 1 2 (by decide) (by decide)
  ⟨by decide, by decide, by decide, by decide, by decide, by decide,
    (h.2.2.2.2.1 (by decide)).2.2.2.1.trans (by decide), by decide⟩

/-! ### The releases to the pool -/

/-- Without a cancelled read irp, `submit_urbr_unlocked` is `submit_urbr`. -/
theorem submit_urbr_unlocked_false (env : Env) (s : State) (urbr : Nat) :
    submit_urbr_unlocked env s urbr false = submit_urbr env s urbr := by
  unfold submit_urbr_unlocked submit_urbr
  simp

/-- When no thread interferes, an error status of `submit_urbr` means that the request
was not linked: a request in no list is still in no list. -/
theorem submit_urbr_error_unlinked (env : Env) (s : State) (urbr : Nat)
    (he : NT_ERROR (submit_urbr env s urbr).1 = true) (hf : in_no_list s.vpdo urbr) :
    in_no_list (submit_urbr env s urbr).2.vpdo urbr := by
  rcases submit_urbr_cases env s urbr with hq | ⟨i, hp, hr, hc | ⟨n, hn, hc⟩ | hc⟩
  · rw [submit_urbr_of_queued env s urbr hq] at he
    exact absurd he not_error_pending
  · rw [submit_urbr_of_complete env s urbr i hp hr hc] at he
    exact absurd he not_error_pending
  · rw [submit_urbr_of_part env s urbr i n hp hr hc hn] at he
    exact absurd he not_error_pending
  · rw [submit_urbr_of_fail env s urbr i hp hr hc]
    exact hf

/-- `submit_urbr` makes no failing `ASSERT`. -/
theorem submit_urbr_no_assert (env : Env) (s : State) (urbr : Nat)
    (h : Event.ASSERT_failed ∉ s.events) :
    Event.ASSERT_failed ∉ (submit_urbr env s urbr).2.events := by
  have hm : Event.ASSERT_failed ∉ set_cancel_and_mark (s.mem urbr).irp := by
    cases (s.mem urbr).irp <;> simp [set_cancel_and_mark]
  rcases submit_urbr_cases env s urbr with hq | ⟨i, hp, hr, hc | ⟨n, hn, hc⟩ | hc⟩
  · rw [submit_urbr_of_queued env s urbr hq]
    simp [h, hm]
  · rw [submit_urbr_of_complete env s urbr i hp hr hc]
    simp [h, hm]
  · rw [submit_urbr_of_part env s urbr i n hp hr hc hn]
    simp [h, hm]
  · rw [submit_urbr_of_fail env s urbr i hp hr hc]
    exact h

/-- `free_urbr` of a request that is in no list makes no failing `ASSERT`. -/
theorem free_urbr_no_assert (s : State) (urbr : Nat) (hf : in_no_list s.vpdo urbr)
    (h : Event.ASSERT_failed ∉ s.events) :
    Event.ASSERT_failed ∉ (free_urbr s urbr).events := by
  obtain ⟨h1, h2, h3⟩ := hf
  simp [free_urbr, h, h1, h2, h3]

/-- When no thread interferes, both releases of the cancel path are releases of a
request that is in no list: in a context whose lists hang together, with a pool that
hands out no block twice, `remove_cancelled_urbr` makes no failing `ASSERT`. -/
theorem remove_cancelled_urbr_no_assert (env : Env) (hpool : pool_sound env) (s : State)
    (irp : Option Nat) (hl : lists_inv s) (h : Event.ASSERT_failed ∉ s.events) :
    Event.ASSERT_failed ∉ (remove_cancelled_urbr env s irp).events := by
  cases hfind : find_urbr_with_irp s irp with
  | none =>
    unfold remove_cancelled_urbr
    rw [hfind]
    exact h
  | some urbr =>
    have hun := remove_cancelled_urbr_unlinked env hpool s irp urbr hl hfind
    rw [remove_cancelled_urbr_of_found env s irp urbr hfind] at hun ⊢
    refine free_urbr_no_assert _ urbr hun ?_
    have hl1 := lists_inv_unlink_cancelled s urbr hl
    have hev : Event.ASSERT_failed ∉ (unlink_cancelled s urbr).events := by
      rw [(unlink_cancelled_fields s urbr).2.2.2.2.2.2.1]
      exact h
    generalize unlink_cancelled s urbr = t at hl1 hev
    unfold submit_urbr_unlink
    rcases create_urbr_cases env t none (s.mem urbr).seq_num with e | ⟨p, ha, e⟩
    · rw [e]
      exact hev
    · have hi := lists_inv_create_urbr env t none (s.mem urbr).seq_num hl1
      rw [e] at hi ⊢
      have hpa : p ∉ t.allocated := hpool _ _ ha
      have hpf : p ∉ t.vpdo.head_urbr := fun hm => hpa (hl1.all_allocated p hm)
      have hin : in_no_list t.vpdo p :=
        ⟨hpf, fun hm => hpf (hl1.pending_all p hm), fun hm => hpf (hl1.sent_all p hm)⟩
      have hs := submit_urbr_no_assert env
        { t with
          allocated := t.allocated ++ [p]
          mem := write t.mem p
            { irp := none, seq_num := 0, seq_num_unlink := (s.mem urbr).seq_num } } p hev
      dsimp only
      split_ifs with he
      · exact free_urbr_no_assert _ p (submit_urbr_error_unlinked env _ p he hin) hs
      · exact hs

/-- C16, the failing path. In `sent_reader_context` the read irp 9 waits and irp 103 is
cancelled: its request 1 is unlinked and the unlink request is made at block 2.  While
`store_urbr` stores it, the lock released, the read irp is cancelled.  `submit_urbr` then
links block 2 into `head_urbr_sent` and `head_urbr` and returns
`STATUS_INVALID_PARAMETER`, an error status, with the request in two lists; the
`free_urbr` that `submit_urbr_unlink` calls on an error status fails both `ASSERT`s. -/
theorem submit_urbr_error_linked :
    find_urbr_with_irp sent_reader_context (some 103) = some 1 ∧
    create_urbr env_complete (unlink_cancelled sent_reader_context 1) none
        (sent_reader_context.mem 1).seq_num =
      (some 2, unlink_request_state sent_reader_context 1 2) ∧
    in_no_list (unlink_request_state sent_reader_context 1 2).vpdo 2 ∧
    (submit_urbr_unlocked env_complete (unlink_request_state sent_reader_context 1 2) 2
      true).1 = STATUS_INVALID_PARAMETER ∧
    NT_ERROR (submit_urbr_unlocked env_complete (unlink_request_state sent_reader_context 1 2)
      2 true).1 = true ∧
    2 ∈ (submit_urbr_unlocked env_complete (unlink_request_state sent_reader_context 1 2) 2
      true).2.vpdo.head_urbr ∧
    2 ∈ (submit_urbr_unlocked env_complete (unlink_request_state sent_reader_context 1 2) 2
      true).2.vpdo.head_urbr_sent ∧
    (free_urbr (submit_urbr_unlocked env_complete
      (unlink_request_state sent_reader_context 1 2) 2 true).2 2).events.count
        Event.ASSERT_failed = 2 := by
  refine ⟨by decide, ?_, by decide, by decide, by decide, by decide, by decide, by decide⟩
  exact create_urbr_unlink_request env_complete sent_reader_context 1 2 (by decide)

/-! ### `is_port_urbr` and `build_setup_packet` -/

/-- C18. `is_port_urbr` returns `FALSE` for a request without irp, for an irp without
`URB`, and for a `URB` whose function is neither the bulk or interrupt transfer nor the
isochronous transfer; for these two functions it returns `TRUE` exactly when `PIPE2ADDR`
of the pipe handle of that transfer is the given endpoint address. -/
theorem is_port_urbr_spec (PIPE2ADDR : Nat → Nat) (Argument1 : Nat → Option URB)
    (urbr : urb_req) (epaddr : Nat) :
    (urbr.irp = none → is_port_urbr PIPE2ADDR Argument1 urbr epaddr = false) ∧
    (∀ irp, urbr.irp = some irp → Argument1 irp = none →
      is_port_urbr PIPE2ADDR Argument1 urbr epaddr = false) ∧
    (∀ irp urb, urbr.irp = some irp → Argument1 irp = some urb →
      urb.UrbHeader.Function ≠ URB_FUNCTION_BULK_OR_INTERRUPT_TRANSFER →
      urb.UrbHeader.Function ≠ URB_FUNCTION_ISOCH_TRANSFER →
      is_port_urbr PIPE2ADDR Argument1 urbr epaddr = false) ∧
    (∀ irp urb, urbr.irp = some irp → Argument1 irp = some urb →
      urb.UrbHeader.Function = URB_FUNCTION_BULK_OR_INTERRUPT_TRANSFER →
      (is_port_urbr PIPE2ADDR Argument1 urbr epaddr = true ↔
        PIPE2ADDR urb.UrbBulkOrInterruptTransfer.PipeHandle = epaddr)) ∧
    (∀ irp urb, urbr.irp = some irp → Argument1 irp = some urb →
      urb.UrbHeader.Function = URB_FUNCTION_ISOCH_TRANSFER →
      (is_port_urbr PIPE2ADDR Argument1 urbr epaddr = true ↔
        PIPE2ADDR urb.UrbIsochronousTransfer.PipeHandle = epaddr)) := by
  refine ⟨?_, ?_, ?_, ?_, ?_⟩
  · intro h
    simp [is_port_urbr, h]
  · intro irp h1 h2
    simp [is_port_urbr, h1, h2]
  · intro irp urb h1 h2 h3 h4
    simp [is_port_urbr, h1, h2, h3, h4]
  · intro irp urb h1 h2 h3
    simp [is_port_urbr, h1, h2, h3]
  · intro irp urb h1 h2 h3
    simp [is_port_urbr, h1, h2, h3]

/-- C20. `build_setup_packet`: whatever the packet held before, afterwards the field
`Type` is `type` and the field `Recipient` is `recip`, each cut to the width of the
field; `Dir` is `BMREQUEST_DEVICE_TO_HOST` when `direct_in` is not 0 and
`BMREQUEST_HOST_TO_DEVICE` when it is 0; the other bits of the byte are 0; `bRequest` is
`request`; `wValue`, `wIndex` and `wLength` are unchanged; and the byte does not depend
on the packet given. -/
theorem build_setup_packet_spec (recipient_bits type_bits : Nat) (csp : usb_cspkt_t)
    (direct_in type recip request : Nat) :
    (build_setup_packet recipient_bits type_bits csp direct_in type recip
      request).bmRequestType.Type_ = type % 2 ^ type_bits ∧
    (build_setup_packet recipient_bits type_bits csp direct_in type recip
      request).bmRequestType.Recipient = recip % 2 ^ recipient_bits ∧
    (direct_in ≠ 0 →
      (build_setup_packet recipient_bits type_bits csp direct_in type recip
        request).bmRequestType.Dir = BMREQUEST_DEVICE_TO_HOST) ∧
    (direct_in = 0 →
      (build_setup_packet recipient_bits type_bits csp direct_in type recip
        request).bmRequestType.Dir = BMREQUEST_HOST_TO_DEVICE) ∧
    (build_setup_packet recipient_bits type_bits csp direct_in type recip
      request).bmRequestType.Reserved = 0 ∧
    (build_setup_packet recipient_bits type_bits csp direct_in type recip
      request).bRequest = request ∧
    (build_setup_packet recipient_bits type_bits csp direct_in type recip
      request).wValue = csp.wValue ∧
    (build_setup_packet recipient_bits type_bits csp direct_in type recip
      request).wIndex = csp.wIndex ∧
    (build_setup_packet recipient_bits type_bits csp direct_in type recip
      request).wLength = csp.wLength ∧
    (∀ csp2 : usb_cspkt_t,
      (build_setup_packet recipient_bits type_bits csp2 direct_in type recip
        request).bmRequestType =
      (build_setup_packet recipient_bits type_bits csp direct_in type recip
        request).bmRequestType) := by
  unfold build_setup_packet
  by_cases h : direct_in = 0
  · simp [h]
  · simp [h]

/-! ### Calls during which the read irp may be cancelled -/

theorem submit_urbr_unlink_unlocked_false (env : Env) (s : State) (u : Nat) :
    submit_urbr_unlink_unlocked env s u false = submit_urbr_unlink env s u := by
  unfold submit_urbr_unlink_unlocked submit_urbr_unlink
  simp only [submit_urbr_unlocked_false]

theorem remove_cancelled_urbr_unlocked_false (env : Env) (s : State) (irp : Option Nat) :
    remove_cancelled_urbr_unlocked env s irp false = remove_cancelled_urbr env s irp := by
  unfold remove_cancelled_urbr_unlocked remove_cancelled_urbr
  simp only [submit_urbr_unlink_unlocked_false]

theorem cancel_urbr_unlocked_false (env : Env) (s : State) (irp : Nat) :
    cancel_urbr_unlocked env s irp false = cancel_urbr env s irp := by
  unfold cancel_urbr_unlocked cancel_urbr
  simp only [remove_cancelled_urbr_unlocked_false]

theorem step_unlocked_false (env : Env) (s : State) (op : Op) :
    step_unlocked env s op false = step env s op := by
  cases op <;>
    simp only [step_unlocked, step, submit_urbr_unlocked_false, cancel_urbr_unlocked_false]

/-- A sequence of calls in none of which the read irp is cancelled runs as the calls
alone do. -/
theorem run_unlocked_of_no_read_cancel (env : Env) (calls : List (Op × Bool)) :
    ∀ s : State, no_read_cancel calls →
      run_unlocked env s calls = run env s (calls.map Prod.fst) ∧
      (valid_unlocked env s calls ↔ valid env s (calls.map Prod.fst)) := by
  induction calls with
  | nil => intro s _; simp [run_unlocked, run, valid_unlocked, valid]
  | cons c cs ih =>
    intro s h
    have hc : c.2 = false := h c (List.mem_cons_self _ _)
    have hcs : no_read_cancel cs := fun x hx => h x (List.mem_cons_of_mem _ hx)
    obtain ⟨i1, i2⟩ := ih (step env s c.1) hcs
    simp only [run_unlocked, run, List.foldl_cons, List.map_cons, valid_unlocked, valid, hc,
      step_unlocked_false] at i1 i2 ⊢
    exact ⟨i1, by rw [i2]⟩

/-- Calls in none of which the read irp is cancelled. -/
theorem no_read_cancel_map (ops : List Op) : no_read_cancel (ops.map (fun op => (op, false))) := by
  intro c hc
  obtain ⟨op, _, rfl⟩ := List.mem_map.1 hc
  rfl

theorem map_fst_map (ops : List Op) : (ops.map (fun op => (op, false))).map Prod.fst = ops := by
  simp [List.map_map, Function.comp_def]

/-- The result of `submit_urbr_unlocked` on its first branch, where the lock is held
throughout. -/
theorem submit_urbr_unlocked_of_queued (env : Env) (s : State) (urbr : Nat) (rc : Bool)
    (h : s.vpdo.urbr_sent_partial ≠ none ∨ s.vpdo.pending_read_irp = none) :
    submit_urbr_unlocked env s urbr rc =
      (STATUS_PENDING,
        { s with
          vpdo := { s.vpdo with
            head_urbr_pending := s.vpdo.head_urbr_pending ++ [urbr]
            head_urbr := s.vpdo.head_urbr ++ [urbr] }
          events := s.events ++ set_cancel_and_mark (s.mem urbr).irp }) := by
  unfold submit_urbr_unlocked
  rw [if_pos h]

/-- The result of `submit_urbr_unlocked` when a read irp waits, no request is partly sent
and `store_urbr` returns `STATUS_SUCCESS` leaving `n` in `len_sent_partial`: the request
is linked in either case; the status and the completion of the read irp depend on
whether the read irp was cancelled meanwhile. -/
theorem submit_urbr_unlocked_of_success (env : Env) (s : State) (urbr i n : Nat) (rc : Bool)
    (hp : s.vpdo.urbr_sent_partial = none) (hr : s.vpdo.pending_read_irp = some i)
    (hst : env.store_urbr (handoff_state env s urbr) (some i) urbr = (STATUS_SUCCESS, n)) :
    submit_urbr_unlocked env s urbr rc =
      (if rc then STATUS_INVALID_PARAMETER else STATUS_PENDING,
        { handoff_state env s urbr with
          vpdo := { s.vpdo with
            seq_num := pre_increment env.seq_bits s.vpdo.seq_num
            len_sent_partial := n
            urbr_sent_partial := if n = 0 then none else some urbr
            head_urbr_sent :=
              if n = 0 then s.vpdo.head_urbr_sent ++ [urbr] else s.vpdo.head_urbr_sent
            head_urbr := s.vpdo.head_urbr ++ [urbr]
            pending_read_irp := none }
          events := s.events ++ set_cancel_and_mark (s.mem urbr).irp ++
            (if rc then [] else [Event.IoCompleteRequest i STATUS_SUCCESS]) }) := by
  unfold submit_urbr_unlocked
  rw [if_neg (by simp [hp, hr])]
  simp only [hr, hst, if_true]
  cases rc <;> by_cases hn : n = 0 <;> simp [handoff_state, write, hr, hn]

/-- The result of `submit_urbr_unlocked` when a read irp waits, no request is partly sent
and `store_urbr` fails. -/
theorem submit_urbr_unlocked_of_fail (env : Env) (s : State) (urbr i : Nat) (rc : Bool)
    (hp : s.vpdo.urbr_sent_partial = none) (hr : s.vpdo.pending_read_irp = some i)
    (hst : (env.store_urbr (handoff_state env s urbr) (some i) urbr).1 ≠ STATUS_SUCCESS) :
    submit_urbr_unlocked env s urbr rc =
      (STATUS_INVALID_PARAMETER,
        { handoff_state env s urbr with
          vpdo := { s.vpdo with
            seq_num := pre_increment env.seq_bits s.vpdo.seq_num
            len_sent_partial := (env.store_urbr (handoff_state env s urbr) (some i) urbr).2
            urbr_sent_partial := none
            pending_read_irp := if rc then none else some i } }) := by
  unfold submit_urbr_unlocked
  rw [if_neg (by simp [hp, hr])]
  simp only [hr, if_neg hst]
  cases rc <;> simp [handoff_state, hr]

/-! ### `submit_urbr`, direct hand-off, with the read irp cancelled or not -/

/-- C7, as amended. Direct hand-off, whole request stored: when a read irp waits, no
request is partly sent, the request is in no list and `store_urbr` returns
`STATUS_SUCCESS` leaving 0 in `len_sent_partial`, the request's `seq_num` and the counter
are the old counter plus one modulo `2 ^ seq_bits` (0 after the counter's last value), no
request is partly sent, no read irp waits any more and the pending list is unchanged.
When the read irp was not cancelled while the lock was released (`rc = false`:
`pending_read_irp` is not `NULL` when the lock is taken again), `submit_urbr` returns
`STATUS_PENDING`, the request is at the tail of `head_urbr_sent` and of `head_urbr`, once
in each, and the read irp was completed with `STATUS_SUCCESS` (after the cancel routine
was set and the irp marked pending when the request has an irp).  When the read irp was
cancelled meanwhile (`rc = true`), `submit_urbr` returns `STATUS_INVALID_PARAMETER` and
completes no irp. -/
theorem submit_urbr_unlocked_complete (env : Env) (s : State) (urbr i : Nat) (rc : Bool)
    (hp : s.vpdo.urbr_sent_partial = none) (hr : s.vpdo.pending_read_irp = some i)
    (hf : in_no_list s.vpdo urbr)
    (hst : env.store_urbr (handoff_state env s urbr) (some i) urbr = (STATUS_SUCCESS, 0)) :
    ((submit_urbr_unlocked env s urbr rc).2.mem urbr).seq_num =
      (s.vpdo.seq_num + 1) % 2 ^ env.seq_bits ∧
    (submit_urbr_unlocked env s urbr rc).2.vpdo.seq_num =
      (s.vpdo.seq_num + 1) % 2 ^ env.seq_bits ∧
    (submit_urbr_unlocked env s urbr rc).2.vpdo.urbr_sent_partial = none ∧
    (submit_urbr_unlocked env s urbr rc).2.vpdo.pending_read_irp = none ∧
    (submit_urbr_unlocked env s urbr rc).2.vpdo.head_urbr_pending =
      s.vpdo.head_urbr_pending ∧
    (rc = false →
      (submit_urbr_unlocked env s urbr rc).1 = STATUS_PENDING ∧
      (submit_urbr_unlocked env s urbr rc).2.vpdo.head_urbr_sent =
        s.vpdo.head_urbr_sent ++ [urbr] ∧
      (submit_urbr_unlocked env s urbr rc).2.vpdo.head_urbr = s.vpdo.head_urbr ++ [urbr] ∧
      (submit_urbr_unlocked env s urbr rc).2.vpdo.head_urbr_sent.count urbr = 1 ∧
      (submit_urbr_unlocked env s urbr rc).2.vpdo.head_urbr.count urbr = 1 ∧
      (submit_urbr_unlocked env s urbr rc).2.events =
        s.events ++ set_cancel_and_mark (s.mem urbr).irp ++
          [Event.IoCompleteRequest i STATUS_SUCCESS]) ∧
    (rc = true →
      (submit_urbr_unlocked env s urbr rc).1 = STATUS_INVALID_PARAMETER ∧
      ∃ calls, (submit_urbr_unlocked env s urbr rc).2.events = s.events ++ calls ∧
        ∀ j status, Event.IoCompleteRequest j status ∉ calls) := by
  obtain ⟨hf1, _, hf3⟩ := hf
  have hm : ∀ j status, Event.IoCompleteRequest j status ∉
      set_cancel_and_mark (s.mem urbr).irp := by
    intro j status
    cases (s.mem urbr).irp <;> simp [set_cancel_and_mark]
  rw [submit_urbr_unlocked_of_success env s urbr i 0 rc hp hr hst]
  refine ⟨?_, rfl, rfl, rfl, rfl, ?_, ?_⟩
  · simp [handoff_state, write, pre_increment]
  · intro hrc
    subst hrc
    refine ⟨rfl, rfl, rfl, ?_, ?_, by simp⟩
    · simp [List.count_eq_zero_of_not_mem hf3]
    · simp [List.count_eq_zero_of_not_mem hf1]
  · intro hrc
    subst hrc
    exact ⟨rfl, set_cancel_and_mark (s.mem urbr).irp, by simp, hm⟩

/-- C7, worked instance (Scenario B): the read irp 9 waits and is not cancelled, request
1 is submitted and stored whole; it gets the number 1 and is the one sent request, and
irp 9 is completed. -/
theorem submit_urbr_unlocked_complete_witness :
    waiting_context.vpdo.urbr_sent_partial = none ∧
    waiting_context.vpdo.pending_read_irp = some 9 ∧
    in_no_list waiting_context.vpdo 1 ∧
    env_complete.store_urbr (handoff_state env_complete waiting_context 1) (some 9) 1 =
      (STATUS_SUCCESS, 0) ∧
    ((submit_urbr_unlocked env_complete waiting_context 1 false).2.mem 1).seq_num = 1 ∧
    (submit_urbr_unlocked env_complete waiting_context 1 false).2.vpdo.head_urbr_pending = [] ∧
    (submit_urbr_unlocked env_complete waiting_context 1 false).1 = STATUS_PENDING ∧
    (submit_urbr_unlocked env_complete waiting_context 1 false).2.vpdo.head_urbr_sent = [1] ∧
    (submit_urbr_unlocked env_complete waiting_context 1 false).2.events =
      [Event.IoSetCancelRoutine 101, Event.IoMarkIrpPending 101,
        Event.IoCompleteRequest 9 STATUS_SUCCESS] :=
  have h := submit_urbr_unlocked_complete env_complete waiting_context 1 9 false rfl rfl
    (by decide) rfl
  ⟨rfl, rfl, by decide, rfl, h.1, h.2.2.2.2.1, (h.2.2.2.2.2.1 rfl).1,
    (h.2.2.2.2.2.1 rfl).2.1, (h.2.2.2.2.2.1 rfl).2.2.2.2.2⟩

/-- C7, as stated, fails in two ways.  At the counter's last value: in
`last_number_context` (read irp 9 waits, counter `2 ^ 32 - 1`, the value a fresh context
reaches after `2 ^ 32 - 1` rounds of submitting and fetching) request 1 is stored whole,
the read irp not cancelled, and gets the number 0, not the old counter plus one.  And
when the read irp is cancelled while `store_urbr` runs: in `waiting_context` request 1
is stored whole, and `submit_urbr` returns `STATUS_INVALID_PARAMETER`, not
`STATUS_PENDING`, and completes no read irp. -/
theorem submit_urbr_unlocked_complete_counterexample :
    ((run env_complete (fresh_context mem_irp [1])
        (submit_fetch_rounds (2 ^ 32 - 1))).vpdo.seq_num = last_number_context.vpdo.seq_num ∧
      last_number_context.vpdo.urbr_sent_partial = none ∧
      last_number_context.vpdo.pending_read_irp = some 9 ∧
      in_no_list last_number_context.vpdo 1 ∧
      env_complete.store_urbr (handoff_state env_complete last_number_context 1) (some 9) 1 =
        (STATUS_SUCCESS, 0) ∧
      ((submit_urbr_unlocked env_complete last_number_context 1 false).2.mem 1).seq_num = 0 ∧
      ((submit_urbr_unlocked env_complete last_number_context 1 false).2.mem 1).seq_num ≠
        last_number_context.vpdo.seq_num + 1) ∧
    (waiting_context.vpdo.urbr_sent_partial = none ∧
      waiting_context.vpdo.pending_read_irp = some 9 ∧
      in_no_list waiting_context.vpdo 1 ∧
      env_complete.store_urbr (handoff_state env_complete waiting_context 1) (some 9) 1 =
        (STATUS_SUCCESS, 0) ∧
      (submit_urbr_unlocked env_complete waiting_context 1 true).1 =
        STATUS_INVALID_PARAMETER ∧
      (submit_urbr_unlocked env_complete waiting_context 1 true).1 ≠ STATUS_PENDING ∧
      (submit_urbr_unlocked env_complete waiting_context 1 true).2.events =
        [Event.IoSetCancelRoutine 101, Event.IoMarkIrpPending 101]) := by
  refine ⟨⟨last_number_reached mem_irp [1], rfl, rfl, by decide, rfl, by decide, by decide⟩,
    ⟨rfl, rfl, by decide, rfl, by decide, by decide, by decide⟩⟩

/-- C8, as amended. Direct hand-off, part of the request stored: when a read irp waits,
no request is partly sent, the request is in no list and `store_urbr` returns
`STATUS_SUCCESS` leaving `n`, not 0, in `len_sent_partial`, then afterwards
`len_sent_partial` is still `n` and the request is neither in the sent list nor in the
pending list, both of which are unchanged.  When the read irp was not cancelled while
the lock was released (`rc = false`), `submit_urbr` returns `STATUS_PENDING` and the
partly sent request is exactly the submitted one.  When the read irp was cancelled
meanwhile (`rc = true`), `submit_urbr` returns `STATUS_INVALID_PARAMETER`. -/
theorem submit_urbr_unlocked_part (env : Env) (s : State) (urbr i n : Nat) (rc : Bool)
    (hp : s.vpdo.urbr_sent_partial = none) (hr : s.vpdo.pending_read_irp = some i)
    (hf : in_no_list s.vpdo urbr)
    (hst : env.store_urbr (handoff_state env s urbr) (some i) urbr = (STATUS_SUCCESS, n))
    (hn : n ≠ 0) :
    (submit_urbr_unlocked env s urbr rc).2.vpdo.len_sent_partial = n ∧
    (submit_urbr_unlocked env s urbr rc).2.vpdo.len_sent_partial ≠ 0 ∧
    urbr ∉ (submit_urbr_unlocked env s urbr rc).2.vpdo.head_urbr_sent ∧
    urbr ∉ (submit_urbr_unlocked env s urbr rc).2.vpdo.head_urbr_pending ∧
    (submit_urbr_unlocked env s urbr rc).2.vpdo.head_urbr_sent = s.vpdo.head_urbr_sent ∧
    (submit_urbr_unlocked env s urbr rc).2.vpdo.head_urbr_pending =
      s.vpdo.head_urbr_pending ∧
    (rc = false →
      (submit_urbr_unlocked env s urbr rc).1 = STATUS_PENDING ∧
      (submit_urbr_unlocked env s urbr rc).2.vpdo.urbr_sent_partial = some urbr) ∧
    (rc = true →
      (submit_urbr_unlocked env s urbr rc).1 = STATUS_INVALID_PARAMETER) := by
  obtain ⟨_, hf2, hf3⟩ := hf
  rw [submit_urbr_unlocked_of_success env s urbr i n rc hp hr hst]
  refine ⟨rfl, hn, by simpa [hn] using hf3, hf2, by simp [hn], rfl, ?_, ?_⟩
  · intro hrc
    subst hrc
    exact ⟨rfl, by simp [hn]⟩
  · intro hrc
    subst hrc
    rfl

/-- C8, worked instance (first half of Scenario C): the read irp 9 waits and is not
cancelled, `store_urbr` leaves 4 bytes to send; request 1 is then the partly sent
request. -/
theorem submit_urbr_unlocked_part_witness :
    waiting_context.vpdo.urbr_sent_partial = none ∧
    waiting_context.vpdo.pending_read_irp = some 9 ∧
    in_no_list waiting_context.vpdo 1 ∧
    env_part.store_urbr (handoff_state env_part waiting_context 1) (some 9) 1 =
      (STATUS_SUCCESS, 4) ∧
    (submit_urbr_unlocked env_part waiting_context 1 false).2.vpdo.len_sent_partial = 4 ∧
    1 ∉ (submit_urbr_unlocked env_part waiting_context 1 false).2.vpdo.head_urbr_sent ∧
    1 ∉ (submit_urbr_unlocked env_part waiting_context 1 false).2.vpdo.head_urbr_pending ∧
    (submit_urbr_unlocked env_part waiting_context 1 false).1 = STATUS_PENDING ∧
    (submit_urbr_unlocked env_part waiting_context 1 false).2.vpdo.urbr_sent_partial =
      some 1 :=
  have h := submit_urbr_unlocked_part env_part waiting_context 1 9 4 false rfl rfl
    (by decide) rfl (by decide)
  ⟨rfl, rfl, by decide, rfl, h.1, h.2.2.1, h.2.2.2.1, (h.2.2.2.2.2.2.1 rfl).1,
    (h.2.2.2.2.2.2.1 rfl).2⟩

/-- C8, as stated, fails when the read irp is cancelled while `store_urbr` runs: in
`waiting_context` the read irp 9 waits, no request is partly sent, request 1 is in no
list and `store_urbr` succeeds leaving 4 bytes to send; `submit_urbr` finds `read_irp`
`NULL` and returns `STATUS_INVALID_PARAMETER`, not `STATUS_PENDING`. -/
theorem submit_urbr_unlocked_part_counterexample :
    waiting_context.vpdo.urbr_sent_partial = none ∧
    waiting_context.vpdo.pending_read_irp = some 9 ∧
    in_no_list waiting_context.vpdo 1 ∧
    env_part.store_urbr (handoff_state env_part waiting_context 1) (some 9) 1 =
      (STATUS_SUCCESS, 4) ∧
    (submit_urbr_unlocked env_part waiting_context 1 true).1 = STATUS_INVALID_PARAMETER ∧
    (submit_urbr_unlocked env_part waiting_context 1 true).1 ≠ STATUS_PENDING := by
  refine ⟨rfl, rfl, by decide, rfl, by decide, by decide⟩

/-- C9, as stated, fails: in `waiting_context` the read irp 9 waits and no request is
partly sent; `store_urbr` succeeds and leaves 4 bytes to send, the read irp is not
cancelled meanwhile; `submit_urbr` completes irp 9 with `STATUS_SUCCESS` and no read irp
waits when it returns. -/
theorem submit_urbr_unlocked_reader_counterexample :
    waiting_context.vpdo.urbr_sent_partial = none ∧
    waiting_context.vpdo.pending_read_irp = some 9 ∧
    env_part.store_urbr (handoff_state env_part waiting_context 1) (some 9) 1 =
      (STATUS_SUCCESS, 4) ∧
    Event.IoCompleteRequest 9 STATUS_SUCCESS ∈
      (submit_urbr_unlocked env_part waiting_context 1 false).2.events ∧
    (submit_urbr_unlocked env_part waiting_context 1 false).2.vpdo.pending_read_irp = none ∧
    ¬ ((∀ status, Event.IoCompleteRequest 9 status ∉
          (submit_urbr_unlocked env_part waiting_context 1 false).2.events) ∧
        (submit_urbr_unlocked env_part waiting_context 1 false).2.vpdo.pending_read_irp =
          some 9) := by
  refine ⟨rfl, rfl, rfl, by decide, by decide, ?_⟩
  intro h
  exact h.1 STATUS_SUCCESS (by decide)

/-- C9, as amended. Part of the request stored: when a read irp waits, no request is
partly sent and `store_urbr` returns `STATUS_SUCCESS` leaving bytes to send, no read irp
waits when `submit_urbr` returns.  When the read irp was not cancelled while the lock
was released (`rc = false`), `submit_urbr` completes it with `STATUS_SUCCESS`, as its
last call and its only completion, and returns `STATUS_PENDING`, exactly as when the
whole request was stored, and the submitted request is the partly sent one.  When the read irp was cancelled meanwhile (`rc = true`),
`submit_urbr` completes no irp and returns `STATUS_INVALID_PARAMETER`. -/
theorem submit_urbr_unlocked_part_reader (env : Env) (s : State) (urbr i n : Nat) (rc : Bool)
    (hp : s.vpdo.urbr_sent_partial = none) (hr : s.vpdo.pending_read_irp = some i)
    (hst : env.store_urbr (handoff_state env s urbr) (some i) urbr = (STATUS_SUCCESS, n))
    (hn : n ≠ 0) :
    (submit_urbr_unlocked env s urbr rc).2.vpdo.pending_read_irp = none ∧
    (rc = false →
      (submit_urbr_unlocked env s urbr rc).1 = STATUS_PENDING ∧
      (submit_urbr_unlocked env s urbr rc).2.vpdo.urbr_sent_partial = some urbr ∧
      ∃ calls, (submit_urbr_unlocked env s urbr rc).2.events =
        s.events ++ calls ++ [Event.IoCompleteRequest i STATUS_SUCCESS] ∧
        ∀ j status, Event.IoCompleteRequest j status ∉ calls) ∧
    (rc = true →
      (submit_urbr_unlocked env s urbr rc).1 = STATUS_INVALID_PARAMETER ∧
      ∃ calls, (submit_urbr_unlocked env s urbr rc).2.events = s.events ++ calls ∧
        ∀ j status, Event.IoCompleteRequest j status ∉ calls) := by
  have hm : ∀ j status, Event.IoCompleteRequest j status ∉
      set_cancel_and_mark (s.mem urbr).irp := by
    intro j status
    cases (s.mem urbr).irp <;> simp [set_cancel_and_mark]
  rw [submit_urbr_unlocked_of_success env s urbr i n rc hp hr hst]
  refine ⟨rfl, ?_, ?_⟩
  · intro hrc
    subst hrc
    exact ⟨rfl, by simp [hn], set_cancel_and_mark (s.mem urbr).irp, rfl, hm⟩
  · intro hrc
    subst hrc
    exact ⟨rfl, set_cancel_and_mark (s.mem urbr).irp, by simp, hm⟩

/-- C9, worked instance of the amended claim on `waiting_context`, the read irp not
cancelled. -/
theorem submit_urbr_unlocked_part_reader_witness :
    waiting_context.vpdo.urbr_sent_partial = none ∧
    waiting_context.vpdo.pending_read_irp = some 9 ∧
    env_part.store_urbr (handoff_state env_part waiting_context 1) (some 9) 1 =
      (STATUS_SUCCESS, 4) ∧
    (submit_urbr_unlocked env_part waiting_context 1 false).2.vpdo.pending_read_irp = none ∧
    (submit_urbr_unlocked env_part waiting_context 1 false).1 = STATUS_PENDING :=
  have h := submit_urbr_unlocked_part_reader env_part waiting_context 1 9 4 false rfl rfl rfl
    (by decide)
  ⟨rfl, rfl, rfl, h.1, (h.2.1 rfl).1⟩

/-! ### The invariants over calls during which the read irp may be cancelled -/

/-- The invariants do not read the waiting read irp or the calls made. -/
theorem broker_inv_read_irp_events (env : Env) (s : State) (r : Option Nat) (ev : List Event)
    (h : broker_inv env s) :
    broker_inv env { s with vpdo := { s.vpdo with pending_read_irp := r }, events := ev } :=
  ⟨⟨h.1.nodup_pending, h.1.nodup_sent, h.1.nodup_all, h.1.disjoint, h.1.pending_all,
    h.1.sent_all, h.1.all_allocated, h.1.partial_all⟩, h.2.1, h.2.2⟩

/-- Whether the read irp is cancelled meanwhile or not, `submit_urbr` leaves the same
lists, the same partly sent request, the same counter, memory and pool; only the waiting
read irp and the calls made can differ. -/
theorem submit_urbr_unlocked_state (env : Env) (s : State) (urbr : Nat) (rc : Bool) :
    ∃ r ev, (submit_urbr_unlocked env s urbr rc).2 =
      { (submit_urbr env s urbr).2 with
        vpdo := { (submit_urbr env s urbr).2.vpdo with pending_read_irp := r }
        events := ev } := by
  cases rc with
  | false => rw [submit_urbr_unlocked_false]; exact ⟨_, _, rfl⟩
  | true =>
    by_cases hq : s.vpdo.urbr_sent_partial ≠ none ∨ s.vpdo.pending_read_irp = none
    · rw [submit_urbr_unlocked_of_queued env s urbr true hq, submit_urbr_of_queued env s urbr hq]
      exact ⟨_, _, rfl⟩
    · have hp : s.vpdo.urbr_sent_partial = none := by
        by_contra hne
        exact hq (Or.inl hne)
      obtain ⟨i, hr⟩ : ∃ i, s.vpdo.pending_read_irp = some i := by
        cases hri : s.vpdo.pending_read_irp with
        | none => exact absurd (Or.inr hri) hq
        | some i => exact ⟨i, rfl⟩
      by_cases hst : (env.store_urbr (handoff_state env s urbr) (some i) urbr).1 = STATUS_SUCCESS
      · have hst2 : env.store_urbr (handoff_state env s urbr) (some i) urbr =
            (STATUS_SUCCESS, (env.store_urbr (handoff_state env s urbr) (some i) urbr).2) := by
          rw [← hst]
        rw [submit_urbr_unlocked_of_success env s urbr i _ true hp hr hst2,
          ← submit_urbr_unlocked_false,
          submit_urbr_unlocked_of_success env s urbr i _ false hp hr hst2]
        exact ⟨_, _, rfl⟩
      · rw [submit_urbr_unlocked_of_fail env s urbr i true hp hr hst,
          ← submit_urbr_unlocked_false,
          submit_urbr_unlocked_of_fail env s urbr i false hp hr hst]
        exact ⟨_, _, rfl⟩

theorem broker_inv_submit_urbr_unlocked (env : Env) (s : State) (urbr : Nat) (rc : Bool)
    (h : broker_inv env s) (hu : urbr ∈ s.allocated) (hf : urbr ∉ s.vpdo.head_urbr) :
    broker_inv env (submit_urbr_unlocked env s urbr rc).2 := by
  obtain ⟨r, ev, e⟩ := submit_urbr_unlocked_state env s urbr rc
  rw [e]
  exact broker_inv_read_irp_events env _ r ev (broker_inv_submit_urbr env s urbr h hu hf)

/-- A request that is linked in `head_urbr` when it is freed fails an `ASSERT`. -/
theorem free_urbr_assert (s : State) (urbr : Nat) (h : urbr ∈ s.vpdo.head_urbr) :
    Event.ASSERT_failed ∈ (free_urbr s urbr).events := by
  simp [free_urbr, h]

/-- A call of `free_urbr` keeps the calls made before it. -/
theorem free_urbr_events_mono (s : State) (urbr : Nat) (e : Event) (h : e ∈ s.events) :
    e ∈ (free_urbr s urbr).events := by
  simp [free_urbr, h]

/-- A call of `submit_urbr` keeps the calls made before it. -/
theorem submit_urbr_unlocked_events_mono (env : Env) (s : State) (urbr : Nat) (rc : Bool)
    (e : Event) (h : e ∈ s.events) : e ∈ (submit_urbr_unlocked env s urbr rc).2.events := by
  by_cases hq : s.vpdo.urbr_sent_partial ≠ none ∨ s.vpdo.pending_read_irp = none
  · rw [submit_urbr_unlocked_of_queued env s urbr rc hq]
    simp [h]
  · have hp : s.vpdo.urbr_sent_partial = none := by
      by_contra hne
      exact hq (Or.inl hne)
    obtain ⟨i, hr⟩ : ∃ i, s.vpdo.pending_read_irp = some i := by
      cases hri : s.vpdo.pending_read_irp with
      | none => exact absurd (Or.inr hri) hq
      | some i => exact ⟨i, rfl⟩
    by_cases hst : (env.store_urbr (handoff_state env s urbr) (some i) urbr).1 = STATUS_SUCCESS
    · have hst2 : env.store_urbr (handoff_state env s urbr) (some i) urbr =
          (STATUS_SUCCESS, (env.store_urbr (handoff_state env s urbr) (some i) urbr).2) := by
        rw [← hst]
      rw [submit_urbr_unlocked_of_success env s urbr i _ rc hp hr hst2]
      simp [h]
    · rw [submit_urbr_unlocked_of_fail env s urbr i rc hp hr hst]
      simpa [handoff_state] using h

/-- The invariants hold, or an `ASSERT` of `free_urbr` has failed. -/
theorem broker_inv_submit_urbr_unlink_unlocked (env : Env) (hpool : pool_sound env)
    (s : State) (u : Nat) (rc : Bool) (h : broker_inv env s) :
    broker_inv env (submit_urbr_unlink_unlocked env s u rc) ∨
      Event.ASSERT_failed ∈ (submit_urbr_unlink_unlocked env s u rc).events := by
  unfold submit_urbr_unlink_unlocked
  have hi := broker_inv_create_urbr env hpool s none u h
  rcases create_urbr_cases env s none u with e | ⟨p, ha, e⟩
  · rw [e]
    exact Or.inl h
  · rw [e] at hi ⊢
    have hpa : p ∉ s.allocated := hpool _ _ ha
    have hpf : p ∉ s.vpdo.head_urbr := fun hm => hpa (h.1.all_allocated p hm)
    have h2 := broker_inv_submit_urbr_unlocked env _ p rc hi
      (List.mem_append_right _ (List.mem_singleton_self _)) hpf
    dsimp only
    split_ifs with he
    · by_cases hl : p ∈ (submit_urbr_unlocked env
          { s with
            allocated := s.allocated ++ [p]
            mem := write s.mem p { irp := none, seq_num := 0, seq_num_unlink := u } }
          p rc).2.vpdo.head_urbr
      · exact Or.inr (free_urbr_assert _ p hl)
      · exact Or.inl (broker_inv_free_urbr env _ p h2 hl)
    · exact Or.inl h2

theorem submit_urbr_unlink_unlocked_events_mono (env : Env) (s : State) (u : Nat) (rc : Bool)
    (e : Event) (h : e ∈ s.events) : e ∈ (submit_urbr_unlink_unlocked env s u rc).events := by
  unfold submit_urbr_unlink_unlocked
  rcases create_urbr_cases env s none u with e1 | ⟨p, _, e1⟩
  · rw [e1]
    exact h
  · rw [e1]
    dsimp only
    split_ifs
    · exact free_urbr_events_mono _ p e (submit_urbr_unlocked_events_mono env _ p rc e h)
    · exact submit_urbr_unlocked_events_mono env _ p rc e h

theorem broker_inv_remove_cancelled_urbr_unlocked (env : Env) (hpool : pool_sound env)
    (s : State) (irp : Option Nat) (rc : Bool) (h : broker_inv env s) :
    broker_inv env (remove_cancelled_urbr_unlocked env s irp rc) ∨
      Event.ASSERT_failed ∈ (remove_cancelled_urbr_unlocked env s irp rc).events := by
  unfold remove_cancelled_urbr_unlocked
  split
  · rename_i urbr e
    have h1 := broker_inv_unlink_cancelled env s urbr h
    dsimp only
    rcases broker_inv_submit_urbr_unlink_unlocked env hpool (unlink_cancelled s urbr)
      ((unlink_cancelled s urbr).mem urbr).seq_num rc h1 with h2 | h2
    · by_cases hl : urbr ∈ (submit_urbr_unlink_unlocked env (unlink_cancelled s urbr)
          ((unlink_cancelled s urbr).mem urbr).seq_num rc).vpdo.head_urbr
      · exact Or.inr (free_urbr_assert _ urbr hl)
      · exact Or.inl (broker_inv_free_urbr env _ urbr h2 hl)
    · exact Or.inr (free_urbr_events_mono _ urbr _ h2)
  · exact Or.inl h

theorem remove_cancelled_urbr_unlocked_events_mono (env : Env) (s : State) (irp : Option Nat)
    (rc : Bool) (e : Event) (h : e ∈ s.events) :
    e ∈ (remove_cancelled_urbr_unlocked env s irp rc).events := by
  unfold remove_cancelled_urbr_unlocked
  split
  · rename_i urbr _
    dsimp only
    refine free_urbr_events_mono _ urbr e
      (submit_urbr_unlink_unlocked_events_mono env _ _ rc e ?_)
    rw [(unlink_cancelled_fields s urbr).2.2.2.2.2.2.1]
    exact h
  · exact h

/-- Every call keeps the calls made before it. -/
theorem step_unlocked_events_mono (env : Env) (s : State) (op : Op) (rc : Bool) (e : Event)
    (h : e ∈ s.events) : e ∈ (step_unlocked env s op rc).events := by
  cases op with
  | create irp u =>
    rcases create_urbr_cases env s irp u with e1 | ⟨p, _, e1⟩ <;>
      simp only [step_unlocked, e1] <;> exact h
  | submit urbr => exact submit_urbr_unlocked_events_mono env s urbr rc e h
  | free urbr => exact free_urbr_events_mono s urbr e h
  | find_pending =>
    simp only [step_unlocked, find_pending_urbr]
    split <;> exact h
  | find_sent hdr =>
    simp only [step_unlocked, find_sent_urbr]
    split <;> exact h
  | cancel irp =>
    simp only [step_unlocked, cancel_urbr_unlocked]
    exact List.mem_append_left _ (remove_cancelled_urbr_unlocked_events_mono env s _ rc e h)
  | read_waits irp => exact h

/-- One call, with the read irp cancelled meanwhile or not: the invariants are kept, or
an `ASSERT` of `free_urbr` has failed. -/
theorem broker_inv_step_unlocked (env : Env) (hpool : pool_sound env) (s : State) (op : Op)
    (rc : Bool) (h : broker_inv env s ∨ Event.ASSERT_failed ∈ s.events) (hok : op_ok s op) :
    broker_inv env (step_unlocked env s op rc) ∨
      Event.ASSERT_failed ∈ (step_unlocked env s op rc).events := by
  rcases h with h | h
  · cases op with
    | create irp u => exact Or.inl (broker_inv_create_urbr env hpool s irp u h)
    | submit urbr =>
      exact Or.inl (broker_inv_submit_urbr_unlocked env s urbr rc h hok.1 hok.2.1)
    | free urbr => exact Or.inl (broker_inv_free_urbr env s urbr h hok.2.1)
    | find_pending => exact Or.inl (broker_inv_find_pending_urbr env s h)
    | find_sent hdr => exact Or.inl (broker_inv_find_sent_urbr env s hdr h)
    | cancel irp =>
      rcases broker_inv_remove_cancelled_urbr_unlocked env hpool s (some irp) rc h with h1 | h1
      · exact Or.inl (broker_inv_read_irp_events env _ _ _ h1)
      · exact Or.inr (List.mem_append_left _ h1)
    | read_waits irp => exact Or.inl (broker_inv_read_irp_events env s (some irp) s.events h)
  · exact Or.inr (step_unlocked_events_mono env s op rc _ h)

/-- Every sequence of calls made as `op_ok` asks, with the read irp cancelled during any
of them or not: the invariants hold afterwards, or an `ASSERT` of `free_urbr` has
failed. -/
theorem broker_inv_run_unlocked (env : Env) (hpool : pool_sound env)
    (calls : List (Op × Bool)) :
    ∀ s : State, (broker_inv env s ∨ Event.ASSERT_failed ∈ s.events) →
      valid_unlocked env s calls →
      broker_inv env (run_unlocked env s calls) ∨
        Event.ASSERT_failed ∈ (run_unlocked env s calls).events := by
  induction calls with
  | nil => intro s h _; exact h
  | cons c calls ih =>
    intro s h hv
    exact ih _ (broker_inv_step_unlocked env hpool s c.1 c.2 h hv.1) hv.2

/-! ### No failing `ASSERT` while no read irp is cancelled -/

/-- Calls made one after the other as `op_ok` asks, from a context whose lists hang
together and with a pool that hands out no block twice, make no failing `ASSERT`. -/
theorem run_no_assert (env : Env) (hpool : pool_sound env) (ops : List Op) :
    ∀ s : State, lists_inv s → Event.ASSERT_failed ∉ s.events → valid env s ops →
      Event.ASSERT_failed ∉ (run env s ops).events := by
  induction ops with
  | nil => intro s _ h _; exact h
  | cons op ops ih =>
    intro s hl h hv
    refine ih _ (lists_inv_step env hpool s op hl hv.1) ?_ hv.2
    cases op with
    | create irp u =>
      rcases create_urbr_cases env s irp u with e1 | ⟨p, _, e1⟩ <;>
        simp only [step, e1] <;> exact h
    | submit urbr => exact submit_urbr_no_assert env s urbr h
    | free urbr => exact free_urbr_no_assert s urbr hv.1.2 h
    | find_pending =>
      simp only [step, find_pending_urbr]
      split <;> exact h
    | find_sent hdr =>
      simp only [step, find_sent_urbr]
      split <;> exact h
    | cancel irp =>
      have h1 := remove_cancelled_urbr_no_assert env hpool s (some irp) hl h
      simp only [step, cancel_urbr]
      simp [h1]
    | read_waits irp => exact h

/-- Calls during none of which the read irp is cancelled, made as `op_ok` asks from a
fresh context: no `ASSERT` fails. -/
theorem run_unlocked_no_assert (env : Env) (hpool : pool_sound env) (mem : Nat → urb_req)
    (allocated : List Nat) (calls : List (Op × Bool)) (hc : no_read_cancel calls)
    (hv : valid_unlocked env (fresh_context mem allocated) calls) :
    Event.ASSERT_failed ∉ (run_unlocked env (fresh_context mem allocated) calls).events := by
  obtain ⟨e, hiff⟩ := run_unlocked_of_no_read_cancel env calls (fresh_context mem allocated) hc
  rw [e]
  exact run_no_assert env hpool _ _ (lists_inv_fresh mem allocated) (by simp [fresh_context])
    (hiff.1 hv)

/-! ### Exactly-once matching, with the read irp cancelled or not -/

/-- Once the counter has gone round, a header is matched twice, also over calls during
none of which the read irp is cancelled and none of which fails an `ASSERT`: the calls
`wrap_twice_ops k` of `wrap_twice_matched_twice`. -/
theorem wrap_twice_unlocked (env : Env) (hpool : pool_sound env)
    (hstore : ∀ st i u, env.store_urbr st i u = (STATUS_SUCCESS, 0)) (k : Nat)
    (hk : k + 1 = 2 ^ env.seq_bits) :
    valid_unlocked env (fresh_context mem_zero (List.range (k + 2)))
      ((wrap_twice_ops k).map (fun op => (op, false))) ∧
    Event.ASSERT_failed ∉ (run_unlocked env (fresh_context mem_zero (List.range (k + 2)))
      ((wrap_twice_ops k).map (fun op => (op, false)))).events ∧
    (find_sent_urbr (run_unlocked env (fresh_context mem_zero (List.range (k + 2)))
        ((wrap_twice_ops k).map (fun op => (op, false))))
      { base := { seqnum := 1 % 2 ^ env.seq_bits } }).1 = some k ∧
    (find_sent_urbr
      (find_sent_urbr (run_unlocked env (fresh_context mem_zero (List.range (k + 2)))
          ((wrap_twice_ops k).map (fun op => (op, false))))
        { base := { seqnum := 1 % 2 ^ env.seq_bits } }).2
      { base := { seqnum := 1 % 2 ^ env.seq_bits } }).1 = some (k + 1) := by
  obtain ⟨e, hiff⟩ := run_unlocked_of_no_read_cancel env
    ((wrap_twice_ops k).map (fun op => (op, false)))
    (fresh_context mem_zero (List.range (k + 2))) (no_read_cancel_map (wrap_twice_ops k))
  obtain ⟨hv, h1, h2⟩ := wrap_twice_matched_twice env hstore k hk
  have hv2 : valid_unlocked env (fresh_context mem_zero (List.range (k + 2)))
      ((wrap_twice_ops k).map (fun op => (op, false))) := by
    rw [hiff, map_fst_map]
    exact hv
  refine ⟨hv2, run_unlocked_no_assert env hpool _ _ _ (no_read_cancel_map _) hv2, ?_, ?_⟩
  · rw [e, map_fst_map]
    exact h1
  · rw [e, map_fst_map]
    exact h2

/-- C6, as amended. Exactly-once matching before the wrap and while no `ASSERT` has
failed: in every context reached from a fresh one by calls made as `op_ok` asks (with a
pool that hands out no block twice), the waiting read irp cancelled or not while any of
the calls has the lock released, as long as no `ASSERT` of `free_urbr` has failed and
fewer numbers have been assigned than the counter has values (`2 ^ seq_bits`), when
`find_sent_urbr` returns a request for a header, a second call for the same header
right after it returns `NULL`. -/
theorem exactly_once_unlocked_below_wrap (env : Env) (hpool : pool_sound env)
    (mem : Nat → urb_req) (allocated : List Nat) (calls : List (Op × Bool))
    (hdr : usbip_header) (urbr : Nat)
    (hv : valid_unlocked env (fresh_context mem allocated) calls)
    (ha : Event.ASSERT_failed ∉
      (run_unlocked env (fresh_context mem allocated) calls).events)
    (hw : (run_unlocked env (fresh_context mem allocated) calls).seq_log.length <
      2 ^ env.seq_bits)
    (h1 : (find_sent_urbr (run_unlocked env (fresh_context mem allocated) calls) hdr).1 =
      some urbr) :
    (find_sent_urbr
      (find_sent_urbr (run_unlocked env (fresh_context mem allocated) calls) hdr).2 hdr).1
      = none := by
  rcases broker_inv_run_unlocked env hpool calls _
    (Or.inl (broker_inv_fresh env mem allocated)) hv with h | h
  · obtain ⟨hl, _, hs⟩ := h
    exact find_sent_urbr_twice _ hdr urbr hl.nodup_sent (hs hw).2 h1
  · exact absurd h ha

/-- C6, worked instance: the read irp 9 waits, request 1 is handed to it and sent with
the number 1, and the read irp is cancelled while `store_urbr` runs (the call returns an
error status with the request sent); no `ASSERT` fails; the header with number 1 finds
the request once and not a second time. -/
theorem exactly_once_unlocked_below_wrap_witness :
    valid_unlocked env_complete (fresh_context mem_irp [1])
      [(Op.read_waits 9, false), (Op.submit 1, true)] ∧
    Event.ASSERT_failed ∉ (run_unlocked env_complete (fresh_context mem_irp [1])
      [(Op.read_waits 9, false), (Op.submit 1, true)]).events ∧
    (run_unlocked env_complete (fresh_context mem_irp [1])
      [(Op.read_waits 9, false), (Op.submit 1, true)]).seq_log.length <
        2 ^ env_complete.seq_bits ∧
    (find_sent_urbr (run_unlocked env_complete (fresh_context mem_irp [1])
      [(Op.read_waits 9, false), (Op.submit 1, true)]) { base := { seqnum := 1 } }).1 =
        some 1 ∧
    (find_sent_urbr (find_sent_urbr (run_unlocked env_complete (fresh_context mem_irp [1])
      [(Op.read_waits 9, false), (Op.submit 1, true)]) { base := { seqnum := 1 } }).2
        { base := { seqnum := 1 } }).1 = none :=
  ⟨by decide, by decide, by decide, by decide,
    exactly_once_unlocked_below_wrap env_complete pool_next_sound mem_irp [1]
      [(Op.read_waits 9, false), (Op.submit 1, true)] { base := { seqnum := 1 } } 1
      (by decide) (by decide) (by decide) (by decide)⟩

/-- C6, as stated, fails on a 32-bit counter (with a pool that hands out no block twice)
in two ways.  By the wrap of the counter: after the calls `wrap_twice_ops (2 ^ 32 - 1)`
on a fresh context, which a caller may make, during none of which a read irp is
cancelled and none of which fails an `ASSERT`, the requests `2 ^ 32 - 1` and `2 ^ 32`
are both sent with the number 1, the counter having gone round once between them;
`find_sent_urbr` for the number 1 returns the first, and called again it returns the
second instead of `NULL`.  And after the error return of `submit_urbr` that leaves the
request linked: after `reuse_sent_calls`, which a caller may make, 4 numbers have been
assigned, an `ASSERT` has failed, and `find_sent_urbr` for the number 4 returns block 2,
and called again returns block 2 again. -/
theorem exactly_once_unlocked_counterexample :
    pool_sound env_complete ∧
    (valid_unlocked env_complete (fresh_context mem_zero (List.range (2 ^ 32 + 1)))
        ((wrap_twice_ops (2 ^ 32 - 1)).map (fun op => (op, false))) ∧
      Event.ASSERT_failed ∉
        (run_unlocked env_complete (fresh_context mem_zero (List.range (2 ^ 32 + 1)))
          ((wrap_twice_ops (2 ^ 32 - 1)).map (fun op => (op, false)))).events ∧
      (find_sent_urbr
        (run_unlocked env_complete (fresh_context mem_zero (List.range (2 ^ 32 + 1)))
          ((wrap_twice_ops (2 ^ 32 - 1)).map (fun op => (op, false))))
        { base := { seqnum := 1 } }).1 = some (2 ^ 32 - 1) ∧
      (find_sent_urbr
        (find_sent_urbr
          (run_unlocked env_complete (fresh_context mem_zero (List.range (2 ^ 32 + 1)))
            ((wrap_twice_ops (2 ^ 32 - 1)).map (fun op => (op, false))))
          { base := { seqnum := 1 } }).2
        { base := { seqnum := 1 } }).1 = some (2 ^ 32)) ∧
    (valid_unlocked env_complete (fresh_context mem_zero []) reuse_sent_calls ∧
      (run_unlocked env_complete (fresh_context mem_zero []) reuse_sent_calls).seq_log.length
        = 4 ∧
      Event.ASSERT_failed ∈
        (run_unlocked env_complete (fresh_context mem_zero []) reuse_sent_calls).events ∧
      (find_sent_urbr (run_unlocked env_complete (fresh_context mem_zero []) reuse_sent_calls)
        { base := { seqnum := 4 } }).1 = some 2 ∧
      (find_sent_urbr
        (find_sent_urbr (run_unlocked env_complete (fresh_context mem_zero []) reuse_sent_calls)
          { base := { seqnum := 4 } }).2
        { base := { seqnum := 4 } }).1 = some 2) ∧
    ¬ exactly_once_unlocked env_complete := by
  have h0 := wrap_twice_unlocked env_complete pool_next_sound (fun _ _ _ => rfl)
    (2 ^ 32 - 1) rfl
  have h : valid_unlocked env_complete (fresh_context mem_zero (List.range (2 ^ 32 + 1)))
        ((wrap_twice_ops (2 ^ 32 - 1)).map (fun op => (op, false))) ∧
      Event.ASSERT_failed ∉
        (run_unlocked env_complete (fresh_context mem_zero (List.range (2 ^ 32 + 1)))
          ((wrap_twice_ops (2 ^ 32 - 1)).map (fun op => (op, false)))).events ∧
      (find_sent_urbr
        (run_unlocked env_complete (fresh_context mem_zero (List.range (2 ^ 32 + 1)))
          ((wrap_twice_ops (2 ^ 32 - 1)).map (fun op => (op, false))))
        { base := { seqnum := 1 } }).1 = some (2 ^ 32 - 1) ∧
      (find_sent_urbr
        (find_sent_urbr
          (run_unlocked env_complete (fresh_context mem_zero (List.range (2 ^ 32 + 1)))
            ((wrap_twice_ops (2 ^ 32 - 1)).map (fun op => (op, false))))
          { base := { seqnum := 1 } }).2
        { base := { seqnum := 1 } }).1 = some (2 ^ 32) := h0
  refine ⟨pool_next_sound, h, ⟨by decide, by decide, by decide, by decide, by decide⟩, ?_⟩
  intro H
  have h2 := H _ _ _ _ _ h.1 h.2.2.1
  rw [h.2.2.2] at h2
  exact absurd h2 (by simp)

/-! ### Single membership and tracking, with the read irp cancelled or not -/

/-- Single membership while no `ASSERT` has failed: in every context reached from a fresh
one by calls made as `op_ok` asks (with a pool that hands out no block twice), the
waiting read irp cancelled or not while any of the calls has the lock released, as long
as no `ASSERT` of `free_urbr` has failed, every request is counted at most once over the
pending list, the sent list and the partly sent request together, and at most once in
`head_urbr`. -/
theorem single_membership_unlocked (env : Env) (hpool : pool_sound env) (mem : Nat → urb_req)
    (allocated : List Nat) (calls : List (Op × Bool))
    (hv : valid_unlocked env (fresh_context mem allocated) calls)
    (ha : Event.ASSERT_failed ∉
      (run_unlocked env (fresh_context mem allocated) calls).events) (x : Nat) :
    (run_unlocked env (fresh_context mem allocated) calls).vpdo.head_urbr_pending.count x +
      (run_unlocked env (fresh_context mem allocated) calls).vpdo.head_urbr_sent.count x +
      (if (run_unlocked env (fresh_context mem allocated) calls).vpdo.urbr_sent_partial =
        some x then 1 else 0) ≤ 1 ∧
    (run_unlocked env (fresh_context mem allocated) calls).vpdo.head_urbr.count x ≤ 1 := by
  have hl : lists_inv (run_unlocked env (fresh_context mem allocated) calls) := by
    rcases broker_inv_run_unlocked env hpool calls _
      (Or.inl (broker_inv_fresh env mem allocated)) hv with h | h
    · exact h.1
    · exact absurd h ha
  generalize run_unlocked env (fresh_context mem allocated) calls = t at hl
  have c1 := List.nodup_iff_count_le_one.1 hl.nodup_pending x
  have c2 := List.nodup_iff_count_le_one.1 hl.nodup_sent x
  have c3 := List.nodup_iff_count_le_one.1 hl.nodup_all x
  refine ⟨?_, c3⟩
  by_cases hp : x ∈ t.vpdo.head_urbr_pending
  · have hs : t.vpdo.head_urbr_sent.count x = 0 :=
      List.count_eq_zero_of_not_mem (hl.disjoint x hp)
    have hpart : t.vpdo.urbr_sent_partial ≠ some x :=
      fun hq => (hl.partial_all x hq).2.1 hp
    rw [hs, if_neg hpart]
    omega
  · have hp0 : t.vpdo.head_urbr_pending.count x = 0 := List.count_eq_zero_of_not_mem hp
    by_cases hs : x ∈ t.vpdo.head_urbr_sent
    · have hpart : t.vpdo.urbr_sent_partial ≠ some x :=
        fun hq => (hl.partial_all x hq).2.2 hs
      rw [hp0, if_neg hpart]
      omega
    · have hs0 : t.vpdo.head_urbr_sent.count x = 0 := List.count_eq_zero_of_not_mem hs
      rw [hp0, hs0]
      split_ifs <;> omega

/-- C17, the failing run. From a fresh context, with a pool that hands out no block
twice, by calls made as `op_ok` asks: after `linked_error_calls` (the read irp is
cancelled while `store_urbr` stores the unlink request of a cancel) the unlink request,
block 2, has been freed with both `ASSERT`s failing and is still linked in
`head_urbr_sent` and `head_urbr`.  The pool hands block 2 out again for the next unlink
request (`reuse_queued_calls`), which is queued: block 2 is then pending and sent at
once and is met twice in `head_urbr`. -/
theorem single_membership_linked_error :
    pool_sound env_complete ∧
    valid_unlocked env_complete (fresh_context mem_zero []) linked_error_calls ∧
    (run_unlocked env_complete (fresh_context mem_zero [])
      linked_error_calls).vpdo.head_urbr_sent = [2] ∧
    (run_unlocked env_complete (fresh_context mem_zero [])
      linked_error_calls).vpdo.head_urbr = [2] ∧
    2 ∉ (run_unlocked env_complete (fresh_context mem_zero [])
      linked_error_calls).allocated ∧
    (run_unlocked env_complete (fresh_context mem_zero [])
      linked_error_calls).events.count Event.ASSERT_failed = 2 ∧
    valid_unlocked env_complete (fresh_context mem_zero []) reuse_queued_calls ∧
    (run_unlocked env_complete (fresh_context mem_zero [])
      reuse_queued_calls).vpdo.head_urbr_pending = [2] ∧
    (run_unlocked env_complete (fresh_context mem_zero [])
      reuse_queued_calls).vpdo.head_urbr_sent = [2] ∧
    (run_unlocked env_complete (fresh_context mem_zero [])
      reuse_queued_calls).vpdo.head_urbr = [2, 2] ∧
    ¬ ((run_unlocked env_complete (fresh_context mem_zero [])
          reuse_queued_calls).vpdo.head_urbr_pending.count 2 +
        (run_unlocked env_complete (fresh_context mem_zero [])
          reuse_queued_calls).vpdo.head_urbr_sent.count 2 +
        (if (run_unlocked env_complete (fresh_context mem_zero [])
          reuse_queued_calls).vpdo.urbr_sent_partial = some 2 then 1 else 0) ≤ 1) ∧
    ¬ ((run_unlocked env_complete (fresh_context mem_zero [])
        reuse_queued_calls).vpdo.head_urbr.count 2 ≤ 1) := by
  refine ⟨pool_next_sound, by decide, by decide, by decide, by decide, by decide, by decide,
    by decide, by decide, by decide, by decide, by decide⟩

/-- Tracking covers the queues while no `ASSERT` has failed: in every context reached
from a fresh one by calls made as `op_ok` asks (with a pool that hands out no block
twice), the waiting read irp cancelled or not while any of the calls has the lock
released, as long as no `ASSERT` of `free_urbr` has failed, every pending and every sent
request is linked in `head_urbr`, so that `find_urbr_with_irp` with the irp of such a
request finds a request; a request returned by `find_sent_urbr` is not linked in
`head_urbr` afterwards, and neither is a request found and removed by
`remove_cancelled_urbr`, when that call fails no `ASSERT`. -/
theorem tracking_covers_queues_unlocked (env : Env) (hpool : pool_sound env)
    (mem : Nat → urb_req) (allocated : List Nat) (calls : List (Op × Bool))
    (hv : valid_unlocked env (fresh_context mem allocated) calls)
    (ha : Event.ASSERT_failed ∉
      (run_unlocked env (fresh_context mem allocated) calls).events) :
    (∀ x ∈ (run_unlocked env (fresh_context mem allocated) calls).vpdo.head_urbr_pending,
      x ∈ (run_unlocked env (fresh_context mem allocated) calls).vpdo.head_urbr) ∧
    (∀ x ∈ (run_unlocked env (fresh_context mem allocated) calls).vpdo.head_urbr_sent,
      x ∈ (run_unlocked env (fresh_context mem allocated) calls).vpdo.head_urbr) ∧
    (∀ x, x ∈ (run_unlocked env (fresh_context mem allocated) calls).vpdo.head_urbr_pending ∨
        x ∈ (run_unlocked env (fresh_context mem allocated) calls).vpdo.head_urbr_sent →
      find_urbr_with_irp (run_unlocked env (fresh_context mem allocated) calls)
        ((run_unlocked env (fresh_context mem allocated) calls).mem x).irp ≠ none) ∧
    (∀ hdr urbr,
      (find_sent_urbr (run_unlocked env (fresh_context mem allocated) calls) hdr).1 =
        some urbr →
      urbr ∉ (find_sent_urbr (run_unlocked env (fresh_context mem allocated) calls)
        hdr).2.vpdo.head_urbr) ∧
    (∀ irp urbr rc,
      find_urbr_with_irp (run_unlocked env (fresh_context mem allocated) calls) irp =
        some urbr →
      Event.ASSERT_failed ∉ (remove_cancelled_urbr_unlocked env
        (run_unlocked env (fresh_context mem allocated) calls) irp rc).events →
      urbr ∉ (remove_cancelled_urbr_unlocked env
        (run_unlocked env (fresh_context mem allocated) calls) irp rc).vpdo.head_urbr) := by
  have hl : lists_inv (run_unlocked env (fresh_context mem allocated) calls) := by
    rcases broker_inv_run_unlocked env hpool calls _
      (Or.inl (broker_inv_fresh env mem allocated)) hv with h | h
    · exact h.1
    · exact absurd h ha
  generalize run_unlocked env (fresh_context mem allocated) calls = t at hl
  refine ⟨hl.pending_all, hl.sent_all, ?_, ?_, ?_⟩
  · intro x hx hnone
    have hx2 : x ∈ t.vpdo.head_urbr := hx.elim (hl.pending_all x) (hl.sent_all x)
    unfold find_urbr_with_irp at hnone
    rw [List.find?_eq_none] at hnone
    exact hnone x hx2 (by simp)
  · intro hdr urbr h1
    unfold find_sent_urbr at h1 ⊢
    split at h1
    · rename_i u e
      simp only [e]
      have : u = urbr := by simpa using h1
      subst this
      exact fun hm => ((List.Nodup.mem_erase_iff hl.nodup_all).1 hm).1 rfl
    · exact absurd h1 (by simp)
  · intro irp urbr rc hfind hna hm
    unfold remove_cancelled_urbr_unlocked at hna hm
    rw [hfind] at hna hm
    exact hna (free_urbr_assert _ urbr hm)

/-- C19, the failing run. From a fresh context, with a pool that hands out no block
twice, by calls made as `op_ok` asks: after `reuse_queued_calls` (the read irp is
cancelled while `store_urbr` stores the unlink request of a cancel, the freed unlink
request stays linked and its block, 2, is handed out again for the next unlink request,
which has the number 0), `find_sent_urbr` for the number 0 returns block 2, and block 2
is still linked in `head_urbr` afterwards. -/
theorem tracking_linked_error :
    pool_sound env_complete ∧
    valid_unlocked env_complete (fresh_context mem_zero []) reuse_queued_calls ∧
    (run_unlocked env_complete (fresh_context mem_zero [])
      reuse_queued_calls).vpdo.head_urbr_sent = [2] ∧
    ((run_unlocked env_complete (fresh_context mem_zero [])
      reuse_queued_calls).mem 2).seq_num = 0 ∧
    (find_sent_urbr (run_unlocked env_complete (fresh_context mem_zero [])
      reuse_queued_calls) { base := { seqnum := 0 } }).1 = some 2 ∧
    2 ∈ (find_sent_urbr (run_unlocked env_complete (fresh_context mem_zero [])
      reuse_queued_calls) { base := { seqnum := 0 } }).2.vpdo.head_urbr := by
  refine ⟨pool_next_sound, by decide, by decide, by decide, by decide, by decide⟩

/-! ### `remove_cancelled_urbr`, request found, with the read irp cancelled or not -/

end Usbreq
